import Mathlib

/-!
# stratalog: log ingestion and the broadcast hub

A shallow embedding of `internal/app/features/logapi/handler.go` (the submit
path and the listing endpoint), of `internal/app/features/logbrowser/hub.go`
(the publish/subscribe hub), of `internal/app/features/logbrowser/store.go`
(listing, counting, grouping and deleting) and of the stream endpoint and the
full entry of `internal/app/features/logbrowser/handler.go`, followed by
theorems about them.

Conventions of the embedding:

* a Go `map[string]interface{}` is an association list without a meaningful
  order; it is only ever observed through `Obj.get` and through iteration
  that builds another map;
* `time.Time` values are points on an abstract clock (`Nat`);
* the MongoDB driver is outside the repository: whether an insert reports an
  error is an input of the model; `InsertOne` then stores nothing, and
  `InsertMany`, which the handler calls with the default ordered option, has
  stored the documents that precede the failing one, their number being an
  input of the model too;
* a query, an aggregation or a delete of the store is taken to succeed;
  filters are modelled for fields that hold a string, null or nothing, as the
  data model has them, and a value of another type does not meet them;
* an operation of the hub that can panic returns, next to the hub it leaves,
  whether it did; the hub is used one operation at a time, as its mutex and
  the channel runtime ensure.
-/

namespace Stratalog

/-! ## Values and maps -/

/-- A Go `interface{}` value as `encoding/json` decodes it, plus the
`time.Time` that the handler itself stores. A number is a `float64`, kept as
its bit pattern; no code modelled here looks inside one. -/
inductive Value where
  | null : Value
  | bool (b : Bool) : Value
  | number (bits : Nat) : Value
  | str (s : String) : Value
  | array (xs : List Value) : Value
  | object (kvs : List (String × Value)) : Value
  | time (t : Nat) : Value

/-- A Go `map[string]interface{}`. -/
abbrev Obj := List (String × Value)

mutual
/-- Whether two values are the same, decided part by part. -/
def Value.decEq : (a b : Value) → Decidable (a = b)
  | Value.null, b => by
    cases b with
    | null => exact isTrue rfl
    | _ => exact isFalse (fun e => Value.noConfusion e)
  | Value.bool x, b => by
    cases b with
    | bool y =>
      exact if h : x = y then isTrue (congrArg Value.bool h)
        else isFalse (fun e => h (Value.bool.inj e))
    | _ => exact isFalse (fun e => Value.noConfusion e)
  | Value.number x, b => by
    cases b with
    | number y =>
      exact if h : x = y then isTrue (congrArg Value.number h)
        else isFalse (fun e => h (Value.number.inj e))
    | _ => exact isFalse (fun e => Value.noConfusion e)
  | Value.str x, b => by
    cases b with
    | str y =>
      exact if h : x = y then isTrue (congrArg Value.str h)
        else isFalse (fun e => h (Value.str.inj e))
    | _ => exact isFalse (fun e => Value.noConfusion e)
  | Value.time x, b => by
    cases b with
    | time y =>
      exact if h : x = y then isTrue (congrArg Value.time h)
        else isFalse (fun e => h (Value.time.inj e))
    | _ => exact isFalse (fun e => Value.noConfusion e)
  | Value.array xs, b => by
    cases b with
    | array ys =>
      exact match Value.decEqList xs ys with
        | isTrue h => isTrue (congrArg Value.array h)
        | isFalse h => isFalse (fun e => h (Value.array.inj e))
    | _ => exact isFalse (fun e => Value.noConfusion e)
  | Value.object xs, b => by
    cases b with
    | object ys =>
      exact match Value.decEqFields xs ys with
        | isTrue h => isTrue (congrArg Value.object h)
        | isFalse h => isFalse (fun e => h (Value.object.inj e))
    | _ => exact isFalse (fun e => Value.noConfusion e)
/-- Whether two lists of values are the same. -/
def Value.decEqList : (a b : List Value) → Decidable (a = b)
  | [], [] => isTrue rfl
  | [], _ :: _ => isFalse (fun e => List.noConfusion e)
  | _ :: _, [] => isFalse (fun e => List.noConfusion e)
  | x :: xs, y :: ys =>
    match Value.decEq x y, Value.decEqList xs ys with
    | isTrue h1, isTrue h2 => isTrue (by rw [h1, h2])
    | isFalse h1, _ => isFalse (fun e => h1 (List.cons.inj e).1)
    | _, isFalse h2 => isFalse (fun e => h2 (List.cons.inj e).2)
/-- Whether two lists of fields are the same. -/
def Value.decEqFields : (a b : List (String × Value)) → Decidable (a = b)
  | [], [] => isTrue rfl
  | [], _ :: _ => isFalse (fun e => List.noConfusion e)
  | _ :: _, [] => isFalse (fun e => List.noConfusion e)
  | (k, x) :: xs, (l, y) :: ys =>
    if hk : k = l then
      match Value.decEq x y, Value.decEqFields xs ys with
      | isTrue h1, isTrue h2 => isTrue (by rw [hk, h1, h2])
      | isFalse h1, _ => isFalse (fun e => h1 (Prod.mk.inj (List.cons.inj e).1).2)
      | _, isFalse h2 => isFalse (fun e => h2 (List.cons.inj e).2)
    else isFalse (fun e => hk (Prod.mk.inj (List.cons.inj e).1).1)
end

instance : DecidableEq Value := Value.decEq

/-- The map index expression `m[k]`, with `none` for an absent key. -/
def Obj.get : Obj → String → Option Value
  | [], _ => none
  | (k', v) :: rest, k => if k' = k then some v else Obj.get rest k

/-- The assignment `m[k] = v`. -/
def Obj.set (m : Obj) (k : String) (v : Value) : Obj :=
  (k, v) :: m.filter (fun kv => decide (kv.1 ≠ k))

/-- The type assertion `x.(string)` on the result of a map index. -/
def asString : Option Value → Option String
  | some (Value.str s) => some s
  | _ => none

/-- The type assertion `x.([]interface{})` on the result of a map index. -/
def asArray : Option Value → Option (List Value)
  | some (Value.array xs) => some xs
  | _ => none

/-- The type assertion `x.(map[string]interface{})`. -/
def asObject : Value → Option Obj
  | Value.object kvs => some kvs
  | _ => none

/-- The idiom `s, _ := m[k].(string)`: the string, or `""` when the assertion
fails. -/
def stringField (m : Obj) (k : String) : String :=
  (asString (m.get k)).getD ""

/-! ## The regular expression `gameRegex` -/

/-- Regular expressions over characters (the constructs `gameRegex` needs). -/
inductive Regex where
  | emp : Regex
  | eps : Regex
  | cls (ranges : List (Char × Char)) : Regex
  | seq (r s : Regex) : Regex
  | alt (r s : Regex) : Regex
  | star (r : Regex) : Regex

/-- Membership of a character in a bracket expression given by its ranges. -/
def inRanges (ranges : List (Char × Char)) (c : Char) : Bool :=
  ranges.any (fun lh => decide (lh.1 ≤ c) && decide (c ≤ lh.2))

/-- Whether the expression matches the empty string. -/
def Regex.nullable : Regex → Bool
  | Regex.emp => false
  | Regex.eps => true
  | Regex.cls _ => false
  | Regex.seq r s => r.nullable && s.nullable
  | Regex.alt r s => r.nullable || s.nullable
  | Regex.star _ => true

/-- The derivative of an expression by one character. -/
def Regex.deriv : Regex → Char → Regex
  | Regex.emp, _ => Regex.emp
  | Regex.eps, _ => Regex.emp
  | Regex.cls ranges, c => if inRanges ranges c then Regex.eps else Regex.emp
  | Regex.seq r s, c =>
      if r.nullable then Regex.alt (Regex.seq (r.deriv c) s) (s.deriv c)
      else Regex.seq (r.deriv c) s
  | Regex.alt r s, c => Regex.alt (r.deriv c) (s.deriv c)
  | Regex.star r, c => Regex.seq (r.deriv c) (Regex.star r)

/-- Whether the expression matches the whole of the text. -/
def Regex.matchAll : Regex → List Char → Bool
  | r, [] => r.nullable
  | r, c :: cs => (r.deriv c).matchAll cs

/-- The repetition `r+`. -/
def Regex.plus (r : Regex) : Regex := Regex.seq r (Regex.star r)

/-- The bracket expression `[A-Za-z0-9_-]`. -/
def gameClass : List (Char × Char) :=
  [('A', 'Z'), ('a', 'z'), ('0', '9'), ('_', '_'), ('-', '-')]

/-- The body of `gameRegex = regexp.MustCompile("^[A-Za-z0-9_-]+$")`. -/
def gameRegex : Regex := Regex.plus (Regex.cls gameClass)

/-- The call `gameRegex.MatchString(s)`. The pattern opens with `^` and ends
with `$` and sets no flag, so a match spans the text from its first to its
last character. -/
def MatchString (re : Regex) (s : String) : Bool := re.matchAll s.data

/-! ## The submit handler (`logapi/handler.go`) -/

/-- What the handler writes to the client: `writeJSONError` output, or the
`201 Created` body `LogResponse` with its `received_at` time. -/
inductive Response where
  | error (msg code : String) (status : Nat) : Response
  | created (receivedAt : Nat) : Response

/-- The function `writeJSONError`. -/
def writeJSONError (msg code : String) (status : Nat) : Response :=
  Response.error msg code status

/-- The calls the handler makes on its collaborators, as they occur. -/
inductive Effect where
  | insertOne (doc : Obj) : Effect
  | insertMany (docs : List Obj) : Effect
  | broadcast (game playerID eventType : String) (serverTimestamp : Nat) (data : Obj) : Effect
  | ensureIndexes : Effect

/-- The collection `logdata` and the calls made so far. -/
structure World where
  logdata : List Obj
  trace : List Effect

/-- What one request meets outside the handler: the value of
`time.Now().UTC()`, whether the driver reports an error for the insert, and,
for an `InsertMany` that reports one, how many documents of the call the
server had written before the failing one. -/
structure Env where
  now : Nat
  insertFails : Bool
  written : Nat

/-- The call `coll.InsertOne(ctx, doc)`; the flag returned is `err != nil`. -/
def InsertOne (w : World) (env : Env) (doc : Obj) : World × Bool :=
  if env.insertFails then
    ({ w with trace := w.trace ++ [Effect.insertOne doc] }, true)
  else
    ({ logdata := w.logdata ++ [doc], trace := w.trace ++ [Effect.insertOne doc] }, false)

/-- The call `coll.InsertMany(ctx, docs)`; the flag returned is `err != nil`.
The handler passes no option, so the insert is ordered: the server writes the
documents in order and stops at the first one it cannot write, and the
documents written before it stay in the collection. -/
def InsertMany (w : World) (env : Env) (docs : List Obj) : World × Bool :=
  if env.insertFails then
    ({ logdata := w.logdata ++ docs.take env.written,
       trace := w.trace ++ [Effect.insertMany docs] }, true)
  else
    ({ logdata := w.logdata ++ docs, trace := w.trace ++ [Effect.insertMany docs] }, false)

/-- The struct `Handler`, without its database and logger: `broadcaster` tells
whether the field is non-nil. -/
structure Handler where
  maxBatchSize : Int
  broadcaster : Bool

/-- The constructor `NewHandler`. -/
def NewHandler (maxBatchSize : Int) : Handler :=
  let maxBatchSize := if maxBatchSize ≤ 0 then 100 else maxBatchSize
  { maxBatchSize := maxBatchSize, broadcaster := false }

/-- The method `SetBroadcaster`, called with a non-nil function. -/
def Handler.SetBroadcaster (h : Handler) : Handler :=
  { h with broadcaster := true }

/-- The loop that extracts the data fields for a broadcast: every key of the
document except the known ones. -/
def extractData (m : Obj) : Obj :=
  m.filter (fun kv =>
    decide (kv.1 ≠ "game") && decide (kv.1 ≠ "playerId") && decide (kv.1 ≠ "eventType") &&
    decide (kv.1 ≠ "timestamp") && decide (kv.1 ≠ "serverTimestamp") && decide (kv.1 ≠ "_id"))

/-- One invocation `h.broadcaster(game, playerID, eventType, now, data)`. -/
def broadcastCall (w : World) (game playerID eventType : String) (now : Nat) (data : Obj) : World :=
  { w with trace := w.trace ++ [Effect.broadcast game playerID eventType now data] }

/-- The statement `go h.ensureIndexes()`. -/
def spawnEnsureIndexes (w : World) : World :=
  { w with trace := w.trace ++ [Effect.ensureIndexes] }

/-- The method `handleSingleSubmit`. -/
def Handler.handleSingleSubmit (h : Handler) (env : Env) (w : World) (raw : Obj) :
    Response × World :=
  match asString (raw.get "game") with
  | none => (writeJSONError "missing or invalid \x27game\x27 field" "MISSING_FIELD" 400, w)
  | some game =>
    if game = "" then
      (writeJSONError "missing or invalid \x27game\x27 field" "MISSING_FIELD" 400, w)
    else if !MatchString gameRegex game then
      (writeJSONError "invalid \x27game\x27 value" "INVALID_GAME" 400, w)
    else
      let now := env.now
      let raw := raw.set "serverTimestamp" (Value.time now)
      let (w, err) := InsertOne w env raw
      if err then
        (writeJSONError "Failed to save log entry" "INSERT_FAILED" 500, w)
      else
        let playerID := stringField raw "playerId"
        let eventType := stringField raw "eventType"
        let w := if h.broadcaster then
            broadcastCall w game playerID eventType now (extractData raw)
          else w
        let w := spawnEnsureIndexes w
        (Response.created now, w)

/-- The first loop of `handleBatchSubmit`, from index `i` on: the documents
built from the entries, or the index of the first entry that is not an
object. -/
def buildDocs (game : String) (now : Nat) : Nat → List Value → Except Nat (List Obj)
  | _, [] => Except.ok []
  | i, e :: rest =>
    match asObject e with
    | none => Except.error i
    | some entryMap =>
      let entryMap := entryMap.set "game" (Value.str game)
      let entryMap := entryMap.set "serverTimestamp" (Value.time now)
      match buildDocs game now (i + 1) rest with
      | Except.error j => Except.error j
      | Except.ok docs => Except.ok (entryMap :: docs)

/-- The second loop of `handleBatchSubmit`: one broadcaster call per
document. -/
def broadcastDocs (game : String) (now : Nat) : World → List Obj → World
  | w, [] => w
  | w, entryMap :: rest =>
    let playerID := stringField entryMap "playerId"
    let eventType := stringField entryMap "eventType"
    broadcastDocs game now (broadcastCall w game playerID eventType now (extractData entryMap)) rest

/-- The method `handleBatchSubmit`. -/
def Handler.handleBatchSubmit (h : Handler) (env : Env) (w : World) (raw : Obj)
    (entries : List Value) : Response × World :=
  match asString (raw.get "game") with
  | none => (writeJSONError "missing or invalid \x27game\x27 field" "MISSING_FIELD" 400, w)
  | some game =>
    if game = "" then
      (writeJSONError "missing or invalid \x27game\x27 field" "MISSING_FIELD" 400, w)
    else if !MatchString gameRegex game then
      (writeJSONError "invalid \x27game\x27 value" "INVALID_GAME" 400, w)
    else if entries.length = 0 then
      (writeJSONError "Entries array is empty" "EMPTY_ENTRIES" 400, w)
    else if (entries.length : Int) > h.maxBatchSize then
      (writeJSONError ("Batch size exceeds maximum of " ++ toString h.maxBatchSize)
        "BATCH_TOO_LARGE" 400, w)
    else
      let now := env.now
      match buildDocs game now 0 entries with
      | Except.error i =>
        (writeJSONError ("Invalid entry at index " ++ toString i) "INVALID_ENTRY" 400, w)
      | Except.ok docs =>
        let (w, err) := InsertMany w env docs
        if err then
          (writeJSONError "Failed to save log entries" "INSERT_FAILED" 500, w)
        else
          let w := if h.broadcaster then broadcastDocs game now w docs else w
          let w := spawnEnsureIndexes w
          (Response.created now, w)

/-- The request body as `json.NewDecoder(r.Body).Decode(&raw)` leaves it. -/
inductive Body where
  | tooLarge : Body
  | invalid : Body
  | parsed (raw : Obj) : Body

/-- The method `SubmitHandler`. -/
def Handler.SubmitHandler (h : Handler) (env : Env) (w : World) : Body → Response × World
  | Body.tooLarge => (writeJSONError "request body too large" "BODY_TOO_LARGE" 413, w)
  | Body.invalid => (writeJSONError "Invalid JSON payload" "INVALID_JSON" 400, w)
  | Body.parsed raw =>
    match asArray (raw.get "entries") with
    | some entries => h.handleBatchSubmit env w raw entries
    | none => h.handleSingleSubmit env w raw

/-! ## The claims' vocabulary -/

/-- The error code of a response, `""` for a success. -/
def Response.code : Response → String
  | Response.error _ code _ => code
  | Response.created _ => ""

/-- A response that is neither of the two rejections of the `game` check: the
request got past game validation. -/
def pastGameValidation (r : Response) : Bool :=
  decide (r.code ≠ "MISSING_FIELD") && decide (r.code ≠ "INVALID_GAME")

/-- The identifier charset of the data model, letter by letter: `A-Z`, `a-z`,
`0-9`, `_` and `-`. -/
def identifierChars : List Char :=
  "ABCDEFGHIJKLMNOPQRSTUVWXYZabcdefghijklmnopqrstuvwxyz0123456789_-".data

/-- The data model's requirement on `game`, in the spec's words: a string that
is non-empty and made of identifier characters only. -/
def validGame (raw : Obj) : Bool :=
  match raw.get "game" with
  | some (Value.str g) => decide (g ≠ "") && g.data.all (fun c => decide (c ∈ identifierChars))
  | _ => false

/-! ## Vocabulary for the submit paths -/

/-- The world after a successful single insert. -/
def singleAccepted (h : Handler) (env : Env) (w : World) (game : String) (doc : Obj) : World :=
  { logdata := w.logdata ++ [doc]
    trace := w.trace ++ [Effect.insertOne doc] ++
      (if h.broadcaster then
        [Effect.broadcast game (stringField doc "playerId") (stringField doc "eventType")
          env.now (extractData doc)]
      else []) ++ [Effect.ensureIndexes] }

/-- Whether an element of `entries` is a JSON object. -/
def isObject (v : Value) : Bool := (asObject v).isSome

/-- An entry with `game` and `serverTimestamp` assigned, as the first loop of
`handleBatchSubmit` leaves it. -/
def stampEntry (game : String) (now : Nat) (entryMap : Obj) : Obj :=
  (entryMap.set "game" (Value.str game)).set "serverTimestamp" (Value.time now)

/-- The world after a successful batch insert. -/
def batchAccepted (h : Handler) (env : Env) (w : World) (game : String) (docs : List Obj) :
    World :=
  { logdata := w.logdata ++ docs
    trace := w.trace ++ [Effect.insertMany docs] ++
      (if h.broadcaster then
        docs.map (fun d =>
          Effect.broadcast game (stringField d "playerId") (stringField d "eventType")
            env.now (extractData d))
      else []) ++ [Effect.ensureIndexes] }

/-- The effective maximum batch size, in the spec's words: the configured
value, or 100 when the configured value is not positive. -/
def effectiveMax (configured : Int) : Int := if configured ≤ 0 then 100 else configured

/-- A response that is neither of the two rejections of the size check. -/
def pastSizeValidation (r : Response) : Bool :=
  decide (r.code ≠ "EMPTY_ENTRIES") && decide (r.code ≠ "BATCH_TOO_LARGE")

/-! ## The data map of `ListLogs` (`logbrowser/store.go`), and its vocabulary -/

/-- The known top-level fields as the spec's data model names them, the
identifier under its stored key. -/
def specKnownFields : List String :=
  ["game", "playerId", "eventType", "clientTimestamp", "serverTimestamp", "_id"]

/-- The map `knownFields` of `ListLogs` (`store.go`). -/
def knownFields : List (String × Bool) :=
  [("_id", true), ("game", true), ("playerId", true), ("eventType", true),
    ("timestamp", true), ("serverTimestamp", true)]

/-- The index expression `knownFields[k]`: `false` for an absent key. -/
def knownFieldsAt (k : String) : Bool :=
  match knownFields.lookup k with
  | some b => b
  | none => false

/-- The loop of `ListLogs` that collects the remaining fields of a decoded
document into `data`. -/
def collectData (raw : Obj) : Obj :=
  raw.filter (fun kv => !knownFieldsAt kv.1)

/-- The field `entry.Data` that `ListLogs` leaves: `data` when it has a key,
the nil map otherwise. -/
def entryData (raw : Obj) : Option Obj :=
  let data := collectData raw
  if data.length > 0 then some data else none

/-- Reading a possibly nil map. -/
def Obj.ofNilable : Option Obj → Obj
  | some m => m
  | none => []

/-- The keys that the code keeps out of `data`. -/
def codeKnownFields : List String := knownFields.map Prod.fst

/-- The map `data` holds exactly the keys of `payload` outside `known`, each
with the payload value. -/
def excludesExactly (known : List String) (payload data : Obj) : Prop :=
  ∀ k, data.get k = if k ∈ known then none else payload.get k

/-! ## Vocabulary for broadcasts -/

/-- Whether a call is an invocation of the broadcaster. -/
def isBroadcast : Effect → Bool
  | Effect.broadcast _ _ _ _ _ => true
  | _ => false

/-- The broadcaster invocation that belongs to a persisted document: its
`game`, `playerId` and `eventType` read as strings, the acceptance time, and
its data fields. -/
def entryBroadcast (now : Nat) (d : Obj) : Effect :=
  Effect.broadcast (stringField d "game") (stringField d "playerId")
    (stringField d "eventType") now (extractData d)

/-- The calls that a request made: what the trace `w1` after the request holds
beyond the trace of the world `w` it started from. -/
def newCalls (w w1 : World) : List Effect := w1.trace.drop w.trace.length

/-- The documents that a request persisted: what the collection of `w1` holds
beyond the collection of the world `w` it started from. -/
def newDocs (w w1 : World) : List Obj := w1.logdata.drop w.logdata.length

/-! ## The hub (`logbrowser/hub.go`) -/

/-- The struct `LogEvent`. -/
structure LogEvent where
  ID : String
  Game : String
  PlayerID : String
  EventType : String
  ServerTimestamp : Nat
  Data : Obj

/-- A Go channel `chan LogEvent`: the events waiting in its buffer, oldest
first, its capacity, and whether it has been closed. -/
structure Chan where
  buf : List LogEvent
  cap : Nat
  closed : Bool

/-- The struct `Hub` with the channels that `Subscribe` has made; a channel is
named by its position in `chans`, and `subscribers` holds the keys of the map
`h.subscribers`. The mutex is not modelled: every operation is one step. -/
structure Hub where
  subscribers : List Nat
  chans : List Chan

/-- The constructor `NewHub`. -/
def NewHub : Hub := { subscribers := [], chans := [] }

/-- The method `Subscribe`: the hub it leaves and the channel it returns. -/
def Hub.Subscribe (h : Hub) : Hub × Nat :=
  let ch := h.chans.length
  let chans := h.chans ++ [{ buf := [], cap := 16, closed := false }]
  ({ subscribers := if ch ∈ h.subscribers then h.subscribers else h.subscribers ++ [ch]
     chans := chans }, ch)

/-- The method `Unsubscribe`: the hub it leaves, and whether `close(ch)`
panicked (a channel that is already closed, or no channel at all). -/
def Hub.Unsubscribe (h : Hub) (ch : Nat) : Hub × Bool :=
  let subscribers := h.subscribers.filter (fun s => decide (s ≠ ch))
  match h.chans[ch]? with
  | none => ({ h with subscribers := subscribers }, true)
  | some c =>
    if c.closed then ({ h with subscribers := subscribers }, true)
    else ({ subscribers := subscribers, chans := h.chans.set ch { c with closed := true } }, false)

/-- The loop of `Broadcast` over the subscribers still to visit, each visit
being `select { case ch <- event: default: }`; the flag tells whether a
send panicked (a closed channel). Go visits the keys of the map in an order it
does not specify; a visit touches the channel of its own key only. -/
def sendAll (event : LogEvent) : List Nat → Hub → Hub × Bool
  | [], h => (h, false)
  | ch :: rest, h =>
    match h.chans[ch]? with
    | none => (h, true)
    | some c =>
      if c.closed then (h, true)
      else if c.buf.length < c.cap then
        sendAll event rest { h with chans := h.chans.set ch { c with buf := c.buf ++ [event] } }
      else sendAll event rest h

/-- The method `Broadcast`: the hub it leaves, and whether it panicked. -/
def Hub.Broadcast (h : Hub) (event : LogEvent) : Hub × Bool :=
  sendAll event h.subscribers h

/-- The method `SubscriberCount`. -/
def Hub.SubscriberCount (h : Hub) : Nat := h.subscribers.length

/-- What a receive `event, ok := <-ch` yields: an event, the closed signal
(`ok == false`), or nothing yet (the receive would block). -/
inductive Recv where
  | event (e : LogEvent) : Recv
  | closed : Recv
  | wouldBlock : Recv

/-- The receive that the stream endpoint performs on its channel. -/
def Hub.receive (h : Hub) (ch : Nat) : Hub × Recv :=
  match h.chans[ch]? with
  | none => (h, Recv.wouldBlock)
  | some c =>
    match c.buf with
    | e :: rest => ({ h with chans := h.chans.set ch { c with buf := rest } }, Recv.event e)
    | [] => (h, if c.closed then Recv.closed else Recv.wouldBlock)

/-- The operations that the program performs on the hub. -/
inductive Op where
  | subscribe : Op
  | unsubscribe (ch : Nat) : Op
  | broadcast (event : LogEvent) : Op
  | receive (ch : Nat) : Op

/-- What an operation lets an observer see. -/
inductive Obs where
  | subscribed (ch : Nat) : Obs
  | unsubscribed (ch : Nat) : Obs
  | broadcast (event : LogEvent) : Obs
  | received (ch : Nat) (event : LogEvent) : Obs

/-- One operation on the hub. A panic ends the calling goroutine only, so the
hub goes on from the state the operation left. -/
def step (h : Hub) : Op → Hub × List Obs
  | Op.subscribe => (h.Subscribe.1, [Obs.subscribed h.Subscribe.2])
  | Op.unsubscribe ch => ((h.Unsubscribe ch).1, [Obs.unsubscribed ch])
  | Op.broadcast event => ((h.Broadcast event).1, [Obs.broadcast event])
  | Op.receive ch =>
    match h.receive ch with
    | (h1, Recv.event e) => (h1, [Obs.received ch e])
    | (h1, _) => (h1, [])

/-- A sequence of operations, from a given hub: the hub at the end and what
was observed, in order. -/
def run : Hub → List Op → Hub × List Obs
  | h, [] => (h, [])
  | h, op :: ops => ((run (step h op).1 ops).1, (step h op).2 ++ (run (step h op).1 ops).2)

/-- The events that a subscriber took out of its channel, in order. -/
def receivedBy (ch : Nat) : List Obs → List LogEvent
  | [] => []
  | Obs.received c e :: rest => if c = ch then e :: receivedBy ch rest else receivedBy ch rest
  | _ :: rest => receivedBy ch rest

/-- The events broadcast while `ch` was subscribed: after a `Subscribe` that
returned it and before its `Unsubscribe`. The flag tells whether `ch` is
subscribed at the start of the observations. -/
def broadcastWhileSubscribed (ch : Nat) : Bool → List Obs → List LogEvent
  | _, [] => []
  | active, Obs.subscribed c :: rest =>
    broadcastWhileSubscribed ch (active || decide (c = ch)) rest
  | active, Obs.unsubscribed c :: rest =>
    broadcastWhileSubscribed ch (active && decide (c ≠ ch)) rest
  | active, Obs.broadcast e :: rest =>
    if active then e :: broadcastWhileSubscribed ch active rest
    else broadcastWhileSubscribed ch active rest
  | active, Obs.received _ _ :: rest => broadcastWhileSubscribed ch active rest

/-- The invariant of the hub: the keys of the subscriber map are distinct,
each is an open channel, and every channel has capacity 16 and holds no more
than that. -/
structure Hub.WF (h : Hub) : Prop where
  nodup : h.subscribers.Nodup
  registered : ∀ ch ∈ h.subscribers, ∃ c : Chan, h.chans[ch]? = some c ∧ c.closed = false
  bounded : ∀ (ch : Nat) (c : Chan), h.chans[ch]? = some c → c.cap = 16 ∧ c.buf.length ≤ 16

/-- The effect of one `select` send on a channel: the event joins the tail of
the buffer when there is room, and is dropped otherwise. -/
def deliver (event : LogEvent) (c : Chan) : Chan :=
  if c.buf.length < c.cap then { c with buf := c.buf ++ [event] } else c

/-! ## Vocabulary for runs of the hub -/

/-- The events waiting in a channel, none for a handle that is no channel. -/
def bufOf (h : Hub) (ch : Nat) : List LogEvent :=
  match h.chans[ch]? with
  | some c => c.buf
  | none => []

/-- An event for the worked examples. -/
def sampleEvent : LogEvent :=
  { ID := "", Game := "mhs", PlayerID := "p1", EventType := "level_start",
    ServerTimestamp := 7, Data := [] }

/-- Two subscribers, sixteen broadcasts, and one receive by the second
subscriber: channel 0 is full and channel 1 has room for one event. -/
def sampleOps : List Op :=
  [Op.subscribe, Op.subscribe] ++ List.replicate 16 (Op.broadcast sampleEvent) ++ [Op.receive 1]

/-! ## The stream endpoint (`logbrowser/handler.go`) -/

/-- What `ServeRecentLogsStream` writes to the client: the acknowledgment, or
one `log` event. -/
inductive Frame where
  | connected : Frame
  | log (event : LogEvent) : Frame

/-- What happens next while `ServeRecentLogsStream` is in its loop: another
goroutine performs an operation on the hub, or the `select` of the loop takes
its `<-ctx.Done()` case (the context is cancelled), or it takes its `<-ch`
case. -/
inductive Tick where
  | other (op : Op) : Tick
  | done : Tick
  | recv : Tick

/-- How the loop of `ServeRecentLogsStream` was left, `waiting` when it has
not been left yet. -/
inductive StreamExit where
  | unsupported : StreamExit
  | cancelled : StreamExit
  | closed : StreamExit
  | waiting : StreamExit

/-- A run of `ServeRecentLogsStream`: the hub it leaves, the frames written,
how the loop was left, and whether the deferred `Unsubscribe` panicked. -/
structure StreamRun where
  hub : Hub
  frames : List Frame
  exit : StreamExit
  panicked : Bool

/-- The loop `for { select { ... } }` of `ServeRecentLogsStream` on the
channel `ch`. `marshalFails` tells for which events `json.Marshal` returns an
error: these are skipped. A `<-ch` case that is not ready leaves everything as
it is. -/
def streamLoop (marshalFails : LogEvent → Bool) (ch : Nat) :
    Hub → List Frame → List Tick → Hub × List Frame × StreamExit
  | h, frames, [] => (h, frames, StreamExit.waiting)
  | h, frames, Tick.other op :: rest => streamLoop marshalFails ch (step h op).1 frames rest
  | h, frames, Tick.done :: _ => (h, frames, StreamExit.cancelled)
  | h, frames, Tick.recv :: rest =>
    match h.receive ch with
    | (h1, Recv.event event) =>
      if marshalFails event then streamLoop marshalFails ch h1 frames rest
      else streamLoop marshalFails ch h1 (frames ++ [Frame.log event]) rest
    | (h1, Recv.closed) => (h1, frames, StreamExit.closed)
    | (h1, Recv.wouldBlock) => streamLoop marshalFails ch h1 frames rest

/-- The method `ServeRecentLogsStream` of the log browser, on the hub of its
handler. `flusher` tells whether the response writer is an `http.Flusher`. The
deferred `Unsubscribe(ch)` runs when the function returns. -/
def ServeRecentLogsStream (marshalFails : LogEvent → Bool) (h : Hub) (flusher : Bool)
    (ticks : List Tick) : StreamRun :=
  if !flusher then
    { hub := h, frames := [], exit := StreamExit.unsupported, panicked := false }
  else
    let ch := h.Subscribe.2
    match streamLoop marshalFails ch h.Subscribe.1 [Frame.connected] ticks with
    | (h1, frames, StreamExit.waiting) =>
      { hub := h1, frames := frames, exit := StreamExit.waiting, panicked := false }
    | (h1, frames, exit) =>
      { hub := (h1.Unsubscribe ch).1, frames := frames, exit := exit,
        panicked := (h1.Unsubscribe ch).2 }

/-! ## The broadcaster closure (`bootstrap/routes.go`) -/

/-- The struct literal of the closure passed to `SetBroadcaster`: the field
`ID` is not assigned and keeps its zero value. -/
def closureEvent (game playerID eventType : String) (serverTimestamp : Nat) (data : Obj) :
    LogEvent :=
  { ID := "", Game := game, PlayerID := playerID, EventType := eventType,
    ServerTimestamp := serverTimestamp, Data := data }

/-- The closure passed to `SetBroadcaster`, on the hub `logHub`. -/
def broadcasterClosure (logHub : Hub) (game playerID eventType : String)
    (serverTimestamp : Nat) (data : Obj) : Hub × Bool :=
  logHub.Broadcast (closureEvent game playerID eventType serverTimestamp data)

/-- The events that the closure hands to the hub for the broadcaster calls of
a trace, in order. -/
def eventsHanded : List Effect → List LogEvent
  | [] => []
  | Effect.broadcast game playerID eventType serverTimestamp data :: rest =>
    closureEvent game playerID eventType serverTimestamp data :: eventsHanded rest
  | _ :: rest => eventsHanded rest

/-! ## Object ids (`primitive.ObjectID`) -/

/-- A `primitive.ObjectID`: twelve bytes, read as one big-endian number, so
that the order of the numbers is the byte-wise order of the ids. -/
abbrev ObjectID := Fin (2 ^ 96)

/-- The lower-case hexadecimal digit of a value below 16. -/
def hexDigitChar (d : Nat) : Char :=
  if d < 10 then Char.ofNat (48 + d) else Char.ofNat (87 + d)

/-- The value of a hexadecimal digit, of either case. -/
def hexVal (c : Char) : Option Nat :=
  if 48 ≤ c.toNat ∧ c.toNat ≤ 57 then some (c.toNat - 48)
  else if 97 ≤ c.toNat ∧ c.toNat ≤ 102 then some (c.toNat - 87)
  else if 65 ≤ c.toNat ∧ c.toNat ≤ 70 then some (c.toNat - 55)
  else none

/-- The `width` low hexadecimal digits of a number, most significant first. -/
def hexDigits : Nat → Nat → List Char
  | 0, _ => []
  | width + 1, n => hexDigits width (n / 16) ++ [hexDigitChar (n % 16)]

/-- The number that a string of hexadecimal digits writes, continuing from
`acc`; `none` when a character is no hexadecimal digit. -/
def decodeHexFrom : Nat → List Char → Option Nat
  | acc, [] => some acc
  | acc, c :: cs =>
    match hexVal c with
    | none => none
    | some d => decodeHexFrom (acc * 16 + d) cs

/-- The method `ObjectID.Hex`: 24 hexadecimal digits. -/
def Hex (id : ObjectID) : String := String.mk (hexDigits 24 id.val)

/-- The function `primitive.ObjectIDFromHex`: the id that a string of exactly
24 hexadecimal digits writes, `none` (an error) for every other string. -/
def ObjectIDFromHex (s : String) : Option ObjectID :=
  if s.length = 24 then
    match decodeHexFrom 0 s.data with
    | some n => if h : n < 2 ^ 96 then some ⟨n, h⟩ else none
    | none => none
  else none

/-- The event that the closure builds for a persisted document: its `game`,
`playerId` and `eventType` read as strings, the acceptance time, and its data
fields. -/
def entryEvent (now : Nat) (d : Obj) : LogEvent :=
  closureEvent (stringField d "game") (stringField d "playerId")
    (stringField d "eventType") now (extractData d)

/-! ## The log store (`logbrowser/store.go`) -/

/-- A document of the collection `logdata` as the data model has it: `_id` an
object id, `serverTimestamp` a date, and the other fields. A document that was
submitted with a string `_id` of its own is not of this type: it is a
`RawDoc`. -/
structure Doc where
  ID : ObjectID
  ServerTimestamp : Nat
  fields : Obj

/-- The struct `LogEntry` of the log browser. -/
structure LogEntry where
  ID : ObjectID
  Game : String
  PlayerID : String
  EventType : String
  Timestamp : Option Nat
  ServerTimestamp : Nat
  Data : Option Obj

/-- The filter `bson.M{k: s}` on a document: the field holds the string. -/
def condEq (k s : String) (d : Doc) : Bool :=
  match d.fields.get k with
  | some (Value.str v) => decide (v = s)
  | _ => false

/-- The filter `$or: [{playerId: nil}, {playerId: ""}, {playerId: {$exists:
false}}]`: the field is null, the empty string, or missing. -/
def condNoPlayer (d : Doc) : Bool :=
  match d.fields.get "playerId" with
  | none => true
  | some Value.null => true
  | some (Value.str v) => decide (v = "")
  | _ => false

/-- The filter `_id: {$gt: oid}`. -/
def condIdGt (oid : ObjectID) (d : Doc) : Bool := decide (oid < d.ID)

/-- The filter `_id: {$lt: oid}`. -/
def condIdLt (oid : ObjectID) (d : Doc) : Bool := decide (d.ID < oid)

/-- The order `serverTimestamp` descending, then `_id` descending: `a` does not
come after `b`. -/
def leDesc (a b : Doc) : Bool :=
  decide (b.ServerTimestamp < a.ServerTimestamp) ||
    (decide (a.ServerTimestamp = b.ServerTimestamp) && decide (b.ID ≤ a.ID))

/-- The order `serverTimestamp` ascending, then `_id` ascending. -/
def leAsc (a b : Doc) : Bool :=
  decide (a.ServerTimestamp < b.ServerTimestamp) ||
    (decide (a.ServerTimestamp = b.ServerTimestamp) && decide (a.ID ≤ b.ID))

/-- The sort `bson.D{{serverTimestamp, sortDir}, {_id, sortDir}}`: ascending
for `1`, descending for `-1`. -/
def sortOrder (sortDir : Int) (a b : Doc) : Bool :=
  if sortDir = 1 then leAsc a b else leDesc a b

/-- The call `coll.Find(ctx, filter, opts)` read to its end: the documents
that meet every condition of the filter, sorted, and cut to the limit when the
limit is not zero. The query is taken to succeed. -/
def Find (coll : List Doc) (filter : List (Doc → Bool)) (sortDir : Int) (limit : Nat) :
    List Doc :=
  let rows := (coll.filter (fun d => filter.all (fun c => c d))).insertionSort
    (fun a b => sortOrder sortDir a b = true)
  if limit = 0 then rows else rows.take limit

/-- The body of the decoding loop of `ListLogs` for one document whose `_id`
is an ObjectID, so that the type assertion `raw["_id"].(primitive.ObjectID)`
succeeds. `toEntryRaw` is the loop body for either kind of `_id`, and agrees
with this one on such a document. -/
def toEntry (d : Doc) : LogEntry :=
  { ID := d.ID
    Game := stringField d.fields "game"
    PlayerID := stringField d.fields "playerId"
    EventType := stringField d.fields "eventType"
    Timestamp :=
      match d.fields.get "timestamp" with
      | some (Value.time t) => some t
      | _ => none
    ServerTimestamp := d.ServerTimestamp
    Data := entryData d.fields }

/-- The method `ListLogs` on a collection in which every `_id` is an ObjectID:
the entries, `hasPrev` and `hasNext`. Every caller passes a positive `limit`.
`ListLogsRaw` is the method on a collection with either kind of `_id`, and
agrees with this one on such a collection. -/
def ListLogs (coll : List Doc) (game playerID eventType : String) (limit : Nat)
    (afterID beforeID : String) : List LogEntry × Bool × Bool :=
  let filter : List (Doc → Bool) := [condEq "game" game]
  let filter :=
    if playerID = "__empty__" then filter ++ [condNoPlayer]
    else if playerID ≠ "" then filter ++ [condEq "playerId" playerID]
    else filter
  let filter := if eventType ≠ "" then filter ++ [condEq "eventType" eventType] else filter
  let cursor : List (Doc → Bool) × Int :=
    if beforeID ≠ "" then
      match ObjectIDFromHex beforeID with
      | some oid => (filter ++ [condIdGt oid], 1)
      | none => (filter, -1)
    else if afterID ≠ "" then
      match ObjectIDFromHex afterID with
      | some oid => (filter ++ [condIdLt oid], -1)
      | none => (filter, -1)
    else (filter, -1)
  let entries := (Find coll cursor.1 cursor.2 (limit + 1)).map toEntry
  let hasMore := decide (entries.length > limit)
  let entries := if hasMore then entries.take limit else entries
  let entries := if beforeID ≠ "" ∧ entries.length > 0 then entries.reverse else entries
  let hasPrev := decide (afterID ≠ "") || decide (beforeID ≠ "")
  let hasNext := hasMore || decide (beforeID ≠ "")
  if beforeID ≠ "" then (entries, hasMore, true) else (entries, hasPrev, hasNext)

/-- The cursor `data.NextCursor` that `ServeLogs` renders: the id of the last
entry of the page, empty for an empty page. -/
def nextCursor (logs : List LogEntry) : String :=
  match logs.getLast? with
  | some l => Hex l.ID
  | none => ""

/-- The cursor `data.PrevCursor` that `ServeLogs` renders: the id of the first
entry of the page, empty for an empty page. -/
def prevCursor (logs : List LogEntry) : String :=
  match logs.head? with
  | some l => Hex l.ID
  | none => ""

/-! ## Vocabulary for paging -/

/-- The filter of a listing request, without the cursor bound. -/
def matchesFilter (game playerID eventType : String) (d : Doc) : Bool :=
  condEq "game" game d &&
  (if playerID = "__empty__" then condNoPlayer d
    else if playerID ≠ "" then condEq "playerId" playerID d else true) &&
  (if eventType ≠ "" then condEq "eventType" eventType d else true)

/-- The primary key: no two documents of a collection have the same `_id`. -/
def uniqueIds (coll : List Doc) : Prop := (coll.map Doc.ID).Nodup

/-- The order of the ids agrees with the order of the server timestamps: a
document with a smaller id has no later timestamp. -/
def idsAgree (coll : List Doc) : Prop :=
  ∀ a ∈ coll, ∀ b ∈ coll, a.ID < b.ID → a.ServerTimestamp ≤ b.ServerTimestamp

/-- A list of documents put in the order `serverTimestamp` descending, then
`_id` descending. -/
def sortedDesc (l : List Doc) : List Doc := l.insertionSort (fun a b => leDesc a b = true)

/-- A list of documents put in the order `serverTimestamp` ascending, then
`_id` ascending. -/
def sortedAsc (l : List Doc) : List Doc := l.insertionSort (fun a b => leAsc a b = true)

/-- The full listing for a filter: the matching documents in the order
`serverTimestamp` descending, then `_id` descending. -/
def listing (coll : List Doc) (game playerID eventType : String) : List Doc :=
  sortedDesc (coll.filter (matchesFilter game playerID eventType))

/-- The filter that `ListLogs` builds before it looks at the cursors. -/
def logFilter (game playerID eventType : String) : List (Doc → Bool) :=
  let filter : List (Doc → Bool) := [condEq "game" game]
  let filter :=
    if playerID = "__empty__" then filter ++ [condNoPlayer]
    else if playerID ≠ "" then filter ++ [condEq "playerId" playerID]
    else filter
  if eventType ≠ "" then filter ++ [condEq "eventType" eventType] else filter

/-- The cursor handling of `ListLogs`: the filter with its bound on `_id`, and
the direction of the sort. -/
def cursorOf (filter : List (Doc → Bool)) (afterID beforeID : String) :
    List (Doc → Bool) × Int :=
  if beforeID ≠ "" then
    match ObjectIDFromHex beforeID with
    | some oid => (filter ++ [condIdGt oid], 1)
    | none => (filter, -1)
  else if afterID ≠ "" then
    match ObjectIDFromHex afterID with
    | some oid => (filter ++ [condIdLt oid], -1)
    | none => (filter, -1)
  else (filter, -1)

/-- What `ListLogs` makes of the rows that `Find` returned. -/
def pageOf (limit : Nat) (afterID beforeID : String) (rows : List Doc) :
    List LogEntry × Bool × Bool :=
  let entries := rows.map toEntry
  let hasMore := decide (entries.length > limit)
  let entries := if hasMore then entries.take limit else entries
  let entries := if beforeID ≠ "" ∧ entries.length > 0 then entries.reverse else entries
  let hasPrev := decide (afterID ≠ "") || decide (beforeID ≠ "")
  let hasNext := hasMore || decide (beforeID ≠ "")
  if beforeID ≠ "" then (entries, hasMore, true) else (entries, hasPrev, hasNext)

/-- The bound that a well-formed `afterID` puts on `_id`; no bound for any
other string. -/
def afterBound (afterID : String) (d : Doc) : Bool :=
  match ObjectIDFromHex afterID with
  | some a => decide (d.ID < a)
  | none => true

/-- The requests of a viewer who starts without a cursor and then follows
`NextCursor` each time (`ServeLogs` hands out the id of the last entry of the
page): request `n` of that sequence. -/
def followedPage (coll : List Doc) (game playerID eventType : String) (limit : Nat) :
    Nat → List LogEntry × Bool × Bool
  | 0 => ListLogs coll game playerID eventType limit "" ""
  | n + 1 =>
    ListLogs coll game playerID eventType limit
      (nextCursor (followedPage coll game playerID eventType limit n).1) ""

/-! ## Sample stores -/

/-- Three entries of the game `mhs`, inserted in the order of their ids. -/
def sampleColl : List Doc :=
  [{ ID := 1, ServerTimestamp := 10, fields := [("game", Value.str "mhs")] },
   { ID := 2, ServerTimestamp := 20, fields := [("game", Value.str "mhs")] },
   { ID := 3, ServerTimestamp := 30, fields := [("game", Value.str "mhs")] }]

/-- Three entries of the game `mhs` whose ids do not follow their server
timestamps: the entry with id 5 is older than the entry with id 1. -/
def disorderedColl : List Doc :=
  [{ ID := 1, ServerTimestamp := 10, fields := [("game", Value.str "mhs")] },
   { ID := 5, ServerTimestamp := 9, fields := [("game", Value.str "mhs")] },
   { ID := 3, ServerTimestamp := 8, fields := [("game", Value.str "mhs")] }]

/-- The store of the scenario: 150 entries of the game `x`, ids 1 to 150 in
insertion order, timestamps non-decreasing (two entries share each one). -/
def scenarioColl : List Doc :=
  (List.range 150).map (fun i =>
    { ID := Fin.ofNat' (2 ^ 96) (i + 1), ServerTimestamp := 1000 + i / 2,
      fields := [("game", Value.str "x"), ("n", Value.number i)] })

/-! ## Counting and deleting (`logbrowser/store.go`) -/

/-- The call `coll.CountDocuments(ctx, filter)`, taken to succeed. -/
def CountDocuments (coll : List Doc) (filter : List (Doc → Bool)) : Nat :=
  (coll.filter (fun d => filter.all (fun c => c d))).length

/-- The method `CountLogs`. -/
def CountLogs (coll : List Doc) (game playerID eventType : String) : Nat :=
  let filter : List (Doc → Bool) := [condEq "game" game]
  let filter :=
    if playerID = "__empty__" then filter ++ [condNoPlayer]
    else if playerID ≠ "" then filter ++ [condEq "playerId" playerID]
    else filter
  let filter := if eventType ≠ "" then filter ++ [condEq "eventType" eventType] else filter
  CountDocuments coll filter

/-- The filter `_id: id`. -/
def condIdEq (id : ObjectID) (d : Doc) : Bool := decide (d.ID = id)

/-- The call `coll.DeleteOne(ctx, filter)`, taken to succeed: the collection
without the first document that meets the filter, and `DeletedCount`. -/
def DeleteOne (coll : List Doc) (filter : List (Doc → Bool)) : List Doc × Nat :=
  match coll.find? (fun d => filter.all (fun c => c d)) with
  | some _ => (coll.eraseP (fun d => filter.all (fun c => c d)), 1)
  | none => (coll, 0)

/-- The call `coll.DeleteMany(ctx, filter)`, taken to succeed: the collection
without the documents that meet the filter, and `DeletedCount`. -/
def DeleteMany (coll : List Doc) (filter : List (Doc → Bool)) : List Doc × Nat :=
  (coll.filter (fun d => !filter.all (fun c => c d)),
    (coll.filter (fun d => filter.all (fun c => c d))).length)

/-- The method `DeleteLog`: the collection it leaves and the `error` it
returns, as `err != nil`. The result of `DeleteOne` is dropped. -/
def DeleteLog (coll : List Doc) (game : String) (id : ObjectID) : List Doc × Bool :=
  let (coll, _) := DeleteOne coll [condIdEq id, condEq "game" game]
  (coll, false)

/-- The method `DeletePlayerLogs`: the collection it leaves and the count it
returns. -/
def DeletePlayerLogs (coll : List Doc) (game playerID : String) : List Doc × Nat :=
  let filter : List (Doc → Bool) := [condEq "game" game]
  let filter :=
    if playerID = "__empty__" then filter ++ [condNoPlayer]
    else filter ++ [condEq "playerId" playerID]
  DeleteMany coll filter

/-- The method `DeleteGameLogs`: the collection it leaves and the count it
returns. -/
def DeleteGameLogs (coll : List Doc) (game : String) : List Doc × Nat :=
  DeleteMany coll [condEq "game" game]

/-! ## Grouped counts (`logbrowser/store.go`) -/

/-- The struct `UserWithCount`. -/
structure UserWithCount where
  PlayerID : String
  LogCount : Nat

/-- The struct `EventTypeItem`, as `ListEventTypes` fills it. -/
structure EventTypeItem where
  Name : String
  Count : Nat

/-- The `_id` of a group of the stage `$group`: null, a string, or `other v`
for a value `v` of another BSON type. The grouped fields of the data model are
optional strings, but the submit path stores a field as the client sent it. A
number is a `float64` kept as its bit pattern, one pattern per number. -/
inductive GroupKey where
  | null : GroupKey
  | str (s : String) : GroupKey
  | other (v : Value) : GroupKey
  deriving DecidableEq

/-- The field path `"$k"` of an aggregation expression on a document: the
value of the field, null when the field is missing. -/
def fieldKey (k : String) (d : Doc) : GroupKey :=
  match d.fields.get k with
  | none => GroupKey.null
  | some Value.null => GroupKey.null
  | some (Value.str s) => GroupKey.str s
  | some v => GroupKey.other v

/-- The expression `{$ifNull: [e, ""]}` on the value of `e`. -/
def ifNullEmpty : GroupKey → GroupKey
  | GroupKey.null => GroupKey.str ""
  | k => k

/-- The stage `$group` with `count: {$sum: 1}`: one row per distinct key, with
the number of documents that have the key. -/
def groupCount (key : Doc → GroupKey) (docs : List Doc) : List (GroupKey × Nat) :=
  ((docs.map key).dedup).map (fun k => (k, (docs.map key).count k))

/-- The place of the BSON type of a value in the comparison order of the
store: null, then numbers, strings, objects, arrays, booleans and dates. -/
def typeOrder : Value → Nat
  | Value.null => 1
  | Value.number _ => 2
  | Value.str _ => 3
  | Value.object _ => 4
  | Value.array _ => 5
  | Value.bool _ => 8
  | Value.time _ => 9

/-- The place of the type of a group key in the comparison order. -/
def keyOrder : GroupKey → Nat
  | GroupKey.null => 1
  | GroupKey.str _ => 3
  | GroupKey.other v => typeOrder v

/-- The string that a group key holds, `""` if it holds none. -/
def keyString : GroupKey → String
  | GroupKey.str s => s
  | _ => ""

/-- The order of `_id` ascending between group keys: by the place of the type
first, and strings among themselves in binary order. The order that the store
has between two keys of one other type is not followed: a row with such a key
is never decoded, and the rows of one count and one type lie next to each
other, so what a page returns does not depend on it. -/
def keyLe (a b : GroupKey) : Bool :=
  decide (keyOrder a < keyOrder b) ||
    (decide (keyOrder a = keyOrder b) && decide (keyString a ≤ keyString b))

/-- The stage `$sort` with `count: -1, _id: 1`: `a` does not come after `b`. -/
def leGroup (a b : GroupKey × Nat) : Bool :=
  decide (b.2 < a.2) || (decide (a.2 = b.2) && keyLe a.1 b.1)

/-- The filter `k: {$regex: ...}`: the field is a string that the expression
matches. -/
def condRegex (k : String) (matcher : String → Bool) (d : Doc) : Bool :=
  match d.fields.get k with
  | some (Value.str v) => matcher v
  | _ => false

/-- Decoding `_id` into the field `ID string` of the row struct: a string as
it is, null as the zero value, an error (`none`) for another value. -/
def decodeKey : GroupKey → Option String
  | GroupKey.str s => some s
  | GroupKey.null => some ""
  | GroupKey.other _ => none

/-- The body of the decoding loop of `ListPlayersWithCounts` for one row of
the cursor: `none` when `cur.Decode` fails and the row is skipped. -/
def decodePlayerRow (doc : GroupKey × Nat) : Option UserWithCount :=
  match decodeKey doc.1 with
  | none => none
  | some id => some { PlayerID := id, LogCount := doc.2 }

/-- The body of the decoding loop of `ListEventTypes` for one row of the
cursor: `none` when `cur.Decode` fails or the decoded `ID` is empty, and the
row is skipped. -/
def decodeEventRow (doc : GroupKey × Nat) : Option EventTypeItem :=
  match decodeKey doc.1 with
  | none => none
  | some id => if id ≠ "" then some { Name := id, Count := doc.2 } else none

/-- The variable `pipeline` of `ListPlayersWithCounts`, run on the collection:
`$match`, `$group` by `{$ifNull: ["$playerId", ""]}`, `$sort`. The parameter
`regexMatch` is the regular-expression engine of the store with option `i`:
whether a pattern matches a string. -/
def playerPipeline (regexMatch : String → String → Bool) (coll : List Doc)
    (game search : String) : List (GroupKey × Nat) :=
  let matchStage : List (Doc → Bool) := [condEq "game" game]
  let matchStage :=
    if search ≠ "" then matchStage ++ [condRegex "playerId" (regexMatch search)] else matchStage
  (groupCount (fun d => ifNullEmpty (fieldKey "playerId" d))
    (coll.filter (fun d => matchStage.all (fun c => c d)))).insertionSort
      (fun a b => leGroup a b = true)

/-- The value that a Go `int`, 64 bits wide, holds for the exact result `n` of
an arithmetic operation: `n` wrapped around into the range from `-2^63` to
`2^63 - 1`. -/
def wrapInt (n : Int) : Int := (n + 2 ^ 63) % 2 ^ 64 - 2 ^ 63

/-- The method `ListPlayersWithCounts`: the rows and the total, or `none` when
an aggregation returns an error, which the stages `$skip` and `$limit` do for
a negative skip and for a limit that is not positive. `page` and `limit` are
Go ints, and the product `(page - 1) * limit` wraps around. -/
def ListPlayersWithCounts (regexMatch : String → String → Bool) (coll : List Doc)
    (game search : String) (page limit : Int) : Option (List UserWithCount × Nat) :=
  let pipeline := playerPipeline regexMatch coll game search
  let total := pipeline.length
  let skip := wrapInt ((page - 1) * limit)
  if skip < 0 ∨ limit ≤ 0 then none
  else
    let paginated := (pipeline.drop skip.toNat).take limit.toNat
    let results := paginated.filterMap decodePlayerRow
    some (results, total)

/-- The method `ListEventTypes`, its aggregation taken to succeed. -/
def ListEventTypes (coll : List Doc) (game : String) : List EventTypeItem :=
  let pipeline := (groupCount (fieldKey "eventType")
    (coll.filter (fun d => [condEq "game" game].all (fun c => c d)))).insertionSort
      (fun a b => leGroup a b = true)
  pipeline.filterMap decodeEventRow

/-! ## Sample stores for grouping -/

/-- Entries of the game `mhs`: three without a player and without an event
type (the fields omitted, null, and empty), two of the player `p1` with the
event type `start`; and one entry of another game. -/
def facetColl : List Doc :=
  [{ ID := 1, ServerTimestamp := 10, fields := [("game", Value.str "mhs")] },
   { ID := 2, ServerTimestamp := 20,
     fields := [("game", Value.str "mhs"), ("playerId", Value.null),
       ("eventType", Value.null)] },
   { ID := 3, ServerTimestamp := 30,
     fields := [("game", Value.str "mhs"), ("playerId", Value.str ""),
       ("eventType", Value.str "")] },
   { ID := 4, ServerTimestamp := 40,
     fields := [("game", Value.str "mhs"), ("playerId", Value.str "p1"),
       ("eventType", Value.str "start")] },
   { ID := 5, ServerTimestamp := 50,
     fields := [("game", Value.str "mhs"), ("playerId", Value.str "p1"),
       ("eventType", Value.str "start")] },
   { ID := 6, ServerTimestamp := 60,
     fields := [("game", Value.str "other"), ("playerId", Value.str ""),
       ("eventType", Value.str "")] }]

/-! ## Vocabulary for grouped counts -/

/-- The documents that the stage `$match` of `ListPlayersWithCounts` lets
through: those of the game, and with a search those whose `playerId` is a
string that the search expression matches. -/
def playerMatch (regexMatch : String → String → Bool) (game search : String) (d : Doc) :
    Bool :=
  condEq "game" game d &&
    (if search ≠ "" then condRegex "playerId" (regexMatch search) d else true)

/-- Whether a field of a document is as the data model has an optional string:
a string, null or missing. -/
def stringOrAbsent (k : String) (d : Doc) : Bool :=
  match d.fields.get k with
  | none => true
  | some Value.null => true
  | some (Value.str _) => true
  | some _ => false

/-- Two entries of the game `mhs`, one submitted with the number 7 as its
`playerId`, one with the player `p1`. -/
def numericPlayerColl : List Doc :=
  [{ ID := 1, ServerTimestamp := 10,
     fields := [("game", Value.str "mhs"), ("playerId", Value.number 7)] },
   { ID := 2, ServerTimestamp := 20,
     fields := [("game", Value.str "mhs"), ("playerId", Value.str "p1")] }]

/-- The bucket of a document in the player dimension, as the data model has
it: its `playerId`, and the empty string when that is missing, null or
empty. -/
def playerBucket (d : Doc) : String := stringField d.fields "playerId"

/-- The documents that `DeletePlayerLogs` selects: those of the game, without a
player for the selector `__empty__` and of the given player otherwise. -/
def playerSelected (game playerID : String) (d : Doc) : Bool :=
  condEq "game" game d &&
    (if playerID = "__empty__" then condNoPlayer d else condEq "playerId" playerID d)

/-! ## The full entry of the log browser (`logbrowser/handler.go`) -/

/-- The loop `for k, v := range m { entry[k] = v }`. A Go map holds a key
once; of several bindings of a key in the list the first one counts, as it
does for `Obj.get`. -/
def rangeSet (m : Obj) (entry : Obj) : Obj :=
  m.foldr (fun kv e => Obj.set e kv.1 kv.2) entry

/-- The function `buildFullLogEntry`. -/
def buildFullLogEntry (l : LogEntry) : Obj :=
  let entry : Obj := []
  let entry := Obj.set entry "_id" (Value.str (Hex l.ID))
  let entry := Obj.set entry "game" (Value.str l.Game)
  let entry := if l.PlayerID ≠ "" then Obj.set entry "playerId" (Value.str l.PlayerID) else entry
  let entry :=
    if l.EventType ≠ "" then Obj.set entry "eventType" (Value.str l.EventType) else entry
  let entry :=
    match l.Timestamp with
    | some t => Obj.set entry "timestamp" (Value.time t)
    | none => entry
  let entry := Obj.set entry "serverTimestamp" (Value.time l.ServerTimestamp)
  rangeSet (Obj.ofNilable l.Data) entry

/-! ## The listing endpoint (`logapi/handler.go`, `logapi/types.go`) -/

/-- The struct `LogEntry` of package `logapi`. -/
structure logapi.LogEntry where
  ID : ObjectID
  Game : String
  PlayerID : String
  EventType : String
  Timestamp : Option Nat
  ServerTimestamp : Nat
  Data : Option Obj

/-- The struct `LogQueryParams`. -/
structure LogQueryParams where
  Game : String
  PlayerID : String
  EventType : String
  StartTime : Option Nat
  EndTime : Option Nat
  Limit : Int
  Offset : Int

/-- The struct `LogListResponse`. -/
structure LogListResponse where
  Entries : List logapi.LogEntry
  Total : Nat
  Limit : Int
  Offset : Int

/-- What `ListHandler` writes to the client: `writeJSONError` output, or the
encoded `LogListResponse`. -/
inductive ListResponse where
  | error (msg code : String) (status : Nat) : ListResponse
  | ok (body : LogListResponse) : ListResponse

/-- Decoding a field into a `string` field of a struct: the zero value for a
missing or null field, an error (`none`) for a value that is no string. -/
def decodeStringField : Option Value → Option String
  | none => some ""
  | some Value.null => some ""
  | some (Value.str s) => some s
  | some _ => none

/-- Decoding a field into a `*time.Time` field of a struct: nil for a missing
or null field, an error (`none`) for a value that is no date. -/
def decodeTimeField : Option Value → Option (Option Nat)
  | none => some none
  | some Value.null => some none
  | some (Value.time t) => some (some t)
  | some _ => none

/-- Decoding a field into a `map[string]interface{}` field of a struct: nil
for a missing or null field, an error (`none`) for a value that is no
document. -/
def decodeMapField : Option Value → Option (Option Obj)
  | none => some none
  | some Value.null => some none
  | some (Value.object kvs) => some (some kvs)
  | some _ => none

/-- Decoding one document whose `_id` is an ObjectID into a `logapi.LogEntry`
by its `bson` tags: `none` when a field has a value that its struct field does
not take. Keys of the document without a struct field are skipped. For a
document with a string `_id` see `logapi.decodeRaw`. -/
def logapi.decode (d : Doc) : Option logapi.LogEntry :=
  match decodeStringField (d.fields.get "game"), decodeStringField (d.fields.get "playerId"),
    decodeStringField (d.fields.get "eventType"), decodeTimeField (d.fields.get "timestamp"),
    decodeMapField (d.fields.get "data") with
  | some game, some playerID, some eventType, some timestamp, some data =>
    some { ID := d.ID, Game := game, PlayerID := playerID, EventType := eventType,
           Timestamp := timestamp, ServerTimestamp := d.ServerTimestamp, Data := data }
  | _, _, _, _, _ => none

/-- The call `cur.All(ctx, &entries)`: every document decoded, or an error
(`none`) when one of them fails. -/
def cursorAll : List Doc → Option (List logapi.LogEntry)
  | [] => some []
  | d :: rest =>
    match logapi.decode d, cursorAll rest with
    | some e, some es => some (e :: es)
    | _, _ => none

/-- The filter `serverTimestamp: {$gte: start, $lte: end}`, each bound when it
is set. -/
def condTime (start finish : Option Nat) (d : Doc) : Bool :=
  (match start with
    | some s => decide (s ≤ d.ServerTimestamp)
    | none => true) &&
  (match finish with
    | some e => decide (d.ServerTimestamp ≤ e)
    | none => true)

/-- The call `coll.Find(ctx, filter, opts)` of `ListHandler` read to its end,
taken to succeed: the documents that meet the filter, sorted by
`serverTimestamp` descending, without the first `skip` of them, cut to the
limit when one is set. Among documents of equal timestamp the store is free;
the model keeps the order of the collection. -/
def FindSkip (coll : List Doc) (filter : List (Doc → Bool)) (skip : Nat)
    (limit : Option Nat) : List Doc :=
  let rows := (coll.filter (fun d => filter.all (fun c => c d))).insertionSort
    (fun a b => b.ServerTimestamp ≤ a.ServerTimestamp)
  let rows := rows.drop skip
  match limit with
  | some n => rows.take n
  | none => rows

/-- The method `ListHandler`. `Atoi` is `strconv.Atoi` and `Parse` is
`time.Parse(time.RFC3339, ·)`, each with `none` for an error; `query` is
`r.URL.Query().Get`. An assignment to a field of `params` under a condition
is the update of that field to the new or the old value. The queries are
taken to succeed. -/
def ListHandler (Atoi : String → Option Int) (Parse : String → Option Nat) (coll : List Doc)
    (query : String → String) : ListResponse :=
  let game := query "game"
  if game = "" then
    ListResponse.error "Missing required parameter: game" "MISSING_PARAM" 400
  else
    let params : LogQueryParams :=
      { Game := game, PlayerID := query "playerId", EventType := query "eventType",
        StartTime := none, EndTime := none, Limit := 0, Offset := 0 }
    let params :=
      { params with
        StartTime :=
          if query "start_time" ≠ "" then
            match Parse (query "start_time") with
            | some t => some t
            | none => params.StartTime
          else params.StartTime }
    let params :=
      { params with
        EndTime :=
          if query "end_time" ≠ "" then
            match Parse (query "end_time") with
            | some t => some t
            | none => params.EndTime
          else params.EndTime }
    let params := { params with Limit := 100 }
    let params :=
      { params with
        Limit :=
          if query "limit" ≠ "" then
            match Atoi (query "limit") with
            | some n => if n ≥ 0 then n else params.Limit
            | none => params.Limit
          else params.Limit }
    let params :=
      { params with
        Offset :=
          if query "offset" ≠ "" then
            match Atoi (query "offset") with
            | some n => if n ≥ 0 then n else params.Offset
            | none => params.Offset
          else params.Offset }
    let filter : List (Doc → Bool) := [condEq "game" game]
    let filter :=
      if params.PlayerID ≠ "" then filter ++ [condEq "playerId" params.PlayerID] else filter
    let filter :=
      if params.EventType ≠ "" then filter ++ [condEq "eventType" params.EventType] else filter
    let filter :=
      if params.StartTime.isSome ∨ params.EndTime.isSome then
        filter ++ [condTime params.StartTime params.EndTime]
      else filter
    let total := CountDocuments coll filter
    let rows := FindSkip coll filter (Int.toNat params.Offset)
      (if params.Limit > (0 : Int) then some (Int.toNat params.Limit) else none)
    match cursorAll rows with
    | none => ListResponse.error "Failed to decode logs" "DECODE_FAILED" 500
    | some entries =>
      ListResponse.ok
        { Entries := entries, Total := total, Limit := params.Limit, Offset := params.Offset }

/-! ## From the submit path to the store -/

/-- The document that the collection holds for an inserted map that carries
no `_id` of its own: under the `_id` that the driver gave it, with the
`serverTimestamp` that the handler set. -/
def storedDoc (id : ObjectID) (m : Obj) : Doc :=
  { ID := id
    ServerTimestamp :=
      match m.get "serverTimestamp" with
      | some (Value.time t) => t
      | _ => 0
    fields := m }

/-- The collection `logdata` as the store methods read it when no inserted map
carries an `_id` of its own, `ids i` being the `_id` that the driver gave to
the `i`-th inserted document. `rawStoreOf` is the collection when inserted
maps carry a string `_id`. -/
def storeOf (ids : Nat → ObjectID) (logdata : List Obj) : List Doc :=
  logdata.enum.map (fun im => storedDoc (ids im.1) im.2)

/-! ## Samples for the listing endpoint -/

/-- A query string that sets `game` only. -/
def gameQuery (game : String) (k : String) : String := if k = "game" then game else ""

/-- A payload with the client attribute `level`. -/
def levelPayload : Obj :=
  [("game", Value.str "mhs"), ("playerId", Value.str "p1"),
    ("eventType", Value.str "level_start"), ("level", Value.number 5)]

/-- Ids in the order of insertion. -/
def countingIds (i : Nat) : ObjectID := Fin.ofNat' (2 ^ 96) (i + 1)

/-! ## Vocabulary for the listing endpoint -/

/-- A time parameter of the listing as the handler takes it: set when the
parameter is present and parses. -/
def timeParam (Parse : String → Option Nat) (s : String) : Option Nat :=
  if s ≠ "" then
    match Parse s with
    | some t => some t
    | none => none
  else none

/-- The limit of a listing request: the parameter when it is present, parses
and is not negative, and 100 otherwise. -/
def limitParam (Atoi : String → Option Int) (s : String) : Int :=
  if s ≠ "" then
    match Atoi s with
    | some n => if n ≥ 0 then n else 100
    | none => 100
  else 100

/-- The offset of a listing request: the parameter when it is present, parses
and is not negative, and 0 otherwise. -/
def offsetParam (Atoi : String → Option Int) (s : String) : Int :=
  if s ≠ "" then
    match Atoi s with
    | some n => if n ≥ 0 then n else 0
    | none => 0
  else 0

/-- The matching set of a listing request: the game is the requested one, the
player and the event type are the requested ones when those are not empty,
and the server timestamp lies between the bounds that are set, bounds
included. -/
def listSelected (game playerID eventType : String) (start finish : Option Nat) (d : Doc) :
    Bool :=
  condEq "game" game d &&
  (decide (playerID = "") || condEq "playerId" playerID d) &&
  (decide (eventType = "") || condEq "eventType" eventType d) &&
  condTime start finish d

/-- The filter that `ListHandler` builds from its parameters. -/
def listFilter (game playerID eventType : String) (start finish : Option Nat) :
    List (Doc → Bool) :=
  let filter : List (Doc → Bool) := [condEq "game" game]
  let filter := if playerID ≠ "" then filter ++ [condEq "playerId" playerID] else filter
  let filter := if eventType ≠ "" then filter ++ [condEq "eventType" eventType] else filter
  if start.isSome ∨ finish.isSome then filter ++ [condTime start finish] else filter

/-- A sample of `strconv.Atoi`: the numerals `0`, `1`, `2` and `-1`. -/
def sampleAtoi (s : String) : Option Int :=
  if s = "0" then some 0 else if s = "1" then some 1 else if s = "2" then some 2
  else if s = "-1" then some (-1) else none

/-- A sample of the time parser: two instants by name. -/
def sampleParse (s : String) : Option Nat :=
  if s = "t20" then some 20 else if s = "t30" then some 30 else none

/-- The store after the one submission `{"game": "mhs", "timestamp": "b"}`: the
entry holds its `timestamp` as the string that the client sent. -/
def stringTimestampColl : List Doc :=
  [{ ID := 1, ServerTimestamp := 10,
     fields := [("serverTimestamp", Value.time 10), ("game", Value.str "mhs"),
       ("timestamp", Value.str "b")] }]

/-- A query string that sets `game`, `limit` and `offset`. -/
def pageQuery (game limit offset : String) (k : String) : String :=
  if k = "game" then game else if k = "limit" then limit
  else if k = "offset" then offset else ""

/-! ## Documents with an `_id` of their own -/

/-- The `_id` of a stored document: an ObjectID, which the driver gives to a
document sent without an `_id`, or a string, which a submitted entry can carry
as its own `_id` (the submit handler stores an entry as sent). -/
inductive DocID where
  | oid (id : ObjectID) : DocID
  | str (s : String) : DocID

/-- A document of the collection `logdata` whose `_id` is an ObjectID or a
string. -/
structure RawDoc where
  ID : DocID
  ServerTimestamp : Nat
  fields : Obj

/-- A document with an ObjectID as its `_id`, among the documents with either
kind of `_id`. -/
def Doc.raw (d : Doc) : RawDoc :=
  { ID := DocID.oid d.ID, ServerTimestamp := d.ServerTimestamp, fields := d.fields }

/-- The order of the store on `_id` values: every string comes before every
ObjectID, strings compare character by character, ObjectIDs byte by byte. -/
def idLe : DocID → DocID → Bool
  | DocID.str s, DocID.str t => decide (s.data ≤ t.data)
  | DocID.str _, DocID.oid _ => true
  | DocID.oid _, DocID.str _ => false
  | DocID.oid a, DocID.oid b => decide (a ≤ b)

/-- The filter `bson.M{k: s}` on a document: the field holds the string. -/
def condEqRaw (k s : String) (d : RawDoc) : Bool :=
  match d.fields.get k with
  | some (Value.str v) => decide (v = s)
  | _ => false

/-- The filter `$or: [{playerId: nil}, {playerId: ""}, {playerId: {$exists:
false}}]`: the field is null, the empty string, or missing. -/
def condNoPlayerRaw (d : RawDoc) : Bool :=
  match d.fields.get "playerId" with
  | none => true
  | some Value.null => true
  | some (Value.str v) => decide (v = "")
  | _ => false

/-- The filter `_id: {$gt: oid}`. A comparison operator of the store matches
values of the type of its operand only: a string `_id` does not match. -/
def condIdGtRaw (oid : ObjectID) (d : RawDoc) : Bool :=
  match d.ID with
  | DocID.oid id => decide (oid < id)
  | DocID.str _ => false

/-- The filter `_id: {$lt: oid}`, which a string `_id` does not match. -/
def condIdLtRaw (oid : ObjectID) (d : RawDoc) : Bool :=
  match d.ID with
  | DocID.oid id => decide (id < oid)
  | DocID.str _ => false

/-- The order `serverTimestamp` descending, then `_id` descending: `a` does not
come after `b`. -/
def leDescRaw (a b : RawDoc) : Bool :=
  decide (b.ServerTimestamp < a.ServerTimestamp) ||
    (decide (a.ServerTimestamp = b.ServerTimestamp) && idLe b.ID a.ID)

/-- The order `serverTimestamp` ascending, then `_id` ascending. -/
def leAscRaw (a b : RawDoc) : Bool :=
  decide (a.ServerTimestamp < b.ServerTimestamp) ||
    (decide (a.ServerTimestamp = b.ServerTimestamp) && idLe a.ID b.ID)

/-- The sort `bson.D{{serverTimestamp, sortDir}, {_id, sortDir}}`: ascending
for `1`, descending for `-1`. -/
def sortOrderRaw (sortDir : Int) (a b : RawDoc) : Bool :=
  if sortDir = 1 then leAscRaw a b else leDescRaw a b

/-- The call `coll.Find(ctx, filter, opts)` read to its end: the documents
that meet every condition of the filter, sorted, and cut to the limit when the
limit is not zero. The query is taken to succeed. -/
def FindRaw (coll : List RawDoc) (filter : List (RawDoc → Bool)) (sortDir : Int)
    (limit : Nat) : List RawDoc :=
  let rows := (coll.filter (fun d => filter.all (fun c => c d))).insertionSort
    (fun a b => sortOrderRaw sortDir a b = true)
  if limit = 0 then rows else rows.take limit

/-- The body of the decoding loop of `ListLogs` for one document. The type
assertion `raw["_id"].(primitive.ObjectID)` fails for a string `_id`, and
`entry.ID` keeps its zero value. -/
def toEntryRaw (d : RawDoc) : LogEntry :=
  { ID :=
      match d.ID with
      | DocID.oid id => id
      | DocID.str _ => 0
    Game := stringField d.fields "game"
    PlayerID := stringField d.fields "playerId"
    EventType := stringField d.fields "eventType"
    Timestamp :=
      match d.fields.get "timestamp" with
      | some (Value.time t) => some t
      | _ => none
    ServerTimestamp := d.ServerTimestamp
    Data := entryData d.fields }

/-- The method `ListLogs` on a collection whose documents have an ObjectID or
a string as `_id`: the entries, `hasPrev` and `hasNext`. -/
def ListLogsRaw (coll : List RawDoc) (game playerID eventType : String) (limit : Nat)
    (afterID beforeID : String) : List LogEntry × Bool × Bool :=
  let filter : List (RawDoc → Bool) := [condEqRaw "game" game]
  let filter :=
    if playerID = "__empty__" then filter ++ [condNoPlayerRaw]
    else if playerID ≠ "" then filter ++ [condEqRaw "playerId" playerID]
    else filter
  let filter := if eventType ≠ "" then filter ++ [condEqRaw "eventType" eventType] else filter
  let cursor : List (RawDoc → Bool) × Int :=
    if beforeID ≠ "" then
      match ObjectIDFromHex beforeID with
      | some oid => (filter ++ [condIdGtRaw oid], 1)
      | none => (filter, -1)
    else if afterID ≠ "" then
      match ObjectIDFromHex afterID with
      | some oid => (filter ++ [condIdLtRaw oid], -1)
      | none => (filter, -1)
    else (filter, -1)
  let entries := (FindRaw coll cursor.1 cursor.2 (limit + 1)).map toEntryRaw
  let hasMore := decide (entries.length > limit)
  let entries := if hasMore then entries.take limit else entries
  let entries := if beforeID ≠ "" ∧ entries.length > 0 then entries.reverse else entries
  let hasPrev := decide (afterID ≠ "") || decide (beforeID ≠ "")
  let hasNext := hasMore || decide (beforeID ≠ "")
  if beforeID ≠ "" then (entries, hasMore, true) else (entries, hasPrev, hasNext)

/-- The requests of a viewer who starts without a cursor and then follows
`NextCursor` each time, on a collection whose documents have an ObjectID or a
string as `_id`: request `n` of that sequence. -/
def followedPageRaw (coll : List RawDoc) (game playerID eventType : String) (limit : Nat) :
    Nat → List LogEntry × Bool × Bool
  | 0 => ListLogsRaw coll game playerID eventType limit "" ""
  | n + 1 =>
    ListLogsRaw coll game playerID eventType limit
      (nextCursor (followedPageRaw coll game playerID eventType limit n).1) ""

/-- Decoding one document into a `logapi.LogEntry` by its `bson` tags, for a
document whose `_id` is an ObjectID or a string: the field `ID` is a
`primitive.ObjectID` and takes no string, so a string `_id` is an error. -/
def logapi.decodeRaw (d : RawDoc) : Option logapi.LogEntry :=
  match d.ID with
  | DocID.str _ => none
  | DocID.oid id =>
    match decodeStringField (d.fields.get "game"), decodeStringField (d.fields.get "playerId"),
      decodeStringField (d.fields.get "eventType"), decodeTimeField (d.fields.get "timestamp"),
      decodeMapField (d.fields.get "data") with
    | some game, some playerID, some eventType, some timestamp, some data =>
      some { ID := id, Game := game, PlayerID := playerID, EventType := eventType,
             Timestamp := timestamp, ServerTimestamp := d.ServerTimestamp, Data := data }
    | _, _, _, _, _ => none

/-- The document that the collection holds for an inserted map: under the
`_id` that the map carries when that is a string, under the ObjectID `id` that
the driver gives it when it carries none; `none` for a map whose `_id` is of
another type, which this model of the store does not cover. -/
def storedRaw (id : ObjectID) (m : Obj) : Option RawDoc :=
  match m.get "_id" with
  | none =>
    some { ID := DocID.oid id
           ServerTimestamp :=
             match m.get "serverTimestamp" with
             | some (Value.time t) => t
             | _ => 0
           fields := m }
  | some (Value.str s) =>
    some { ID := DocID.str s
           ServerTimestamp :=
             match m.get "serverTimestamp" with
             | some (Value.time t) => t
             | _ => 0
           fields := m }
  | some _ => none

/-- The filter that `ListLogs` builds before it looks at the cursors, on
documents with either kind of `_id`. -/
def logFilterRaw (game playerID eventType : String) : List (RawDoc → Bool) :=
  let filter : List (RawDoc → Bool) := [condEqRaw "game" game]
  let filter :=
    if playerID = "__empty__" then filter ++ [condNoPlayerRaw]
    else if playerID ≠ "" then filter ++ [condEqRaw "playerId" playerID]
    else filter
  if eventType ≠ "" then filter ++ [condEqRaw "eventType" eventType] else filter

/-- The cursor handling of `ListLogs`, on documents with either kind of `_id`:
the filter with its bound on `_id`, and the direction of the sort. -/
def cursorOfRaw (filter : List (RawDoc → Bool)) (afterID beforeID : String) :
    List (RawDoc → Bool) × Int :=
  if beforeID ≠ "" then
    match ObjectIDFromHex beforeID with
    | some oid => (filter ++ [condIdGtRaw oid], 1)
    | none => (filter, -1)
  else if afterID ≠ "" then
    match ObjectIDFromHex afterID with
    | some oid => (filter ++ [condIdLtRaw oid], -1)
    | none => (filter, -1)
  else (filter, -1)

/-- What `ListLogs` makes of the rows that `Find` returned, on documents with
either kind of `_id`. -/
def pageOfRaw (limit : Nat) (afterID beforeID : String) (rows : List RawDoc) :
    List LogEntry × Bool × Bool :=
  let entries := rows.map toEntryRaw
  let hasMore := decide (entries.length > limit)
  let entries := if hasMore then entries.take limit else entries
  let entries := if beforeID ≠ "" ∧ entries.length > 0 then entries.reverse else entries
  let hasPrev := decide (afterID ≠ "") || decide (beforeID ≠ "")
  let hasNext := hasMore || decide (beforeID ≠ "")
  if beforeID ≠ "" then (entries, hasMore, true) else (entries, hasPrev, hasNext)

/-- A submission that carries an `_id` of its own. -/
def idPayload (id : String) : Obj := [("game", Value.str "mhs"), ("_id", Value.str id)]

/-- The collection `logdata` as the store methods read it, from index `i` on,
`ids i` being the ObjectID that the driver gives to the `i`-th inserted
document when it needs one; `none` when a document is outside the model. -/
def rawStoreFrom (ids : Nat → ObjectID) : Nat → List Obj → Option (List RawDoc)
  | _, [] => some []
  | i, m :: rest =>
    match storedRaw (ids i) m, rawStoreFrom ids (i + 1) rest with
    | some d, some ds => some (d :: ds)
    | _, _ => none

/-- The collection `logdata` as the store methods read it, when the inserted
documents carry a string `_id` or none. -/
def rawStoreOf (ids : Nat → ObjectID) (logdata : List Obj) : Option (List RawDoc) :=
  rawStoreFrom ids 0 logdata

/-- Three entries of the game `mhs` submitted with the `_id` values `a`, `b`
and `c` of their own, at the times 10, 20 and 30. -/
def stringIdColl : List RawDoc :=
  [{ ID := DocID.str "a", ServerTimestamp := 10,
     fields := Obj.set (idPayload "a") "serverTimestamp" (Value.time 10) },
   { ID := DocID.str "b", ServerTimestamp := 20,
     fields := Obj.set (idPayload "b") "serverTimestamp" (Value.time 20) },
   { ID := DocID.str "c", ServerTimestamp := 30,
     fields := Obj.set (idPayload "c") "serverTimestamp" (Value.time 30) }]

/-- The store of the scenario when the 150 entries of the game `x` were
submitted with string `_id` values of their own, increasing with insertion
(`0001` to `0096` in hexadecimal), at increasing times. -/
def stringScenarioColl : List RawDoc :=
  (List.range 150).map (fun i =>
    { ID := DocID.str (String.mk (hexDigits 4 (i + 1))), ServerTimestamp := 1000 + i,
      fields := [("game", Value.str "x"), ("n", Value.number i)] })

/-! # Theorems -/

/-! ## Lemmas on the regular expression -/

theorem matchAll_emp_seq (s : Regex) (cs : List Char) :
    (Regex.seq Regex.emp s).matchAll cs = false := by
  induction cs with
  | nil => rfl
  | cons c cs ih => simpa [Regex.matchAll, Regex.deriv, Regex.nullable] using ih

theorem matchAll_alt (r s : Regex) (cs : List Char) :
    (Regex.alt r s).matchAll cs = (r.matchAll cs || s.matchAll cs) := by
  induction cs generalizing r s with
  | nil => rfl
  | cons c cs ih => simp [Regex.matchAll, Regex.deriv, ih]

theorem matchAll_eps_seq_star_cls (R : List (Char × Char)) (cs : List Char) :
    (Regex.seq Regex.eps (Regex.star (Regex.cls R))).matchAll cs = cs.all (inRanges R) := by
  induction cs with
  | nil => rfl
  | cons c cs ih =>
    simp only [Regex.matchAll, Regex.deriv, Regex.nullable, if_true, matchAll_alt,
      matchAll_emp_seq, Bool.false_or, List.all_cons]
    by_cases hc : inRanges R c = true
    · simp [hc, ih]
    · simp [hc, matchAll_emp_seq]

theorem matchAll_plus_cls (R : List (Char × Char)) (cs : List Char) :
    (Regex.plus (Regex.cls R)).matchAll cs = (!cs.isEmpty && cs.all (inRanges R)) := by
  cases cs with
  | nil => rfl
  | cons c cs =>
    simp only [Regex.plus, Regex.matchAll, Regex.deriv, Regex.nullable, List.isEmpty_cons,
      Bool.not_false, Bool.true_and, List.all_cons]
    by_cases hc : inRanges R c = true
    · simp [hc, matchAll_eps_seq_star_cls]
    · simp [hc, matchAll_emp_seq]

theorem identifierChars_sub : ∀ c ∈ identifierChars, inRanges gameClass c = true := by
  decide

theorem gameClass_window : ∀ n, 45 ≤ n → n ≤ 122 →
    inRanges gameClass (Char.ofNat n) = true → Char.ofNat n ∈ identifierChars := by
  decide

theorem gameClass_bounds (c : Char) (h : inRanges gameClass c = true) :
    45 ≤ c.toNat ∧ c.toNat ≤ 122 := by
  simp only [inRanges, gameClass, List.any_cons, List.any_nil, Bool.or_false, Bool.or_eq_true,
    Bool.and_eq_true, decide_eq_true_eq, Char.le_def, UInt32.le_def, Fin.le_def] at h
  simp only [Char.toNat, UInt32.toNat]
  rcases h with h | h | h | h | h <;> obtain ⟨h1, h2⟩ := h <;> constructor <;>
    first
      | exact le_trans (by decide) h1
      | exact le_trans h2 (by decide)

theorem inRanges_gameClass_iff (c : Char) :
    inRanges gameClass c = true ↔ c ∈ identifierChars := by
  constructor
  · intro h
    have hb := gameClass_bounds c h
    have hw := gameClass_window c.toNat hb.1 hb.2
    rw [Char.ofNat_toNat] at hw
    exact hw h
  · exact identifierChars_sub c

theorem string_ne_empty_iff (g : String) : g ≠ "" ↔ g.data ≠ [] := by
  rw [Ne, String.ext_iff]

/-- The regular expression accepts exactly the non-empty strings over the
identifier charset. -/
theorem MatchString_gameRegex (g : String) :
    MatchString gameRegex g = true ↔ g ≠ "" ∧ ∀ c ∈ g.data, c ∈ identifierChars := by
  rw [MatchString, gameRegex, matchAll_plus_cls, string_ne_empty_iff]
  simp only [Bool.and_eq_true, Bool.not_eq_true', List.isEmpty_eq_false, List.all_eq_true,
    inRanges_gameClass_iff]

/-! ## What the two submit paths compute -/

theorem handleSingleSubmit_missing (h : Handler) (env : Env) (w : World) (raw : Obj)
    (hg : asString (raw.get "game") = none ∨ asString (raw.get "game") = some "") :
    h.handleSingleSubmit env w raw =
      (Response.error "missing or invalid \x27game\x27 field" "MISSING_FIELD" 400, w) := by
  rcases hg with hg | hg <;> simp [Handler.handleSingleSubmit, hg, writeJSONError]

theorem handleSingleSubmit_invalid (h : Handler) (env : Env) (w : World) (raw : Obj) (g : String)
    (hg : asString (raw.get "game") = some g) (hne : g ≠ "")
    (hm : MatchString gameRegex g = false) :
    h.handleSingleSubmit env w raw =
      (Response.error "invalid \x27game\x27 value" "INVALID_GAME" 400, w) := by
  simp [Handler.handleSingleSubmit, hg, hne, hm, writeJSONError]

theorem handleSingleSubmit_valid (h : Handler) (env : Env) (w : World) (raw : Obj) (g : String)
    (hg : asString (raw.get "game") = some g) (hne : g ≠ "")
    (hm : MatchString gameRegex g = true) :
    h.handleSingleSubmit env w raw =
      if env.insertFails then
        (Response.error "Failed to save log entry" "INSERT_FAILED" 500,
          { w with trace := w.trace ++
            [Effect.insertOne (raw.set "serverTimestamp" (Value.time env.now))] })
      else
        (Response.created env.now,
          singleAccepted h env w g (raw.set "serverTimestamp" (Value.time env.now))) := by
  by_cases hf : env.insertFails = true <;> by_cases hb : h.broadcaster = true <;>
    simp [Handler.handleSingleSubmit, hg, hne, hm, writeJSONError, InsertOne, hf, hb,
      singleAccepted, broadcastCall, spawnEnsureIndexes]

theorem handleBatchSubmit_missing (h : Handler) (env : Env) (w : World) (raw : Obj)
    (entries : List Value)
    (hg : asString (raw.get "game") = none ∨ asString (raw.get "game") = some "") :
    h.handleBatchSubmit env w raw entries =
      (Response.error "missing or invalid \x27game\x27 field" "MISSING_FIELD" 400, w) := by
  rcases hg with hg | hg <;> simp [Handler.handleBatchSubmit, hg, writeJSONError]

theorem handleBatchSubmit_invalid (h : Handler) (env : Env) (w : World) (raw : Obj)
    (entries : List Value) (g : String)
    (hg : asString (raw.get "game") = some g) (hne : g ≠ "")
    (hm : MatchString gameRegex g = false) :
    h.handleBatchSubmit env w raw entries =
      (Response.error "invalid \x27game\x27 value" "INVALID_GAME" 400, w) := by
  simp [Handler.handleBatchSubmit, hg, hne, hm, writeJSONError]

theorem buildDocs_eq (game : String) (now : Nat) (entries : List Value) (i : Nat) :
    buildDocs game now i entries =
      if entries.all isObject then
        Except.ok ((entries.filterMap asObject).map (stampEntry game now))
      else Except.error (i + entries.findIdx (fun e => !isObject e)) := by
  induction entries generalizing i with
  | nil => simp [buildDocs]
  | cons e rest ih =>
    cases hobj : asObject e with
    | none =>
      have hno : isObject e = false := by simp [isObject, hobj]
      simp [buildDocs, hobj, hno, List.findIdx_cons]
    | some m =>
      have hio : isObject e = true := by simp [isObject, hobj]
      by_cases hr : rest.all isObject = true
      · simp [buildDocs, hobj, hio, ih (i + 1), hr, stampEntry]
      · simp [buildDocs, hobj, hio, ih (i + 1), hr, List.findIdx_cons]
        omega

theorem broadcastDocs_eq (game : String) (now : Nat) (docs : List Obj) (w : World) :
    broadcastDocs game now w docs =
      { w with trace := w.trace ++ docs.map (fun d =>
          Effect.broadcast game (stringField d "playerId") (stringField d "eventType")
            now (extractData d)) } := by
  induction docs generalizing w with
  | nil => simp [broadcastDocs]
  | cons d rest ih => simp [broadcastDocs, ih, broadcastCall]

theorem handleBatchSubmit_valid (h : Handler) (env : Env) (w : World) (raw : Obj)
    (entries : List Value) (g : String)
    (hg : asString (raw.get "game") = some g) (hne : g ≠ "")
    (hm : MatchString gameRegex g = true) :
    h.handleBatchSubmit env w raw entries =
      if entries.length = 0 then
        (Response.error "Entries array is empty" "EMPTY_ENTRIES" 400, w)
      else if (entries.length : Int) > h.maxBatchSize then
        (Response.error ("Batch size exceeds maximum of " ++ toString h.maxBatchSize)
          "BATCH_TOO_LARGE" 400, w)
      else if entries.all isObject then
        if env.insertFails then
          (Response.error "Failed to save log entries" "INSERT_FAILED" 500,
            { logdata := w.logdata ++
                ((entries.filterMap asObject).map (stampEntry g env.now)).take env.written
              trace := w.trace ++ [Effect.insertMany
                ((entries.filterMap asObject).map (stampEntry g env.now))] })
        else
          (Response.created env.now,
            batchAccepted h env w g ((entries.filterMap asObject).map (stampEntry g env.now)))
      else
        (Response.error
          ("Invalid entry at index " ++ toString (entries.findIdx (fun e => !isObject e)))
          "INVALID_ENTRY" 400, w) := by
  by_cases h0 : entries.length = 0
  · simp [Handler.handleBatchSubmit, hg, hne, hm, writeJSONError, h0]
  by_cases h1 : (entries.length : Int) > h.maxBatchSize
  · simp [Handler.handleBatchSubmit, hg, hne, hm, writeJSONError, h0, h1]
  by_cases h2 : entries.all isObject = true
  · by_cases hf : env.insertFails = true <;> by_cases hb : h.broadcaster = true <;>
      simp [Handler.handleBatchSubmit, hg, hne, hm, writeJSONError, h0, h1, buildDocs_eq, h2,
        InsertMany, hf, hb, batchAccepted, broadcastDocs_eq, spawnEnsureIndexes]
  · simp [Handler.handleBatchSubmit, hg, hne, hm, writeJSONError, h0, h1, buildDocs_eq, h2]

theorem SubmitHandler_batch (h : Handler) (env : Env) (w : World) (raw : Obj) (xs : List Value)
    (hx : raw.get "entries" = some (Value.array xs)) :
    h.SubmitHandler env w (Body.parsed raw) = h.handleBatchSubmit env w raw xs := by
  simp [Handler.SubmitHandler, hx, asArray]

theorem SubmitHandler_single (h : Handler) (env : Env) (w : World) (raw : Obj)
    (hx : asArray (raw.get "entries") = none) :
    h.SubmitHandler env w (Body.parsed raw) = h.handleSingleSubmit env w raw := by
  simp [Handler.SubmitHandler, hx]

theorem asArray_cases (o : Option Value) :
    asArray o = none ∨ ∃ xs, o = some (Value.array xs) := by
  rcases o with _ | v
  · exact Or.inl rfl
  · cases v <;> simp [asArray]

theorem asString_eq_some (o : Option Value) (g : String) :
    asString o = some g ↔ o = some (Value.str g) := by
  rcases o with _ | v
  · simp [asString]
  · cases v <;> simp [asString]

theorem asString_eq_none (o : Option Value) :
    asString o = none ↔ o = none ∨ ∃ v, o = some v ∧ ∀ s, v ≠ Value.str s := by
  rcases o with _ | v
  · simp [asString]
  · cases v <;> simp [asString]

theorem validGame_iff (raw : Obj) :
    validGame raw = true ↔
      ∃ g, asString (raw.get "game") = some g ∧ g ≠ "" ∧ MatchString gameRegex g = true := by
  simp only [MatchString_gameRegex, asString_eq_some]
  unfold validGame
  constructor
  · intro hv
    split at hv
    · rename_i g hg
      simp only [Bool.and_eq_true, decide_eq_true_eq, List.all_eq_true] at hv
      exact ⟨g, hg, hv.1, hv.1, hv.2⟩
    · exact absurd hv (by simp)
  · rintro ⟨g, hg, hne, -, hall⟩
    simp [hg, hne]
    exact hall

theorem game_cases (raw : Obj) :
    (asString (raw.get "game") = none ∨ asString (raw.get "game") = some "") ∨
    (∃ g, asString (raw.get "game") = some g ∧ g ≠ "" ∧ MatchString gameRegex g = false) ∨
    (∃ g, asString (raw.get "game") = some g ∧ g ≠ "" ∧ MatchString gameRegex g = true) := by
  cases hs : asString (raw.get "game") with
  | none => exact Or.inl (Or.inl rfl)
  | some g =>
    by_cases hne : g = ""
    · exact Or.inl (Or.inr (by rw [hne]))
    · cases hm : MatchString gameRegex g
      · exact Or.inr (Or.inl ⟨g, rfl, hne, hm⟩)
      · exact Or.inr (Or.inr ⟨g, rfl, hne, hm⟩)

theorem SubmitHandler_missing (h : Handler) (env : Env) (w : World) (raw : Obj)
    (hg : asString (raw.get "game") = none ∨ asString (raw.get "game") = some "") :
    h.SubmitHandler env w (Body.parsed raw) =
      (Response.error "missing or invalid \x27game\x27 field" "MISSING_FIELD" 400, w) := by
  rcases asArray_cases (raw.get "entries") with hx | ⟨xs, hx⟩
  · rw [SubmitHandler_single h env w raw hx, handleSingleSubmit_missing h env w raw hg]
  · rw [SubmitHandler_batch h env w raw xs hx, handleBatchSubmit_missing h env w raw xs hg]

theorem SubmitHandler_invalid (h : Handler) (env : Env) (w : World) (raw : Obj) (g : String)
    (hg : asString (raw.get "game") = some g) (hne : g ≠ "")
    (hm : MatchString gameRegex g = false) :
    h.SubmitHandler env w (Body.parsed raw) =
      (Response.error "invalid \x27game\x27 value" "INVALID_GAME" 400, w) := by
  rcases asArray_cases (raw.get "entries") with hx | ⟨xs, hx⟩
  · rw [SubmitHandler_single h env w raw hx, handleSingleSubmit_invalid h env w raw g hg hne hm]
  · rw [SubmitHandler_batch h env w raw xs hx,
      handleBatchSubmit_invalid h env w raw xs g hg hne hm]

theorem SubmitHandler_valid_past (h : Handler) (env : Env) (w : World) (raw : Obj) (g : String)
    (hg : asString (raw.get "game") = some g) (hne : g ≠ "")
    (hm : MatchString gameRegex g = true) :
    pastGameValidation (h.SubmitHandler env w (Body.parsed raw)).1 = true := by
  rcases asArray_cases (raw.get "entries") with hx | ⟨xs, hx⟩
  · rw [SubmitHandler_single h env w raw hx, handleSingleSubmit_valid h env w raw g hg hne hm]
    split <;> simp [pastGameValidation, Response.code]
  · rw [SubmitHandler_batch h env w raw xs hx,
      handleBatchSubmit_valid h env w raw xs g hg hne hm]
    split_ifs <;> simp [pastGameValidation, Response.code]

/-! ## Game validation -/

/-- C1. A parsed payload, single or batch, gets past the game check exactly
when its top-level `game` is a non-empty string over `A-Z a-z 0-9 _ -`. An
absent, non-string or empty `game` is answered `MISSING_FIELD`/400, a non-empty
string with any other character `INVALID_GAME`/400, and in both rejections the
collection and the trace of calls are left as they were. -/
theorem submit_game_validation (h : Handler) (env : Env) (w : World) (raw : Obj) :
    (pastGameValidation (h.SubmitHandler env w (Body.parsed raw)).1 = true ↔
      validGame raw = true) ∧
    ((raw.get "game" = none ∨ (∃ v, raw.get "game" = some v ∧ ∀ s, v ≠ Value.str s) ∨
        raw.get "game" = some (Value.str "")) →
      h.SubmitHandler env w (Body.parsed raw) =
        (Response.error "missing or invalid \x27game\x27 field" "MISSING_FIELD" 400, w)) ∧
    (∀ g, raw.get "game" = some (Value.str g) → g ≠ "" →
      (∃ c ∈ g.data, c ∉ identifierChars) →
      h.SubmitHandler env w (Body.parsed raw) =
        (Response.error "invalid \x27game\x27 value" "INVALID_GAME" 400, w)) := by
  refine ⟨?_, ?_, ?_⟩
  · rw [validGame_iff]
    rcases game_cases raw with hg | ⟨g, hg, hne, hm⟩ | ⟨g, hg, hne, hm⟩
    · rw [SubmitHandler_missing h env w raw hg]
      constructor
      · intro hp
        exact absurd hp (by simp [pastGameValidation, Response.code])
      · rintro ⟨g, hg', hne, -⟩
        rcases hg with hg | hg
        · rw [hg] at hg'
          exact absurd hg' (by simp)
        · rw [hg] at hg'
          exact absurd (Option.some.inj hg').symm hne
    · rw [SubmitHandler_invalid h env w raw g hg hne hm]
      constructor
      · intro hp
        exact absurd hp (by simp [pastGameValidation, Response.code])
      · rintro ⟨g', hg', -, hm'⟩
        rw [hg] at hg'
        rw [Option.some.inj hg', hm'] at hm
        exact absurd hm (by simp)
    · exact ⟨fun _ => ⟨g, hg, hne, hm⟩, fun _ => SubmitHandler_valid_past h env w raw g hg hne hm⟩
  · intro hg
    apply SubmitHandler_missing
    rcases hg with hg | hg | hg
    · exact Or.inl ((asString_eq_none _).2 (Or.inl hg))
    · exact Or.inl ((asString_eq_none _).2 (Or.inr hg))
    · exact Or.inr ((asString_eq_some _ _).2 hg)
  · rintro g hg hne ⟨c, hc, hbad⟩
    apply SubmitHandler_invalid h env w raw g ((asString_eq_some _ _).2 hg) hne
    cases hm : MatchString gameRegex g
    · rfl
    · exact absurd (((MatchString_gameRegex g).1 hm).2 c hc) hbad

/-- C1 at a game name with a trailing newline: rejected as `INVALID_GAME`,
nothing inserted, nothing broadcast. -/
theorem submit_game_validation_witness :
    (NewHandler 0).SetBroadcaster.SubmitHandler ⟨7, false, 0⟩ ⟨[], []⟩
        (Body.parsed [("game", Value.str "mhs\n")]) =
      (Response.error "invalid \x27game\x27 value" "INVALID_GAME" 400, ⟨[], []⟩) :=
  (submit_game_validation (NewHandler 0).SetBroadcaster ⟨7, false, 0⟩ ⟨[], []⟩
    [("game", Value.str "mhs\n")]).2.2 "mhs\n" rfl (by decide) ⟨'\n', by decide, by decide⟩

/-! ## Batch submissions -/

theorem Obj.get_filter (f : String → Bool) (m : Obj) (k : String) :
    Obj.get (m.filter (fun kv => f kv.1)) k = if f k then Obj.get m k else none := by
  induction m with
  | nil => simp [Obj.get]
  | cons kv rest ih =>
    obtain ⟨k', v⟩ := kv
    by_cases hf : f k' = true
    · by_cases hk : k' = k
      · subst hk
        simp [List.filter_cons, hf, Obj.get]
      · simp [List.filter_cons, hf, Obj.get, hk, ih]
    · by_cases hk : k' = k
      · subst hk
        simp [List.filter_cons, hf, ih]
      · simp [List.filter_cons, hf, Obj.get, hk, ih]

theorem Obj.get_set (m : Obj) (k : String) (v : Value) (k' : String) :
    (m.set k v).get k' = if k' = k then some v else m.get k' := by
  unfold Obj.set
  by_cases hk : k' = k
  · subst hk
    simp [Obj.get]
  · have hk2 : ¬ k = k' := fun e => hk e.symm
    simp only [Obj.get, hk2, if_false, hk]
    rw [Obj.get_filter (fun x => decide (x ≠ k)) m k']
    simp [hk]

theorem stampEntry_get (g : String) (t : Nat) (m : Obj) (k : String) :
    (stampEntry g t m).get k =
      if k = "serverTimestamp" then some (Value.time t)
      else if k = "game" then some (Value.str g) else m.get k := by
  simp only [stampEntry, Obj.get_set]

theorem filterMap_asObject (objs : List Obj) :
    (objs.map Value.object).filterMap asObject = objs := by
  induction objs with
  | nil => rfl
  | cons o rest ih => simp [asObject, ih]

theorem all_isObject (objs : List Obj) : (objs.map Value.object).all isObject = true := by
  simp [isObject, asObject]

theorem SubmitHandler_outcome (h : Handler) (env : Env) (w : World) (body : Body) :
    (∃ msg code status, h.SubmitHandler env w body = (Response.error msg code status, w)) ∨
    (∃ raw g, body = Body.parsed raw ∧ asArray (raw.get "entries") = none ∧
      asString (raw.get "game") = some g ∧
      h.SubmitHandler env w body =
        if env.insertFails then
          (Response.error "Failed to save log entry" "INSERT_FAILED" 500,
            { w with trace := w.trace ++
              [Effect.insertOne (raw.set "serverTimestamp" (Value.time env.now))] })
        else
          (Response.created env.now,
            singleAccepted h env w g (raw.set "serverTimestamp" (Value.time env.now)))) ∨
    (∃ raw g xs, body = Body.parsed raw ∧ raw.get "entries" = some (Value.array xs) ∧
      asString (raw.get "game") = some g ∧ xs ≠ [] ∧ xs.all isObject = true ∧
      h.SubmitHandler env w body =
        if env.insertFails then
          (Response.error "Failed to save log entries" "INSERT_FAILED" 500,
            { logdata := w.logdata ++
                ((xs.filterMap asObject).map (stampEntry g env.now)).take env.written
              trace := w.trace ++ [Effect.insertMany
                ((xs.filterMap asObject).map (stampEntry g env.now))] })
        else
          (Response.created env.now,
            batchAccepted h env w g ((xs.filterMap asObject).map (stampEntry g env.now)))) := by
  cases body with
  | tooLarge => exact Or.inl ⟨_, _, _, rfl⟩
  | invalid => exact Or.inl ⟨_, _, _, rfl⟩
  | parsed raw =>
    rcases game_cases raw with hg | ⟨g, hg, hne, hm⟩ | ⟨g, hg, hne, hm⟩
    · exact Or.inl ⟨_, _, _, SubmitHandler_missing h env w raw hg⟩
    · exact Or.inl ⟨_, _, _, SubmitHandler_invalid h env w raw g hg hne hm⟩
    · rcases asArray_cases (raw.get "entries") with hx | ⟨xs, hx⟩
      · refine Or.inr (Or.inl ⟨raw, g, rfl, hx, hg, ?_⟩)
        rw [SubmitHandler_single h env w raw hx,
          handleSingleSubmit_valid h env w raw g hg hne hm]
      · rw [SubmitHandler_batch h env w raw xs hx,
          handleBatchSubmit_valid h env w raw xs g hg hne hm]
        by_cases h0 : xs.length = 0
        · rw [if_pos h0]
          exact Or.inl ⟨_, _, _, rfl⟩
        rw [if_neg h0]
        by_cases h1 : (xs.length : Int) > h.maxBatchSize
        · rw [if_pos h1]
          exact Or.inl ⟨_, _, _, rfl⟩
        rw [if_neg h1]
        by_cases h2 : xs.all isObject = true
        · rw [if_pos h2]
          exact Or.inr (Or.inr ⟨raw, g, xs, rfl, hx, hg,
            fun hnil => h0 (by rw [hnil]; rfl), h2, rfl⟩)
        · rw [if_neg h2]
          exact Or.inl ⟨_, _, _, rfl⟩

/-- C2 as stated fails. A batch of three entries whose second repeats the `_id`
of the first: the ordered insert has written the first document when the second
one fails, so the answer is `INSERT_FAILED`/500 while one document of the three
is in the collection, neither all three nor none. -/
theorem batch_partial_insert_counterexample :
    (NewHandler 0).SubmitHandler ⟨7, true, 1⟩ ⟨[], []⟩
        (Body.parsed [("game", Value.str "mhs"), ("entries", Value.array
          [Value.object [("_id", Value.str "a")], Value.object [("_id", Value.str "a")],
            Value.object []])]) =
      (Response.error "Failed to save log entries" "INSERT_FAILED" 500,
        { logdata := [stampEntry "mhs" 7 [("_id", Value.str "a")]]
          trace := [Effect.insertMany
            ([[("_id", Value.str "a")], [("_id", Value.str "a")], []].map
              (stampEntry "mhs" 7))] }) ∧
    [stampEntry "mhs" 7 [("_id", Value.str "a")]].length = 1 :=
  ⟨rfl, rfl⟩

/-- C2, amended. A batch of `n` objects with a valid game and `1 ≤ n ≤ max` makes
one `InsertMany` call with the `n` entries in order, each with `game` overwritten
by the top-level game and `serverTimestamp` set to the one acceptance time. When
the insert succeeds the `n` documents are in the collection and the answer is
`201`; when it fails the answer is `INSERT_FAILED`/500, no broadcast is made, and
the collection has gained the documents that the ordered insert had written
before it failed, a prefix of the `n`. -/
theorem batch_insert_outcome (h : Handler) (env : Env) (w : World) (raw : Obj)
    (objs : List Obj) (g : String)
    (hgame : raw.get "game" = some (Value.str g)) (hvalid : validGame raw = true)
    (hentries : raw.get "entries" = some (Value.array (objs.map Value.object)))
    (hn1 : 1 ≤ objs.length) (hn2 : (objs.length : Int) ≤ h.maxBatchSize) :
    (objs.map (stampEntry g env.now)).length = objs.length ∧
    (∀ m k, (stampEntry g env.now m).get k =
      if k = "serverTimestamp" then some (Value.time env.now)
      else if k = "game" then some (Value.str g) else m.get k) ∧
    (env.insertFails = false →
      h.SubmitHandler env w (Body.parsed raw) =
        (Response.created env.now,
          { logdata := w.logdata ++ objs.map (stampEntry g env.now)
            trace := w.trace ++ [Effect.insertMany (objs.map (stampEntry g env.now))] ++
              (if h.broadcaster then
                (objs.map (stampEntry g env.now)).map (fun d =>
                  Effect.broadcast g (stringField d "playerId") (stringField d "eventType")
                    env.now (extractData d))
              else []) ++ [Effect.ensureIndexes] })) ∧
    (env.insertFails = true →
      h.SubmitHandler env w (Body.parsed raw) =
        (Response.error "Failed to save log entries" "INSERT_FAILED" 500,
          { logdata := w.logdata ++ (objs.map (stampEntry g env.now)).take env.written
            trace := w.trace ++ [Effect.insertMany (objs.map (stampEntry g env.now))] })) := by
  obtain ⟨g', hg', hne, hm⟩ := (validGame_iff raw).1 hvalid
  have hgg : g' = g := by
    rw [(asString_eq_some _ _).2 hgame] at hg'
    exact (Option.some.inj hg').symm
  subst hgg
  have hlen : ¬ (objs.map Value.object).length = 0 := by
    rw [List.length_map]
    omega
  have hmax : ¬ (((objs.map Value.object).length : Nat) : Int) > h.maxBatchSize := by
    rw [List.length_map]
    omega
  have hrun := handleBatchSubmit_valid h env w raw (objs.map Value.object) g' hg' hne hm
  rw [if_neg hlen, if_neg hmax, if_pos (all_isObject objs), filterMap_asObject] at hrun
  rw [← SubmitHandler_batch h env w raw _ hentries] at hrun
  refine ⟨List.length_map _ _, fun m k => stampEntry_get g' env.now m k, ?_, ?_⟩
  · intro hf
    rw [hrun, hf]
    simp [batchAccepted]
  · intro hf
    rw [hrun, hf]
    simp

/-- C2 amended, at a batch of two entries, the first carrying a `game` of its
own, whose insert fails before any document is written. -/
theorem batch_insert_outcome_witness :
    (NewHandler 0).SubmitHandler ⟨7, true, 0⟩ ⟨[], []⟩
        (Body.parsed [("game", Value.str "mhs"),
          ("entries", Value.array ([[("game", Value.str "other")], []].map Value.object))]) =
      (Response.error "Failed to save log entries" "INSERT_FAILED" 500,
        { logdata := [] ++ ([[("game", Value.str "other")], []].map (stampEntry "mhs" 7)).take 0
          trace := [] ++ [Effect.insertMany
            ([[("game", Value.str "other")], []].map (stampEntry "mhs" 7))] }) :=
  (batch_insert_outcome (NewHandler 0) ⟨7, true, 0⟩ ⟨[], []⟩
    [("game", Value.str "mhs"),
      ("entries", Value.array ([[("game", Value.str "other")], []].map Value.object))]
    [[("game", Value.str "other")], []] "mhs" rfl (by decide) rfl (by decide)
    (by decide)).2.2.2 rfl

theorem NewHandler_maxBatchSize (configured : Int) :
    (NewHandler configured).maxBatchSize = effectiveMax configured ∧
    (NewHandler configured).SetBroadcaster.maxBatchSize = effectiveMax configured := by
  simp [NewHandler, Handler.SetBroadcaster, effectiveMax]

/-- C3. With a valid game, a batch gets past the size check exactly when
`1 ≤ n ≤ M`, `M` being the configured maximum or 100 when that is not positive.
An empty batch is answered `EMPTY_ENTRIES`/400 and one of more than `M` entries
`BATCH_TOO_LARGE`/400, whatever the elements are, and both leave the collection
and the trace of calls as they were. -/
theorem batch_size_validation (configured : Int) (h : Handler) (env : Env) (w : World)
    (raw : Obj) (entries : List Value)
    (hh : h = NewHandler configured ∨ h = (NewHandler configured).SetBroadcaster)
    (hvalid : validGame raw = true)
    (hentries : raw.get "entries" = some (Value.array entries)) :
    (pastSizeValidation (h.SubmitHandler env w (Body.parsed raw)).1 = true ↔
      1 ≤ entries.length ∧ (entries.length : Int) ≤ effectiveMax configured) ∧
    (entries.length = 0 →
      h.SubmitHandler env w (Body.parsed raw) =
        (Response.error "Entries array is empty" "EMPTY_ENTRIES" 400, w)) ∧
    ((entries.length : Int) > effectiveMax configured →
      h.SubmitHandler env w (Body.parsed raw) =
        (Response.error ("Batch size exceeds maximum of " ++ toString (effectiveMax configured))
          "BATCH_TOO_LARGE" 400, w)) := by
  obtain ⟨g, hg, hne, hm⟩ := (validGame_iff raw).1 hvalid
  have hmax : h.maxBatchSize = effectiveMax configured := by
    rcases hh with hh | hh <;> rw [hh]
    · exact (NewHandler_maxBatchSize configured).1
    · exact (NewHandler_maxBatchSize configured).2
  have hpos : 0 < effectiveMax configured := by
    unfold effectiveMax
    split <;> omega
  have hrun := handleBatchSubmit_valid h env w raw entries g hg hne hm
  rw [← SubmitHandler_batch h env w raw _ hentries, hmax] at hrun
  refine ⟨?_, ?_, ?_⟩
  · rw [hrun]
    by_cases h0 : entries.length = 0
    · simp [h0, pastSizeValidation, Response.code]
    · by_cases h1 : (entries.length : Int) > effectiveMax configured
      · rw [if_neg h0, if_pos h1]
        simp only [pastSizeValidation, Response.code]
        constructor
        · intro hp
          exact absurd hp (by simp)
        · rintro ⟨-, hle⟩
          omega
      · rw [if_neg h0, if_neg h1]
        have hres : 1 ≤ entries.length ∧ (entries.length : Int) ≤ effectiveMax configured :=
          ⟨by omega, by omega⟩
        simp only [hres, and_self, iff_true]
        split_ifs <;> simp [pastSizeValidation, Response.code]
  · intro h0
    rw [hrun, if_pos h0]
  · intro h1
    have h0 : ¬ entries.length = 0 := by
      intro h0
      rw [h0] at h1
      simp only [Nat.cast_zero] at h1
      omega
    rw [hrun, if_neg h0, if_pos h1]

/-- C3 at three scalar entries against a configured maximum of two. -/
theorem batch_size_validation_witness :
    (NewHandler 2).SetBroadcaster.SubmitHandler ⟨7, false, 0⟩ ⟨[], []⟩
        (Body.parsed [("game", Value.str "mhs"),
          ("entries", Value.array [Value.null, Value.null, Value.null])]) =
      (Response.error "Batch size exceeds maximum of 2" "BATCH_TOO_LARGE" 400, ⟨[], []⟩) :=
  (batch_size_validation 2 (NewHandler 2).SetBroadcaster ⟨7, false, 0⟩ ⟨[], []⟩
    [("game", Value.str "mhs"), ("entries", Value.array [Value.null, Value.null, Value.null])]
    [Value.null, Value.null, Value.null] (Or.inr rfl) (by decide) rfl).2.2 (by decide)

/-- C4. With a valid game and `1 ≤ n ≤ max`, a batch holding an element that is
not a JSON object is answered `INVALID_ENTRY`/400, the message naming the index
of the first such element; the collection and the trace of calls are left as
they were, so no element of the batch is stored or broadcast. -/
theorem batch_invalid_entry_rejects_all (h : Handler) (env : Env) (w : World) (raw : Obj)
    (entries : List Value)
    (hvalid : validGame raw = true)
    (hentries : raw.get "entries" = some (Value.array entries))
    (hn1 : 1 ≤ entries.length) (hn2 : (entries.length : Int) ≤ h.maxBatchSize)
    (hbad : ∃ e ∈ entries, isObject e = false) :
    (entries[entries.findIdx (fun e => !isObject e)]?).map isObject = some false ∧
    (∀ j, j < entries.findIdx (fun e => !isObject e) →
      (entries[j]?).map isObject = some true) ∧
    h.SubmitHandler env w (Body.parsed raw) =
      (Response.error
        ("Invalid entry at index " ++ toString (entries.findIdx (fun e => !isObject e)))
        "INVALID_ENTRY" 400, w) := by
  obtain ⟨g, hg, hne, hm⟩ := (validGame_iff raw).1 hvalid
  have hex : ∃ e ∈ entries, (fun e => !isObject e) e = true := by
    obtain ⟨e, he, hb⟩ := hbad
    exact ⟨e, he, by simp [hb]⟩
  have hlt : entries.findIdx (fun e => !isObject e) < entries.length :=
    List.findIdx_lt_length_of_exists hex
  have hall : ¬ entries.all isObject = true := by
    obtain ⟨e, he, hb⟩ := hbad
    intro hall
    rw [List.all_eq_true] at hall
    rw [hall e he] at hb
    exact absurd hb (by simp)
  refine ⟨?_, ?_, ?_⟩
  · rw [List.getElem?_eq_getElem hlt]
    have hp := @List.findIdx_getElem _ (fun e => !isObject e) entries hlt
    simp only [Bool.not_eq_true'] at hp
    simp [hp]
  · intro j hj
    have hjl : j < entries.length := lt_trans hj hlt
    rw [List.getElem?_eq_getElem hjl]
    have hp := @List.not_of_lt_findIdx _ (fun e => !isObject e) entries j hj
    simp only [Bool.not_eq_false'] at hp
    simp [hp]
  · have hrun := handleBatchSubmit_valid h env w raw entries g hg hne hm
    rw [← SubmitHandler_batch h env w raw _ hentries] at hrun
    rw [hrun, if_neg (by omega), if_neg (by omega), if_neg hall]

/-- C4 at a batch whose second element is a string: index 1 is reported and the
well-formed first element is not stored. -/
theorem batch_invalid_entry_rejects_all_witness :
    (NewHandler 0).SetBroadcaster.SubmitHandler ⟨7, false, 0⟩ ⟨[], []⟩
        (Body.parsed [("game", Value.str "mhs"),
          ("entries", Value.array [Value.object [], Value.str "x"])]) =
      (Response.error "Invalid entry at index 1" "INVALID_ENTRY" 400, ⟨[], []⟩) :=
  (batch_invalid_entry_rejects_all (NewHandler 0).SetBroadcaster ⟨7, false, 0⟩ ⟨[], []⟩
    [("game", Value.str "mhs"), ("entries", Value.array [Value.object [], Value.str "x"])]
    [Value.object [], Value.str "x"] (by decide) rfl (by decide) (by decide)
    ⟨Value.str "x", by simp, rfl⟩).2.2

/-! ## Single submissions -/

theorem asArray_none_of_not_array (o : Option Value) (hx : ∀ xs, o ≠ some (Value.array xs)) :
    asArray o = none := by
  rcases asArray_cases o with hn | ⟨xs, hs⟩
  · exact hn
  · exact absurd hs (hx xs)

/-- C5. For a valid single submission the document handed to `InsertOne` is
the payload with `serverTimestamp` set to the acceptance time: that key holds
the server time whatever the client sent under it, and every other key, `game`
included, holds the payload value. -/
theorem single_document_stored (h : Handler) (env : Env) (w : World) (raw : Obj) (g : String)
    (hgame : raw.get "game" = some (Value.str g)) (hvalid : validGame raw = true)
    (hsingle : ∀ xs, raw.get "entries" ≠ some (Value.array xs)) :
    (∀ k, (raw.set "serverTimestamp" (Value.time env.now)).get k =
      if k = "serverTimestamp" then some (Value.time env.now) else raw.get k) ∧
    (env.insertFails = false →
      h.SubmitHandler env w (Body.parsed raw) =
        (Response.created env.now,
          { logdata := w.logdata ++ [raw.set "serverTimestamp" (Value.time env.now)]
            trace := w.trace ++
              [Effect.insertOne (raw.set "serverTimestamp" (Value.time env.now))] ++
              (if h.broadcaster then
                [Effect.broadcast g
                  (stringField (raw.set "serverTimestamp" (Value.time env.now)) "playerId")
                  (stringField (raw.set "serverTimestamp" (Value.time env.now)) "eventType")
                  env.now (extractData (raw.set "serverTimestamp" (Value.time env.now)))]
              else []) ++ [Effect.ensureIndexes] })) ∧
    (env.insertFails = true →
      h.SubmitHandler env w (Body.parsed raw) =
        (Response.error "Failed to save log entry" "INSERT_FAILED" 500,
          { logdata := w.logdata
            trace := w.trace ++
              [Effect.insertOne (raw.set "serverTimestamp" (Value.time env.now))] })) := by
  obtain ⟨g', hg', hne, hm⟩ := (validGame_iff raw).1 hvalid
  have hgg : g' = g := by
    rw [(asString_eq_some _ _).2 hgame] at hg'
    exact (Option.some.inj hg').symm
  subst hgg
  have hrun := handleSingleSubmit_valid h env w raw g' hg' hne hm
  rw [← SubmitHandler_single h env w raw (asArray_none_of_not_array _ hsingle)] at hrun
  refine ⟨fun k => Obj.get_set raw _ _ k, ?_, ?_⟩
  · intro hf
    rw [hrun, hf]
    simp [singleAccepted]
  · intro hf
    rw [hrun, hf]
    simp

/-- C5 at a payload that carries a `serverTimestamp` of its own: the stored
document holds the server time under that key. -/
theorem single_document_stored_witness :
    (Obj.set [("game", Value.str "mhs"), ("serverTimestamp", Value.str "1999")]
        "serverTimestamp" (Value.time 7)).get "serverTimestamp" = some (Value.time 7) :=
  ((single_document_stored (NewHandler 0) ⟨7, false, 0⟩ ⟨[], []⟩
    [("game", Value.str "mhs"), ("serverTimestamp", Value.str "1999")] "mhs" rfl (by decide)
    (by simp [Obj.get])).1 "serverTimestamp").trans (by simp)

/-! ## Single or batch -/

/-- C7. A parsed payload goes to `handleBatchSubmit` exactly when `entries`
holds an array, the empty one included, and to `handleSingleSubmit` otherwise.
With a valid game, an empty array is answered `EMPTY_ENTRIES`, and a payload
whose `entries` is not an array is stored whole as one document. -/
theorem submit_dispatch (h : Handler) (env : Env) (w : World) (raw : Obj) :
    (∀ xs, raw.get "entries" = some (Value.array xs) →
      h.SubmitHandler env w (Body.parsed raw) = h.handleBatchSubmit env w raw xs) ∧
    ((∀ xs, raw.get "entries" ≠ some (Value.array xs)) →
      h.SubmitHandler env w (Body.parsed raw) = h.handleSingleSubmit env w raw) ∧
    (validGame raw = true → raw.get "entries" = some (Value.array []) →
      h.SubmitHandler env w (Body.parsed raw) =
        (Response.error "Entries array is empty" "EMPTY_ENTRIES" 400, w)) ∧
    (validGame raw = true → (∀ xs, raw.get "entries" ≠ some (Value.array xs)) →
      env.insertFails = false →
      (h.SubmitHandler env w (Body.parsed raw)).1 = Response.created env.now ∧
      (h.SubmitHandler env w (Body.parsed raw)).2.logdata =
        w.logdata ++ [raw.set "serverTimestamp" (Value.time env.now)]) := by
  refine ⟨fun xs hx => SubmitHandler_batch h env w raw xs hx,
    fun hx => SubmitHandler_single h env w raw (asArray_none_of_not_array _ hx), ?_, ?_⟩
  · intro hvalid hx
    obtain ⟨g, hg, hne, hm⟩ := (validGame_iff raw).1 hvalid
    rw [SubmitHandler_batch h env w raw [] hx, handleBatchSubmit_valid h env w raw [] g hg hne hm]
    simp
  · intro hvalid hx hf
    obtain ⟨g, hg, hne, hm⟩ := (validGame_iff raw).1 hvalid
    rw [SubmitHandler_single h env w raw (asArray_none_of_not_array _ hx),
      handleSingleSubmit_valid h env w raw g hg hne hm, hf]
    simp [singleAccepted]

/-- C7 at a payload whose `entries` is a string: it is stored as one entry. -/
theorem submit_dispatch_witness :
    ((NewHandler 0).SubmitHandler ⟨7, false, 0⟩ ⟨[], []⟩
        (Body.parsed [("game", Value.str "mhs"), ("entries", Value.str "none")])).2.logdata =
      [] ++ [Obj.set [("game", Value.str "mhs"), ("entries", Value.str "none")]
        "serverTimestamp" (Value.time 7)] :=
  ((submit_dispatch (NewHandler 0) ⟨7, false, 0⟩ ⟨[], []⟩
    [("game", Value.str "mhs"), ("entries", Value.str "none")]).2.2.2 (by decide)
    (by simp [Obj.get]) rfl).2

/-! ## The data map -/

theorem extractData_get (m : Obj) (k : String) :
    (extractData m).get k = if k ∈ codeKnownFields then none else m.get k := by
  unfold extractData
  rw [Obj.get_filter (fun x =>
    decide (x ≠ "game") && decide (x ≠ "playerId") && decide (x ≠ "eventType") &&
    decide (x ≠ "timestamp") && decide (x ≠ "serverTimestamp") && decide (x ≠ "_id")) m k]
  by_cases hk : k ∈ codeKnownFields
  · rw [if_pos hk, if_neg]
    simp only [codeKnownFields, knownFields, List.map_cons, List.map_nil, List.mem_cons,
      List.mem_singleton, List.mem_nil_iff, or_false] at hk
    rcases hk with hk | hk | hk | hk | hk | hk <;> simp [hk]
  · rw [if_neg hk, if_pos]
    simp only [codeKnownFields, knownFields, List.map_cons, List.map_nil, List.mem_cons,
      List.mem_singleton, List.mem_nil_iff, or_false, not_or] at hk
    simp [hk]

theorem knownFieldsAt_iff (k : String) : knownFieldsAt k = true ↔ k ∈ codeKnownFields := by
  simp only [codeKnownFields, knownFields, List.map_cons, List.map_nil, List.mem_cons,
    List.mem_singleton, List.mem_nil_iff, or_false, knownFieldsAt, List.lookup]
  by_cases h1 : k = "_id"
  · simp [h1]
  by_cases h2 : k = "game"
  · simp [h2]
  by_cases h3 : k = "playerId"
  · simp [h3]
  by_cases h4 : k = "eventType"
  · simp [h4]
  by_cases h5 : k = "timestamp"
  · simp [h5]
  by_cases h6 : k = "serverTimestamp"
  · simp [h6]
  have e1 : (k == "_id") = false := beq_false_of_ne h1
  have e2 : (k == "game") = false := beq_false_of_ne h2
  have e3 : (k == "playerId") = false := beq_false_of_ne h3
  have e4 : (k == "eventType") = false := beq_false_of_ne h4
  have e5 : (k == "timestamp") = false := beq_false_of_ne h5
  have e6 : (k == "serverTimestamp") = false := beq_false_of_ne h6
  simp [h1, h2, h3, h4, h5, h6, e1, e2, e3, e4, e5, e6]

theorem collectData_get (m : Obj) (k : String) :
    (collectData m).get k = if k ∈ codeKnownFields then none else m.get k := by
  unfold collectData
  rw [Obj.get_filter (fun x => !knownFieldsAt x) m k]
  by_cases hk : k ∈ codeKnownFields
  · simp [hk, (knownFieldsAt_iff k).2 hk]
  · have hf : knownFieldsAt k = false := by
      cases hb : knownFieldsAt k
      · rfl
      · exact absurd ((knownFieldsAt_iff k).1 hb) hk
    simp [hk, hf]

theorem entryData_get (m : Obj) (k : String) :
    (Obj.ofNilable (entryData m)).get k = if k ∈ codeKnownFields then none else m.get k := by
  rw [← collectData_get]
  unfold entryData
  by_cases hl : (collectData m).length > 0
  · simp [hl, Obj.ofNilable]
  · have hnil : collectData m = [] := by
      cases hc : collectData m with
      | nil => rfl
      | cons a l =>
        rw [hc] at hl
        exact absurd (Nat.succ_pos _) hl
    simp [hnil, Obj.ofNilable]

/-- C6 as stated fails: a payload key `clientTimestamp` is not kept out of the
`data` map, neither in the broadcast nor on the read side, and the key
`timestamp`, which is not among the six named, is. -/
theorem data_excludes_spec_fields_counterexample :
    (NewHandler 0).SetBroadcaster.SubmitHandler ⟨7, false, 0⟩ ⟨[], []⟩
        (Body.parsed [("game", Value.str "mhs"), ("clientTimestamp", Value.str "a"),
          ("timestamp", Value.str "b")]) =
      (Response.created 7,
        { logdata := [[("serverTimestamp", Value.time 7), ("game", Value.str "mhs"),
            ("clientTimestamp", Value.str "a"), ("timestamp", Value.str "b")]]
          trace := [Effect.insertOne [("serverTimestamp", Value.time 7),
              ("game", Value.str "mhs"), ("clientTimestamp", Value.str "a"),
              ("timestamp", Value.str "b")],
            Effect.broadcast "mhs" "" "" 7 [("clientTimestamp", Value.str "a")],
            Effect.ensureIndexes] }) ∧
    entryData [("serverTimestamp", Value.time 7), ("game", Value.str "mhs"),
        ("clientTimestamp", Value.str "a"), ("timestamp", Value.str "b")] =
      some [("clientTimestamp", Value.str "a")] ∧
    ¬ excludesExactly specKnownFields
        [("game", Value.str "mhs"), ("clientTimestamp", Value.str "a"),
          ("timestamp", Value.str "b")]
        [("clientTimestamp", Value.str "a")] := by
  refine ⟨rfl, rfl, ?_⟩
  intro hex
  have hk := hex "clientTimestamp"
  simp [Obj.get, specKnownFields] at hk

/-- C6, amended. For a valid single submission the `data` map of the broadcast,
and the one `ListLogs` rebuilds from a stored document that agrees with the
payload outside the known fields, holds exactly the payload keys other than
`_id`, `game`, `playerId`, `eventType`, `timestamp` and `serverTimestamp`, each
with its payload value. -/
theorem data_excludes_known_fields (h : Handler) (env : Env) (w : World) (raw : Obj)
    (g : String)
    (hgame : raw.get "game" = some (Value.str g)) (hvalid : validGame raw = true)
    (hsingle : ∀ xs, raw.get "entries" ≠ some (Value.array xs)) :
    codeKnownFields = ["_id", "game", "playerId", "eventType", "timestamp", "serverTimestamp"] ∧
    excludesExactly codeKnownFields raw
      (extractData (raw.set "serverTimestamp" (Value.time env.now))) ∧
    (h.broadcaster = true → env.insertFails = false →
      (h.SubmitHandler env w (Body.parsed raw)).2.trace =
        w.trace ++ [Effect.insertOne (raw.set "serverTimestamp" (Value.time env.now)),
          Effect.broadcast g
            (stringField (raw.set "serverTimestamp" (Value.time env.now)) "playerId")
            (stringField (raw.set "serverTimestamp" (Value.time env.now)) "eventType")
            env.now (extractData (raw.set "serverTimestamp" (Value.time env.now))),
          Effect.ensureIndexes]) ∧
    (∀ stored : Obj, (∀ k, k ∉ codeKnownFields → stored.get k = raw.get k) →
      excludesExactly codeKnownFields raw (Obj.ofNilable (entryData stored))) := by
  obtain ⟨g', hg', hne, hm⟩ := (validGame_iff raw).1 hvalid
  have hgg : g' = g := by
    rw [(asString_eq_some _ _).2 hgame] at hg'
    exact (Option.some.inj hg').symm
  subst hgg
  refine ⟨rfl, ?_, ?_, ?_⟩
  · intro k
    rw [extractData_get, Obj.get_set]
    by_cases hk : k ∈ codeKnownFields
    · simp [hk]
    · have hst : k ≠ "serverTimestamp" := by
        intro e
        apply hk
        rw [e]
        decide
      simp [hk, hst]
  · intro hb hf
    rw [SubmitHandler_single h env w raw (asArray_none_of_not_array _ hsingle),
      handleSingleSubmit_valid h env w raw g' hg' hne hm, hf]
    simp [singleAccepted, hb]
  · intro stored hagree k
    rw [entryData_get]
    by_cases hk : k ∈ codeKnownFields
    · simp [hk]
    · simp [hk, hagree k hk]

/-- C6 amended, at a payload with one extra key: the broadcast `data` holds
that key and none of the known ones. -/
theorem data_excludes_known_fields_witness :
    excludesExactly codeKnownFields
      [("game", Value.str "mhs"), ("timestamp", Value.str "b"), ("level", Value.number 5)]
      (extractData (Obj.set
        [("game", Value.str "mhs"), ("timestamp", Value.str "b"), ("level", Value.number 5)]
        "serverTimestamp" (Value.time 7))) :=
  (data_excludes_known_fields (NewHandler 0) ⟨7, false, 0⟩ ⟨[], []⟩
    [("game", Value.str "mhs"), ("timestamp", Value.str "b"), ("level", Value.number 5)]
    "mhs" rfl (by decide) (by simp [Obj.get])).2.1

/-! ## Broadcasts follow persistence -/

theorem stringField_game_set (raw : Obj) (g : String) (t : Nat)
    (hg : asString (raw.get "game") = some g) :
    stringField (raw.set "serverTimestamp" (Value.time t)) "game" = g := by
  have hne : ¬ "game" = "serverTimestamp" := by decide
  simp [stringField, Obj.get_set, hne, hg]

theorem stringField_game_stamp (g : String) (t : Nat) (m : Obj) :
    stringField (stampEntry g t m) "game" = g := by
  have hne : ¬ "game" = "serverTimestamp" := by decide
  simp [stringField, stampEntry_get, hne, asString]

theorem filter_isBroadcast_map (g : String) (t : Nat) (docs : List Obj) :
    (docs.map (fun d => Effect.broadcast g (stringField d "playerId")
      (stringField d "eventType") t (extractData d))).filter isBroadcast =
    docs.map (fun d => Effect.broadcast g (stringField d "playerId")
      (stringField d "eventType") t (extractData d)) := by
  rw [List.filter_eq_self]
  intro a ha
  obtain ⟨d, -, rfl⟩ := List.mem_map.1 ha
  rfl

theorem newCalls_append (w : World) (l : List Obj) (new : List Effect) :
    newCalls w { logdata := l, trace := w.trace ++ new } = new := by
  simp [newCalls]

theorem newDocs_append (w : World) (docs : List Obj) (t : List Effect) :
    newDocs w { logdata := w.logdata ++ docs, trace := t } = docs := by
  simp [newDocs]

theorem newCalls_self (w : World) : newCalls w w = [] := by
  simp [newCalls]

theorem newDocs_self (w : World) : newDocs w w = [] := by
  simp [newDocs]

theorem filterMap_asObject_ne_nil (xs : List Value) (hne : xs ≠ [])
    (hall : xs.all isObject = true) : xs.filterMap asObject ≠ [] := by
  cases xs with
  | nil => exact absurd rfl hne
  | cons x rest =>
    cases hx : asObject x with
    | none => simp [isObject, hx] at hall
    | some m => simp [List.filterMap_cons, hx]

theorem broadcasts_of_accepted (g : String) (t : Nat) (docs : List Obj)
    (hgame : ∀ d ∈ docs, stringField d "game" = g) :
    ([Effect.insertMany docs] ++ docs.map (fun d =>
      Effect.broadcast g (stringField d "playerId") (stringField d "eventType") t
        (extractData d)) ++ [Effect.ensureIndexes]).filter isBroadcast =
    docs.map (entryBroadcast t) := by
  have hmap : docs.map (fun d => Effect.broadcast g (stringField d "playerId")
      (stringField d "eventType") t (extractData d)) = docs.map (entryBroadcast t) := by
    apply List.map_congr_left
    intro d hd
    simp [entryBroadcast, hgame d hd]
  simp only [List.filter_append, filter_isBroadcast_map]
  rw [hmap]
  simp [isBroadcast]

theorem submit_new (h : Handler) (env : Env) (w : World) (body : Body)
    (hb : h.broadcaster = true) :
    (h.SubmitHandler env w body).2.trace =
      w.trace ++ newCalls w (h.SubmitHandler env w body).2 ∧
    (h.SubmitHandler env w body).2.logdata =
      w.logdata ++ newDocs w (h.SubmitHandler env w body).2 ∧
    ((h.SubmitHandler env w body).1 = Response.created env.now →
      (newCalls w (h.SubmitHandler env w body).2).filter isBroadcast =
        (newDocs w (h.SubmitHandler env w body).2).map (entryBroadcast env.now) ∧
      newDocs w (h.SubmitHandler env w body).2 ≠ [] ∧
      ∀ d ∈ newDocs w (h.SubmitHandler env w body).2,
        d.get "serverTimestamp" = some (Value.time env.now)) ∧
    ((h.SubmitHandler env w body).1 ≠ Response.created env.now →
      (newCalls w (h.SubmitHandler env w body).2).filter isBroadcast = []) ∧
    (env.insertFails = true → (h.SubmitHandler env w body).1 ≠ Response.created env.now) := by
  rcases SubmitHandler_outcome h env w body with ⟨msg, code, status, hrun⟩ |
    ⟨raw, g, -, -, hg, hrun⟩ | ⟨raw, g, xs, -, -, hg, hne, h2, hrun⟩
  · rw [hrun]
    simp [newCalls_self, newDocs_self]
  · by_cases hf : env.insertFails = true
    · rw [hrun, if_pos hf]
      have hc : newCalls w { w with trace := w.trace ++
          [Effect.insertOne (raw.set "serverTimestamp" (Value.time env.now))] } =
          [Effect.insertOne (raw.set "serverTimestamp" (Value.time env.now))] :=
        newCalls_append w _ _
      have hd : newDocs w { w with trace := w.trace ++
          [Effect.insertOne (raw.set "serverTimestamp" (Value.time env.now))] } = [] := by
        simp [newDocs]
      simp only [hc, hd]
      simp [isBroadcast]
    · rw [hrun, if_neg hf]
      simp only [singleAccepted, if_pos hb, List.append_assoc, newCalls_append, newDocs_append]
      refine ⟨trivial, trivial, fun _ => ⟨?_, by simp, ?_⟩, fun hc => absurd rfl hc,
        fun hc => absurd hc hf⟩
      · simp [isBroadcast, entryBroadcast, stringField_game_set raw g env.now hg]
      · intro d hd
        rw [List.mem_singleton.1 hd, Obj.get_set]
        simp
  · by_cases hf : env.insertFails = true
    · rw [hrun, if_pos hf]
      simp only [newCalls_append, newDocs_append]
      simp [isBroadcast]
    · rw [hrun, if_neg hf]
      simp only [batchAccepted, if_pos hb, List.append_assoc, newCalls_append, newDocs_append]
      refine ⟨trivial, trivial, fun _ => ⟨?_, ?_, ?_⟩, fun hc => absurd rfl hc,
        fun hc => absurd hc hf⟩
      · rw [← List.append_assoc]
        apply broadcasts_of_accepted
        intro d hd
        obtain ⟨m, -, rfl⟩ := List.mem_map.1 hd
        exact stringField_game_stamp g env.now m
      · intro hnil
        exact filterMap_asObject_ne_nil xs hne h2 (List.map_eq_nil_iff.1 hnil)
      · intro d hd
        obtain ⟨m, -, rfl⟩ := List.mem_map.1 hd
        rw [stampEntry_get]
        simp

/-- C8 as stated fails. With a broadcaster set, a batch of three entries whose
second repeats the `_id` of the first: the ordered insert has persisted the
first entry when it fails, the answer is `INSERT_FAILED`/500, and the
broadcaster is not invoked, so a persisted entry never reaches the hub. -/
theorem persisted_not_broadcast_counterexample :
    newDocs ⟨[], []⟩ ((NewHandler 0).SetBroadcaster.SubmitHandler ⟨7, true, 1⟩ ⟨[], []⟩
        (Body.parsed [("game", Value.str "mhs"), ("entries", Value.array
          [Value.object [("_id", Value.str "a")], Value.object [("_id", Value.str "a")],
            Value.object []])])).2 =
      [stampEntry "mhs" 7 [("_id", Value.str "a")]] ∧
    (newCalls ⟨[], []⟩ ((NewHandler 0).SetBroadcaster.SubmitHandler ⟨7, true, 1⟩ ⟨[], []⟩
        (Body.parsed [("game", Value.str "mhs"), ("entries", Value.array
          [Value.object [("_id", Value.str "a")], Value.object [("_id", Value.str "a")],
            Value.object []])])).2).filter isBroadcast = [] :=
  ⟨rfl, rfl⟩

/-- C8, amended. With a broadcaster set, the broadcaster is invoked once per
entry of an accepted submission and never otherwise. A single submission with a
valid game whose insert succeeds is answered `201`, persists its one document
and makes exactly one invocation for it. A batch of `n` objects with a valid
game and `1 ≤ n ≤ max` whose insert succeeds is answered `201`, persists its `n`
documents and makes exactly `n` invocations, in submission order. Whenever the
answer is `201`, the invocations are, in order, one per document that the
request persisted, each with the game, playerId and eventType of that document
and the acceptance time, which is the `serverTimestamp` of the document.
Whenever the answer is not `201`, in particular whenever the insert fails, there
is no invocation, whatever the insert has persisted. -/
theorem broadcast_once_per_accepted (h : Handler) (env : Env) (w : World) (body : Body)
    (hb : h.broadcaster = true) :
    (h.SubmitHandler env w body).2.trace =
      w.trace ++ newCalls w (h.SubmitHandler env w body).2 ∧
    (h.SubmitHandler env w body).2.logdata =
      w.logdata ++ newDocs w (h.SubmitHandler env w body).2 ∧
    (∀ raw : Obj, body = Body.parsed raw → asArray (raw.get "entries") = none →
      validGame raw = true → env.insertFails = false →
      (h.SubmitHandler env w body).1 = Response.created env.now ∧
      newDocs w (h.SubmitHandler env w body).2 =
        [raw.set "serverTimestamp" (Value.time env.now)] ∧
      (newCalls w (h.SubmitHandler env w body).2).filter isBroadcast =
        [Effect.broadcast (stringField raw "game") (stringField raw "playerId")
          (stringField raw "eventType") env.now
          (extractData (raw.set "serverTimestamp" (Value.time env.now)))]) ∧
    (∀ (raw : Obj) (objs : List Obj), body = Body.parsed raw →
      raw.get "entries" = some (Value.array (objs.map Value.object)) →
      validGame raw = true → 1 ≤ objs.length → (objs.length : Int) ≤ h.maxBatchSize →
      env.insertFails = false →
      (h.SubmitHandler env w body).1 = Response.created env.now ∧
      newDocs w (h.SubmitHandler env w body).2 =
        objs.map (stampEntry (stringField raw "game") env.now) ∧
      (newCalls w (h.SubmitHandler env w body).2).filter isBroadcast =
        objs.map (fun m => Effect.broadcast (stringField raw "game") (stringField m "playerId")
          (stringField m "eventType") env.now
          (extractData (stampEntry (stringField raw "game") env.now m)))) ∧
    ((h.SubmitHandler env w body).1 = Response.created env.now →
      (newCalls w (h.SubmitHandler env w body).2).filter isBroadcast =
        (newDocs w (h.SubmitHandler env w body).2).map (entryBroadcast env.now) ∧
      newDocs w (h.SubmitHandler env w body).2 ≠ [] ∧
      ∀ d ∈ newDocs w (h.SubmitHandler env w body).2,
        d.get "serverTimestamp" = some (Value.time env.now)) ∧
    ((h.SubmitHandler env w body).1 ≠ Response.created env.now →
      (newCalls w (h.SubmitHandler env w body).2).filter isBroadcast = []) ∧
    (env.insertFails = true → (h.SubmitHandler env w body).1 ≠ Response.created env.now) := by
  obtain ⟨htrace, hlog, hacc, hrej, hfail⟩ := submit_new h env w body hb
  refine ⟨htrace, hlog, ?_, ?_, hacc, hrej, hfail⟩
  · intro raw hbody hx hvalid hf
    subst hbody
    obtain ⟨g, hg, hne, hm⟩ := (validGame_iff raw).1 hvalid
    have hgame : stringField raw "game" = g := by simp [stringField, hg]
    have hpid : stringField (raw.set "serverTimestamp" (Value.time env.now)) "playerId" =
        stringField raw "playerId" := by
      have hk : ¬ "playerId" = "serverTimestamp" := by decide
      simp [stringField, Obj.get_set, hk]
    have het : stringField (raw.set "serverTimestamp" (Value.time env.now)) "eventType" =
        stringField raw "eventType" := by
      have hk : ¬ "eventType" = "serverTimestamp" := by decide
      simp [stringField, Obj.get_set, hk]
    have hf1 : ¬ env.insertFails = true := by simp [hf]
    rw [SubmitHandler_single h env w raw hx, handleSingleSubmit_valid h env w raw g hg hne hm,
      if_neg hf1]
    simp only [singleAccepted, if_pos hb, List.append_assoc, newCalls_append, newDocs_append]
    refine ⟨trivial, trivial, ?_⟩
    simp [isBroadcast, hgame, hpid, het]
  · intro raw objs hbody hentries hvalid hn1 hn2 hf
    subst hbody
    obtain ⟨g, hg, hne, hm⟩ := (validGame_iff raw).1 hvalid
    have hgame : stringField raw "game" = g := by simp [stringField, hg]
    have hlen : ¬ (objs.map Value.object).length = 0 := by
      rw [List.length_map]
      omega
    have hmax : ¬ (((objs.map Value.object).length : Nat) : Int) > h.maxBatchSize := by
      rw [List.length_map]
      omega
    rw [SubmitHandler_batch h env w raw _ hentries,
      handleBatchSubmit_valid h env w raw (objs.map Value.object) g hg hne hm,
      if_neg hlen, if_neg hmax, if_pos (all_isObject objs), filterMap_asObject,
      if_neg (by simp [hf]), hgame]
    simp only [batchAccepted, if_pos hb, List.append_assoc, newCalls_append, newDocs_append]
    refine ⟨trivial, trivial, ?_⟩
    simp only [List.filter_append, filter_isBroadcast_map]
    have hpid : ∀ m, stringField (stampEntry g env.now m) "playerId" =
        stringField m "playerId" := by
      intro m
      have hk1 : ¬ "playerId" = "serverTimestamp" := by decide
      have hk2 : ¬ "playerId" = "game" := by decide
      simp [stringField, stampEntry_get, hk1, hk2]
    have het : ∀ m, stringField (stampEntry g env.now m) "eventType" =
        stringField m "eventType" := by
      intro m
      have hk1 : ¬ "eventType" = "serverTimestamp" := by decide
      have hk2 : ¬ "eventType" = "game" := by decide
      simp [stringField, stampEntry_get, hk1, hk2]
    simp [isBroadcast, hpid, het]

/-- C8 amended, at a batch of two entries: two invocations, in submission
order. -/
theorem broadcast_once_per_accepted_witness :
    ((NewHandler 0).SetBroadcaster.SubmitHandler ⟨7, false, 0⟩ ⟨[], []⟩
      (Body.parsed [("game", Value.str "mhs"), ("entries", Value.array
        ([[("playerId", Value.str "p1")], [("playerId", Value.str "p2")]].map
          Value.object))])).1 = Response.created 7 ∧
    newDocs ⟨[], []⟩ ((NewHandler 0).SetBroadcaster.SubmitHandler ⟨7, false, 0⟩ ⟨[], []⟩
      (Body.parsed [("game", Value.str "mhs"), ("entries", Value.array
        ([[("playerId", Value.str "p1")], [("playerId", Value.str "p2")]].map
          Value.object))])).2 =
      [[("playerId", Value.str "p1")], [("playerId", Value.str "p2")]].map
        (stampEntry "mhs" 7) ∧
    (newCalls ⟨[], []⟩ ((NewHandler 0).SetBroadcaster.SubmitHandler ⟨7, false, 0⟩ ⟨[], []⟩
      (Body.parsed [("game", Value.str "mhs"), ("entries", Value.array
        ([[("playerId", Value.str "p1")], [("playerId", Value.str "p2")]].map
          Value.object))])).2).filter isBroadcast =
      [[("playerId", Value.str "p1")], [("playerId", Value.str "p2")]].map
        (fun m => Effect.broadcast "mhs" (stringField m "playerId")
          (stringField m "eventType") 7 (extractData (stampEntry "mhs" 7 m))) :=
  (broadcast_once_per_accepted (NewHandler 0).SetBroadcaster ⟨7, false, 0⟩ ⟨[], []⟩
    (Body.parsed [("game", Value.str "mhs"), ("entries", Value.array
      ([[("playerId", Value.str "p1")], [("playerId", Value.str "p2")]].map
        Value.object))]) rfl).2.2.2.1
    [("game", Value.str "mhs"), ("entries", Value.array
      ([[("playerId", Value.str "p1")], [("playerId", Value.str "p2")]].map Value.object))]
    [[("playerId", Value.str "p1")], [("playerId", Value.str "p2")]]
    rfl rfl (by decide) (by decide) (by decide) rfl

/-! ## The invariant of the hub -/

theorem sendAll_ok (event : LogEvent) (l : List Nat) (h : Hub) (hnd : l.Nodup)
    (hreg : ∀ ch ∈ l, ∃ c, h.chans[ch]? = some c ∧ c.closed = false) :
    (sendAll event l h).2 = false ∧
    (sendAll event l h).1.subscribers = h.subscribers ∧
    ∀ ch, (sendAll event l h).1.chans[ch]? =
      if ch ∈ l then (h.chans[ch]?).map (deliver event) else h.chans[ch]? := by
  induction l generalizing h with
  | nil => simp [sendAll]
  | cons a rest ih =>
    obtain ⟨c, hc, hopen⟩ := hreg a (List.mem_cons_self a rest)
    have hnr : a ∉ rest := (List.nodup_cons.1 hnd).1
    have hndr : rest.Nodup := (List.nodup_cons.1 hnd).2
    have hlt : a < h.chans.length := by
      rcases List.getElem?_eq_some.1 hc with ⟨hlt, -⟩
      exact hlt
    by_cases hroom : c.buf.length < c.cap
    · have hreg' : ∀ ch ∈ rest, ∃ c',
          ({ h with chans := h.chans.set a { c with buf := c.buf ++ [event] } } : Hub).chans[ch]?
            = some c' ∧ c'.closed = false := by
        intro ch hch
        have hne : a ≠ ch := fun e => hnr (e ▸ hch)
        obtain ⟨c', hc', ho'⟩ := hreg ch (List.mem_cons_of_mem a hch)
        exact ⟨c', by simp [List.getElem?_set_ne hne, hc'], ho'⟩
      obtain ⟨h1, h2, h3⟩ := ih _ hndr hreg'
      have hs : sendAll event (a :: rest) h = sendAll event rest
          { h with chans := h.chans.set a { c with buf := c.buf ++ [event] } } := by
        simp only [sendAll, hc]
        rw [if_neg (by rw [hopen]; simp), if_pos hroom]
      rw [hs]
      refine ⟨h1, h2, fun ch => ?_⟩
      rw [h3 ch]
      by_cases hch : ch ∈ rest
      · have hne : a ≠ ch := fun e => hnr (e ▸ hch)
        simp [hch, List.getElem?_set_ne hne]
      · by_cases hca : ch = a
        · subst hca
          simp [hch, hc, deliver, hroom, List.getElem?_set_self, hlt]
        · have hne : a ≠ ch := fun e => hca e.symm
          simp [hch, hca, List.getElem?_set_ne hne]
    · have hreg' : ∀ ch ∈ rest, ∃ c', h.chans[ch]? = some c' ∧ c'.closed = false :=
        fun ch hch => hreg ch (List.mem_cons_of_mem a hch)
      obtain ⟨h1, h2, h3⟩ := ih h hndr hreg'
      have hs : sendAll event (a :: rest) h = sendAll event rest h := by
        simp only [sendAll, hc]
        rw [if_neg (by rw [hopen]; simp), if_neg hroom]
      rw [hs]
      refine ⟨h1, h2, fun ch => ?_⟩
      rw [h3 ch]
      by_cases hch : ch ∈ rest
      · simp [hch]
      · by_cases hca : ch = a
        · subst hca
          simp [hch, hc, deliver, hroom]
        · simp [hch, hca]

theorem NewHub_WF : NewHub.WF :=
  ⟨List.nodup_nil, fun _ h => absurd h (List.not_mem_nil _), fun ch c h => by simp [NewHub] at h⟩

theorem lt_of_getElem?_some (l : List Chan) (i : Nat) (c : Chan) (h : l[i]? = some c) :
    i < l.length := by
  rcases List.getElem?_eq_some.1 h with ⟨hlt, -⟩
  exact hlt

theorem Subscribe_fresh (h : Hub) (hwf : h.WF) : h.chans.length ∉ h.subscribers := by
  intro hmem
  obtain ⟨c, hc, -⟩ := hwf.registered _ hmem
  exact absurd (lt_of_getElem?_some _ _ _ hc) (lt_irrefl _)

theorem Subscribe_subscribers (h : Hub) (hwf : h.WF) :
    h.Subscribe.1.subscribers = h.subscribers ++ [h.chans.length] := by
  simp [Hub.Subscribe, Subscribe_fresh h hwf]

theorem Subscribe_chans (h : Hub) :
    h.Subscribe.1.chans = h.chans ++ [{ buf := [], cap := 16, closed := false }] ∧
    h.Subscribe.2 = h.chans.length := by
  simp [Hub.Subscribe]

theorem Subscribe_WF (h : Hub) (hwf : h.WF) : h.Subscribe.1.WF := by
  refine ⟨?_, ?_, ?_⟩
  · rw [Subscribe_subscribers h hwf]
    refine List.nodup_append.2 ⟨hwf.nodup, List.nodup_singleton _, ?_⟩
    intro a ha hb
    rw [List.mem_singleton] at hb
    exact Subscribe_fresh h hwf (hb ▸ ha)
  · intro ch hch
    rw [Subscribe_subscribers h hwf, List.mem_append, List.mem_singleton] at hch
    rw [(Subscribe_chans h).1]
    rcases hch with hch | hch
    · obtain ⟨c, hc, ho⟩ := hwf.registered ch hch
      exact ⟨c, by rw [List.getElem?_append_left (lt_of_getElem?_some _ _ _ hc)]; exact hc, ho⟩
    · subst hch
      exact ⟨{ buf := [], cap := 16, closed := false }, by simp, rfl⟩
  · intro ch c hc
    rw [(Subscribe_chans h).1] at hc
    by_cases hlt : ch < h.chans.length
    · rw [List.getElem?_append_left hlt] at hc
      exact hwf.bounded ch c hc
    · rw [List.getElem?_append_right (not_lt.1 hlt)] at hc
      have hmem : c ∈ [({ buf := [], cap := 16, closed := false } : Chan)] :=
        List.getElem?_mem hc
      rw [List.mem_singleton] at hmem
      subst hmem
      exact ⟨rfl, Nat.zero_le _⟩

theorem Unsubscribe_subscribers (h : Hub) (ch : Nat) :
    (h.Unsubscribe ch).1.subscribers = h.subscribers.filter (fun s => decide (s ≠ ch)) := by
  unfold Hub.Unsubscribe
  split
  · rfl
  · split <;> rfl

theorem Unsubscribe_chans (h : Hub) (ch x : Nat) :
    (h.Unsubscribe ch).1.chans[x]? =
      if x = ch then (h.chans[x]?).map (fun c => { c with closed := true }) else h.chans[x]? := by
  unfold Hub.Unsubscribe
  by_cases hx : x = ch
  · subst hx
    cases hc : h.chans[x]? with
    | none => simp [hc]
    | some c =>
      have hlt := lt_of_getElem?_some _ _ _ hc
      by_cases hcl : c.closed = true
      · simp only [hcl, if_true, hc, Option.map_some']
        congr 1
        cases c
        simp_all
      · simp [hcl, List.getElem?_set_self, hlt]
  · cases hc : h.chans[ch]? with
    | none => simp [hx]
    | some c =>
      have hne : ch ≠ x := fun e => hx e.symm
      by_cases hcl : c.closed = true
      · simp [hcl, hx]
      · simp [hcl, hx, List.getElem?_set_ne hne]

theorem Unsubscribe_WF (h : Hub) (ch : Nat) (hwf : h.WF) : (h.Unsubscribe ch).1.WF := by
  refine ⟨?_, ?_, ?_⟩
  · rw [Unsubscribe_subscribers]
    exact hwf.nodup.filter _
  · intro x hx
    rw [Unsubscribe_subscribers, List.mem_filter] at hx
    have hne : x ≠ ch := by simpa using hx.2
    rw [Unsubscribe_chans, if_neg hne]
    exact hwf.registered x hx.1
  · intro x c hc
    rw [Unsubscribe_chans] at hc
    by_cases hx : x = ch
    · rw [if_pos hx] at hc
      cases hc0 : h.chans[x]? with
      | none => simp [hc0] at hc
      | some c0 =>
        rw [hc0] at hc
        simp only [Option.map_some', Option.some.injEq] at hc
        subst hc
        exact hwf.bounded x c0 hc0
    · rw [if_neg hx] at hc
      exact hwf.bounded x c hc

theorem Broadcast_ok (h : Hub) (event : LogEvent) (hwf : h.WF) :
    (h.Broadcast event).2 = false ∧
    (h.Broadcast event).1.subscribers = h.subscribers ∧
    ∀ ch, (h.Broadcast event).1.chans[ch]? =
      if ch ∈ h.subscribers then (h.chans[ch]?).map (deliver event) else h.chans[ch]? :=
  sendAll_ok event h.subscribers h hwf.nodup hwf.registered

theorem deliver_props (event : LogEvent) (c : Chan) :
    (deliver event c).closed = c.closed ∧ (deliver event c).cap = c.cap ∧
    (c.cap = 16 → c.buf.length ≤ 16 → (deliver event c).buf.length ≤ 16) := by
  unfold deliver
  split
  · refine ⟨rfl, rfl, fun hcap _ => ?_⟩
    simp only [List.length_append, List.length_singleton]
    omega
  · exact ⟨rfl, rfl, fun _ hle => hle⟩

theorem Broadcast_WF (h : Hub) (event : LogEvent) (hwf : h.WF) : (h.Broadcast event).1.WF := by
  obtain ⟨-, hsub, hch⟩ := Broadcast_ok h event hwf
  refine ⟨hsub ▸ hwf.nodup, ?_, ?_⟩
  · intro ch hmem
    rw [hsub] at hmem
    obtain ⟨c, hc, ho⟩ := hwf.registered ch hmem
    refine ⟨deliver event c, ?_, ?_⟩
    · rw [hch ch, if_pos hmem, hc]
      rfl
    · rw [(deliver_props event c).1]
      exact ho
  · intro ch c hc
    rw [hch ch] at hc
    by_cases hmem : ch ∈ h.subscribers
    · rw [if_pos hmem] at hc
      cases hc0 : h.chans[ch]? with
      | none => simp [hc0] at hc
      | some c0 =>
        rw [hc0] at hc
        simp only [Option.map_some', Option.some.injEq] at hc
        subst hc
        obtain ⟨hcap, hlen⟩ := hwf.bounded ch c0 hc0
        exact ⟨by rw [(deliver_props event c0).2.1]; exact hcap,
          (deliver_props event c0).2.2 hcap hlen⟩
    · rw [if_neg hmem] at hc
      exact hwf.bounded ch c hc

theorem receive_subscribers (h : Hub) (ch : Nat) :
    (h.receive ch).1.subscribers = h.subscribers := by
  unfold Hub.receive
  split
  · rfl
  · split <;> rfl

theorem receive_chans (h : Hub) (ch x : Nat) :
    (h.receive ch).1.chans[x]? =
      if x = ch then (h.chans[x]?).map (fun c => { c with buf := c.buf.tail })
      else h.chans[x]? := by
  unfold Hub.receive
  by_cases hx : x = ch
  · subst hx
    cases hc : h.chans[x]? with
    | none => simp [hc]
    | some c =>
      have hlt := lt_of_getElem?_some _ _ _ hc
      cases hb : c.buf with
      | nil =>
        simp only [if_true, hc, Option.map_some', List.tail_nil]
        cases c
        simp_all
      | cons e rest => simp [hb, List.getElem?_set_self, hlt]
  · cases hc : h.chans[ch]? with
    | none => simp [hx]
    | some c =>
      have hne : ch ≠ x := fun e => hx e.symm
      cases hb : c.buf with
      | nil => simp [hb, hx]
      | cons e rest => simp [hb, hx, List.getElem?_set_ne hne]

theorem receive_WF (h : Hub) (ch : Nat) (hwf : h.WF) : (h.receive ch).1.WF := by
  refine ⟨?_, ?_, ?_⟩
  · rw [receive_subscribers]
    exact hwf.nodup
  · intro x hx
    rw [receive_subscribers] at hx
    obtain ⟨c, hc, ho⟩ := hwf.registered x hx
    rw [receive_chans]
    by_cases hxc : x = ch
    · rw [if_pos hxc, hc]
      exact ⟨_, rfl, ho⟩
    · rw [if_neg hxc]
      exact ⟨c, hc, ho⟩
  · intro x c hc
    rw [receive_chans] at hc
    by_cases hxc : x = ch
    · rw [if_pos hxc] at hc
      cases hc0 : h.chans[x]? with
      | none => simp [hc0] at hc
      | some c0 =>
        rw [hc0] at hc
        simp only [Option.map_some', Option.some.injEq] at hc
        subst hc
        obtain ⟨hcap, hlen⟩ := hwf.bounded x c0 hc0
        refine ⟨hcap, ?_⟩
        simp only [List.length_tail]
        omega
    · rw [if_neg hxc] at hc
      exact hwf.bounded x c hc

theorem step_receive_fst (h : Hub) (ch : Nat) :
    (step h (Op.receive ch)).1 = (h.receive ch).1 := by
  simp only [step]
  split <;> simp_all

theorem step_WF (h : Hub) (op : Op) (hwf : h.WF) : (step h op).1.WF := by
  cases op with
  | subscribe => exact Subscribe_WF h hwf
  | unsubscribe ch => exact Unsubscribe_WF h ch hwf
  | broadcast event => exact Broadcast_WF h event hwf
  | receive ch =>
    rw [step_receive_fst]
    exact receive_WF h ch hwf

theorem run_WF (ops : List Op) (h : Hub) (hwf : h.WF) : (run h ops).1.WF := by
  induction ops generalizing h with
  | nil => exact hwf
  | cons op ops ih => exact ih _ (step_WF h op hwf)

/-! ## Broadcast -/

theorem Broadcast_delivers (h : Hub) (event : LogEvent) (hwf : h.WF) :
    (h.Broadcast event).2 = false ∧
    (h.Broadcast event).1.subscribers = h.subscribers ∧
    ∀ ch ∈ h.subscribers, ∃ c : Chan,
      h.chans[ch]? = some c ∧ c.cap = 16 ∧ c.buf.length ≤ 16 ∧
      (c.buf.length < 16 →
        (h.Broadcast event).1.chans[ch]? = some { c with buf := c.buf ++ [event] }) ∧
      (c.buf.length = 16 → (h.Broadcast event).1.chans[ch]? = some c) := by
  obtain ⟨hret, hsub, hch⟩ := Broadcast_ok h event hwf
  refine ⟨hret, hsub, fun ch hmem => ?_⟩
  obtain ⟨c, hc, -⟩ := hwf.registered ch hmem
  obtain ⟨hcap, hlen⟩ := hwf.bounded ch c hc
  refine ⟨c, hc, hcap, hlen, ?_, ?_⟩
  · intro hroom
    rw [hch ch, if_pos hmem, hc]
    simp [deliver, hcap, hroom]
  · intro hfull
    rw [hch ch, if_pos hmem, hc]
    simp [deliver, hcap, hfull]

/-- C9. In every state that the hub reaches from `NewHub`, `Broadcast(e)`
returns without a panic and leaves the subscriber set as it was; each
subscriber whose queue held fewer than 16 events has `e` at the tail of its
queue, and each subscriber whose queue held 16 has its queue unchanged,
whatever the queues of the others hold. -/
theorem broadcast_drops_only_for_full (ops : List Op) (event : LogEvent) :
    ((run NewHub ops).1.Broadcast event).2 = false ∧
    ((run NewHub ops).1.Broadcast event).1.subscribers = (run NewHub ops).1.subscribers ∧
    ∀ ch ∈ (run NewHub ops).1.subscribers, ∃ c : Chan,
      (run NewHub ops).1.chans[ch]? = some c ∧ c.cap = 16 ∧ c.buf.length ≤ 16 ∧
      (c.buf.length < 16 →
        ((run NewHub ops).1.Broadcast event).1.chans[ch]? =
          some { c with buf := c.buf ++ [event] }) ∧
      (c.buf.length = 16 → ((run NewHub ops).1.Broadcast event).1.chans[ch]? = some c) :=
  Broadcast_delivers (run NewHub ops).1 event (run_WF ops NewHub NewHub_WF)

/-! ## No replay -/

theorem bufOf_congr (h1 h2 : Hub) (ch : Nat) (f : Chan → Chan) (hf : ∀ c, (f c).buf = c.buf)
    (hc : h1.chans[ch]? = (h2.chans[ch]?).map f) : bufOf h1 ch = bufOf h2 ch := by
  unfold bufOf
  rw [hc]
  cases h2.chans[ch]? with
  | none => rfl
  | some c => exact hf c

theorem bufOf_Subscribe (h : Hub) (ch : Nat) : bufOf h.Subscribe.1 ch = bufOf h ch := by
  unfold bufOf
  rw [(Subscribe_chans h).1]
  by_cases hlt : ch < h.chans.length
  · rw [List.getElem?_append_left hlt]
  · have hnone : h.chans[ch]? = none := List.getElem?_eq_none (not_lt.1 hlt)
    rw [hnone, List.getElem?_append_right (not_lt.1 hlt)]
    cases hx : ([({ buf := [], cap := 16, closed := false } : Chan)])[ch - h.chans.length]? with
    | none => rfl
    | some c =>
      have hmem := List.getElem?_mem hx
      rw [List.mem_singleton] at hmem
      subst hmem
      rfl

theorem bufOf_Unsubscribe (h : Hub) (x ch : Nat) : bufOf (h.Unsubscribe x).1 ch = bufOf h ch := by
  by_cases hx : ch = x
  · apply bufOf_congr _ _ _ (fun c => { c with closed := true }) (fun _ => rfl)
    rw [Unsubscribe_chans, if_pos hx]
  · unfold bufOf
    rw [Unsubscribe_chans, if_neg hx]

theorem bufOf_Broadcast (h : Hub) (event : LogEvent) (ch : Nat) (hwf : h.WF) :
    bufOf (h.Broadcast event).1 ch = bufOf h ch ∨
    (ch ∈ h.subscribers ∧ bufOf (h.Broadcast event).1 ch = bufOf h ch ++ [event]) := by
  obtain ⟨-, -, hch⟩ := Broadcast_ok h event hwf
  unfold bufOf
  rw [hch ch]
  by_cases hmem : ch ∈ h.subscribers
  · rw [if_pos hmem]
    cases hc : h.chans[ch]? with
    | none => exact Or.inl rfl
    | some c =>
      by_cases hroom : c.buf.length < c.cap
      · exact Or.inr ⟨hmem, by simp [deliver, hroom]⟩
      · exact Or.inl (by simp [deliver, hroom])
  · rw [if_neg hmem]
    exact Or.inl rfl

theorem step_receive (h : Hub) (x : Nat) :
    (step h (Op.receive x)).1.subscribers = h.subscribers ∧
    (∀ ch, ch ≠ x → bufOf (step h (Op.receive x)).1 ch = bufOf h ch) ∧
    ((∃ e, (step h (Op.receive x)).2 = [Obs.received x e] ∧
        bufOf h x = e :: bufOf (step h (Op.receive x)).1 x) ∨
      ((step h (Op.receive x)).2 = [] ∧ bufOf (step h (Op.receive x)).1 x = bufOf h x)) := by
  refine ⟨?_, ?_, ?_⟩
  · rw [step_receive_fst, receive_subscribers]
  · intro ch hne
    rw [step_receive_fst]
    unfold bufOf
    rw [receive_chans, if_neg hne]
  · cases hc : h.chans[x]? with
    | none =>
      right
      simp [step, Hub.receive, hc]
    | some c =>
      have hlt := lt_of_getElem?_some _ _ _ hc
      cases hb : c.buf with
      | nil =>
        right
        by_cases hcl : c.closed = true <;> simp [step, Hub.receive, hc, hb, hcl]
      | cons e rest =>
        left
        refine ⟨e, ?_, ?_⟩
        · simp [step, Hub.receive, hc, hb]
        · simp [step, Hub.receive, hc, hb, bufOf, List.getElem?_set_self, hlt]

theorem received_sublist (ch : Nat) (ops : List Op) (h : Hub) (hwf : h.WF) :
    (receivedBy ch (run h ops).2).Sublist
      (bufOf h ch ++ broadcastWhileSubscribed ch (decide (ch ∈ h.subscribers)) (run h ops).2) := by
  induction ops generalizing h with
  | nil => simp [run, receivedBy]
  | cons op ops ih =>
    have ih1 := ih (step h op).1 (step_WF h op hwf)
    cases op with
    | subscribe =>
      have hflag : decide (ch ∈ (step h Op.subscribe).1.subscribers) =
          (decide (ch ∈ h.subscribers) || decide (h.Subscribe.2 = ch)) := by
        simp only [step, Subscribe_subscribers h hwf, (Subscribe_chans h).2, List.mem_append,
          List.mem_singleton, Bool.decide_or]
        congr 1
        exact decide_eq_decide.2 eq_comm
      have hbuf : bufOf (step h Op.subscribe).1 ch = bufOf h ch := bufOf_Subscribe h ch
      rw [hflag, hbuf] at ih1
      simpa [run, step, receivedBy, broadcastWhileSubscribed] using ih1
    | unsubscribe x =>
      have hflag : decide (ch ∈ (step h (Op.unsubscribe x)).1.subscribers) =
          (decide (ch ∈ h.subscribers) && decide (x ≠ ch)) := by
        simp only [step, Unsubscribe_subscribers, List.mem_filter, decide_eq_true_eq,
          Bool.decide_and]
        congr 1
        exact decide_eq_decide.2 ne_comm
      have hbuf : bufOf (step h (Op.unsubscribe x)).1 ch = bufOf h ch :=
        bufOf_Unsubscribe h x ch
      rw [hflag, hbuf] at ih1
      simpa [run, step, receivedBy, broadcastWhileSubscribed] using ih1
    | broadcast event =>
      have hsub : (step h (Op.broadcast event)).1.subscribers = h.subscribers :=
        (Broadcast_ok h event hwf).2.1
      rw [hsub] at ih1
      simp only [run, step, List.singleton_append, receivedBy, broadcastWhileSubscribed]
      simp only [step] at ih1
      rcases bufOf_Broadcast h event ch hwf with hb | ⟨hmem, hb⟩
      · rw [hb] at ih1
        by_cases hmem : ch ∈ h.subscribers
        · simp only [hmem, decide_True, if_true] at ih1 ⊢
          exact ih1.trans (List.Sublist.append (List.Sublist.refl _) (List.sublist_cons_self _ _))
        · simpa [hmem] using ih1
      · rw [hb] at ih1
        simpa [hmem] using ih1
    | receive x =>
      obtain ⟨hsub, hother, hself⟩ := step_receive h x
      rw [hsub] at ih1
      simp only [run]
      by_cases hx : ch = x
      · subst hx
        rcases hself with ⟨e, hobs, hb⟩ | ⟨hobs, hb⟩
        · rw [hobs, hb]
          simpa [receivedBy, broadcastWhileSubscribed] using ih1
        · rw [hobs, ← hb]
          simpa using ih1
      · rw [hother ch hx] at ih1
        rcases hself with ⟨e, hobs, -⟩ | ⟨hobs, -⟩
        · rw [hobs]
          have hne : ¬ x = ch := fun e => hx e.symm
          simpa [receivedBy, broadcastWhileSubscribed, hne] using ih1
        · rw [hobs]
          simpa using ih1

/-- C10. The channel that `Subscribe` returns holds no event, and over every
sequence of `Subscribe`, `Unsubscribe`, `Broadcast` and receive operations from
`NewHub`, what a subscriber receives is a sublist of the events broadcast while
it was subscribed: in broadcast order, each broadcast at most once, and nothing
from before its `Subscribe` or after its `Unsubscribe`. -/
theorem hub_no_replay (ops : List Op) (ch : Nat) :
    (∀ h : Hub, bufOf h.Subscribe.1 h.Subscribe.2 = [] ∧
      h.Subscribe.1.chans[h.Subscribe.2]? = some { buf := [], cap := 16, closed := false }) ∧
    (receivedBy ch (run NewHub ops).2).Sublist
      (broadcastWhileSubscribed ch false (run NewHub ops).2) := by
  refine ⟨fun h => ?_, ?_⟩
  · have hc : h.Subscribe.1.chans[h.Subscribe.2]? =
        some { buf := [], cap := 16, closed := false } := by
      rw [(Subscribe_chans h).1, (Subscribe_chans h).2]
      simp
    exact ⟨by simp [bufOf, hc], hc⟩
  · have hmain := received_sublist ch ops NewHub NewHub_WF
    simpa [bufOf, NewHub] using hmain

/-- C9 after `sampleOps`: the broadcast returns, the full channel 0 keeps its
16 events and channel 1 takes the event as its sixteenth. -/
theorem broadcast_drops_only_for_full_witness :
    (((run NewHub sampleOps).1.Broadcast sampleEvent).2 = false ∧
      ((run NewHub sampleOps).1.Broadcast sampleEvent).1.subscribers = [0, 1]) ∧
    (run NewHub sampleOps).1.chans.map (fun c => c.buf.length) = [16, 15] ∧
    ((run NewHub sampleOps).1.Broadcast sampleEvent).1.chans.map (fun c => c.buf.length) =
      [16, 16] :=
  ⟨⟨(broadcast_drops_only_for_full sampleOps sampleEvent).1,
    (broadcast_drops_only_for_full sampleOps sampleEvent).2.1.trans (by decide)⟩,
    by decide, by decide⟩

/-- C10 after `sampleOps`: the second subscriber has received one event, out
of the sixteen broadcast while it was subscribed. -/
theorem hub_no_replay_witness :
    (receivedBy 1 (run NewHub sampleOps).2).length = 1 ∧
    (broadcastWhileSubscribed 1 false (run NewHub sampleOps).2).length = 16 ∧
    (receivedBy 1 (run NewHub sampleOps).2).Sublist
      (broadcastWhileSubscribed 1 false (run NewHub sampleOps).2) :=
  ⟨by decide, by decide, (hub_no_replay sampleOps 1).2⟩

/-! ## The bound on subscriber queues -/

/-- C11. In every state that the hub reaches from `NewHub` by `Subscribe`,
`Unsubscribe`, `Broadcast` and receive operations, the queue of each registered
subscriber has capacity 16 and holds at most 16 events; the same bound holds
for every channel the hub has made. -/
theorem subscriber_queue_bounded (ops : List Op) :
    (∀ ch ∈ (run NewHub ops).1.subscribers, ∃ c : Chan,
      (run NewHub ops).1.chans[ch]? = some c ∧ c.cap = 16 ∧ c.buf.length ≤ 16) ∧
    (∀ ch, (bufOf (run NewHub ops).1 ch).length ≤ 16) := by
  have hwf := run_WF ops NewHub NewHub_WF
  refine ⟨fun ch hmem => ?_, fun ch => ?_⟩
  · obtain ⟨c, hc, -⟩ := hwf.registered ch hmem
    exact ⟨c, hc, hwf.bounded ch c hc⟩
  · unfold bufOf
    cases hc : (run NewHub ops).1.chans[ch]? with
    | none => exact Nat.zero_le _
    | some c => exact (hwf.bounded ch c hc).2

/-- C11 after `sampleOps`: the two queues hold 16 and 15 events, and sixteen
further broadcasts leave both at 16. -/
theorem subscriber_queue_bounded_witness :
    (bufOf (run NewHub sampleOps).1 0).length ≤ 16 ∧
    (run NewHub
      (sampleOps ++ List.replicate 16 (Op.broadcast sampleEvent))).1.chans.map
        (fun c => c.buf.length) = [16, 16] :=
  ⟨(subscriber_queue_bounded sampleOps).2 0, by decide⟩

/-! ## The stream endpoint and a channel closed elsewhere -/

theorem streamLoop_closed (marshalFails : LogEvent → Bool) (ch : Nat) (ticks : List Tick)
    (h : Hub) (frames : List Frame)
    (hexit : (streamLoop marshalFails ch h frames ticks).2.2 = StreamExit.closed) :
    ∃ c : Chan, (streamLoop marshalFails ch h frames ticks).1.chans[ch]? = some c ∧
      c.closed = true := by
  induction ticks generalizing h frames with
  | nil => simp [streamLoop] at hexit
  | cons t rest ih =>
    cases t with
    | other op =>
      simp only [streamLoop] at hexit ⊢
      exact ih _ _ hexit
    | done => simp [streamLoop] at hexit
    | recv =>
      cases hc : h.chans[ch]? with
      | none =>
        have hr : h.receive ch = (h, Recv.wouldBlock) := by simp [Hub.receive, hc]
        simp only [streamLoop, hr] at hexit ⊢
        exact ih _ _ hexit
      | some c =>
        cases hb : c.buf with
        | cons e tl =>
          have hr : h.receive ch =
              ({ h with chans := h.chans.set ch { c with buf := tl } }, Recv.event e) := by
            simp [Hub.receive, hc, hb]
          simp only [streamLoop, hr] at hexit ⊢
          by_cases hm : marshalFails e = true
          · simp only [hm, if_true] at hexit ⊢
            exact ih _ _ hexit
          · simp only [hm, if_false, Bool.false_eq_true] at hexit ⊢
            exact ih _ _ hexit
        | nil =>
          by_cases hcl : c.closed = true
          · have hr : h.receive ch = (h, Recv.closed) := by simp [Hub.receive, hc, hb, hcl]
            simp only [streamLoop, hr]
            exact ⟨c, hc, hcl⟩
          · have hr : h.receive ch = (h, Recv.wouldBlock) := by
              simp [Hub.receive, hc, hb, hcl]
            simp only [streamLoop, hr] at hexit ⊢
            exact ih _ _ hexit

theorem Unsubscribe_closed_panics (h : Hub) (ch : Nat) (c : Chan)
    (hc : h.chans[ch]? = some c) (hcl : c.closed = true) : (h.Unsubscribe ch).2 = true := by
  simp [Hub.Unsubscribe, hc, hcl]

/-- Whenever the loop of `ServeRecentLogsStream` is left because its channel
was found closed, the deferred `Unsubscribe` of the same channel closes it a
second time and panics. -/
theorem stream_closed_panics (marshalFails : LogEvent → Bool) (h : Hub)
    (ticks : List Tick)
    (hexit : (ServeRecentLogsStream marshalFails h true ticks).exit = StreamExit.closed) :
    (ServeRecentLogsStream marshalFails h true ticks).panicked = true := by
  unfold ServeRecentLogsStream at hexit ⊢
  simp only [Bool.not_true, Bool.false_eq_true, if_false] at hexit ⊢
  have hloop := streamLoop_closed marshalFails h.Subscribe.2 ticks h.Subscribe.1
    [Frame.connected]
  rcases hs : streamLoop marshalFails h.Subscribe.2 h.Subscribe.1 [Frame.connected] ticks with
    ⟨h1, frames, exit⟩
  rw [hs] at hexit hloop
  cases exit with
  | waiting => simp at hexit
  | unsupported => simp at hexit
  | cancelled => simp at hexit
  | closed =>
    obtain ⟨c, hc, hcl⟩ := hloop rfl
    simp only
    exact Unsubscribe_closed_panics h1 _ c hc hcl

/-- C12 as stated fails. In the run the claim describes, another party
unsubscribes and closes the channel of the handler while the loop waits: the
loop observes the closed channel and returns, and the deferred `Unsubscribe`
of the same channel then panics, where the claim has the handler complete
without a panic. -/
theorem stream_closed_elsewhere_counterexample :
    (ServeRecentLogsStream (fun _ => false) NewHub true
        [Tick.other (Op.unsubscribe 0), Tick.recv]).exit = StreamExit.closed ∧
    (ServeRecentLogsStream (fun _ => false) NewHub true
        [Tick.other (Op.unsubscribe 0), Tick.recv]).panicked = true :=
  ⟨rfl, rfl⟩

theorem sendAll_keeps_open (event : LogEvent) (l : List Nat) (h : Hub) (ch : Nat)
    (hopen : ∃ c, h.chans[ch]? = some c ∧ c.closed = false) :
    ∃ c, (sendAll event l h).1.chans[ch]? = some c ∧ c.closed = false := by
  induction l generalizing h with
  | nil => simpa [sendAll] using hopen
  | cons a rest ih =>
    cases ha : h.chans[a]? with
    | none => simpa [sendAll, ha] using hopen
    | some c1 =>
      by_cases hcl : c1.closed = true
      · simpa [sendAll, ha, hcl] using hopen
      · by_cases hroom : c1.buf.length < c1.cap
        · have hs : sendAll event (a :: rest) h = sendAll event rest
              { h with chans := h.chans.set a { c1 with buf := c1.buf ++ [event] } } := by
            simp only [sendAll, ha]
            rw [if_neg hcl, if_pos hroom]
          rw [hs]
          apply ih
          obtain ⟨c, hc, ho⟩ := hopen
          by_cases hac : a = ch
          · subst hac
            have hlt := lt_of_getElem?_some _ _ _ ha
            refine ⟨{ c1 with buf := c1.buf ++ [event] }, ?_, ?_⟩
            · simp [List.getElem?_set_self, hlt]
            · rw [ha] at hc
              cases hc
              exact ho
          · exact ⟨c, by simp [List.getElem?_set_ne hac, hc], ho⟩
        · have hs : sendAll event (a :: rest) h = sendAll event rest h := by
            simp only [sendAll, ha]
            rw [if_neg hcl, if_neg hroom]
          rw [hs]
          exact ih h hopen

theorem step_keeps_open (h : Hub) (ch : Nat) (op : Op) (hop : op ≠ Op.unsubscribe ch)
    (hopen : ∃ c, h.chans[ch]? = some c ∧ c.closed = false) :
    ∃ c, (step h op).1.chans[ch]? = some c ∧ c.closed = false := by
  obtain ⟨c, hc, ho⟩ := hopen
  cases op with
  | subscribe =>
    have hlt := lt_of_getElem?_some _ _ _ hc
    refine ⟨c, ?_, ho⟩
    simp only [step, (Subscribe_chans h).1]
    rw [List.getElem?_append_left hlt]
    exact hc
  | unsubscribe x =>
    have hne : ¬ ch = x := fun e => hop (by rw [e])
    refine ⟨c, ?_, ho⟩
    simp only [step]
    rw [Unsubscribe_chans, if_neg hne]
    exact hc
  | broadcast event => exact sendAll_keeps_open event _ h ch ⟨c, hc, ho⟩
  | receive x =>
    rw [step_receive_fst, receive_chans]
    by_cases hx : ch = x
    · rw [if_pos hx, hc]
      exact ⟨_, rfl, ho⟩
    · rw [if_neg hx]
      exact ⟨c, hc, ho⟩

theorem receive_keeps_open (h : Hub) (ch : Nat)
    (hopen : ∃ c, h.chans[ch]? = some c ∧ c.closed = false) :
    (∃ c, (h.receive ch).1.chans[ch]? = some c ∧ c.closed = false) ∧
    (h.receive ch).2 ≠ Recv.closed := by
  obtain ⟨c, hc, ho⟩ := hopen
  constructor
  · rw [receive_chans, if_pos rfl, hc]
    exact ⟨_, rfl, ho⟩
  · cases hb : c.buf with
    | nil => simp [Hub.receive, hc, hb, ho]
    | cons e tl => simp [Hub.receive, hc, hb]

theorem streamLoop_open (marshalFails : LogEvent → Bool) (ch : Nat) (ticks : List Tick)
    (h : Hub) (frames : List Frame)
    (hown : ∀ t ∈ ticks, t ≠ Tick.other (Op.unsubscribe ch))
    (hopen : ∃ c, h.chans[ch]? = some c ∧ c.closed = false) :
    (∃ c, (streamLoop marshalFails ch h frames ticks).1.chans[ch]? = some c ∧
      c.closed = false) ∧
    (Tick.done ∈ ticks →
      (streamLoop marshalFails ch h frames ticks).2.2 = StreamExit.cancelled) ∧
    (Tick.done ∉ ticks →
      (streamLoop marshalFails ch h frames ticks).2.2 = StreamExit.waiting) := by
  induction ticks generalizing h frames with
  | nil => exact ⟨hopen, by simp, fun _ => rfl⟩
  | cons t rest ih =>
    have hrest : ∀ t ∈ rest, t ≠ Tick.other (Op.unsubscribe ch) :=
      fun t ht => hown t (List.mem_cons_of_mem _ ht)
    cases t with
    | other op =>
      have hop : op ≠ Op.unsubscribe ch := fun e => hown _ (List.mem_cons_self _ _) (by rw [e])
      have := ih (step h op).1 frames hrest (step_keeps_open h ch op hop hopen)
      simpa [streamLoop] using this
    | done => exact ⟨hopen, fun _ => rfl, fun hn => absurd (List.mem_cons_self _ _) hn⟩
    | recv =>
      obtain ⟨hk, hnc⟩ := receive_keeps_open h ch hopen
      rcases hr : h.receive ch with ⟨h1, r⟩
      rw [hr] at hk hnc
      cases r with
      | closed => exact absurd rfl hnc
      | wouldBlock =>
        have := ih h1 frames hrest hk
        simpa [streamLoop, hr] using this
      | event e =>
        by_cases hm : marshalFails e = true
        · have := ih h1 frames hrest hk
          simpa [streamLoop, hr, hm] using this
        · have := ih h1 (frames ++ [Frame.log e]) hrest hk
          simpa [streamLoop, hr, hm] using this

theorem Subscribe_open (h : Hub) :
    ∃ c, h.Subscribe.1.chans[h.Subscribe.2]? = some c ∧ c.closed = false := by
  refine ⟨{ buf := [], cap := 16, closed := false }, ?_, rfl⟩
  simp [Hub.Subscribe]

/-- C12, amended. In every run of `ServeRecentLogsStream` in which no other
party unsubscribes the channel of the handler (in the program nothing else
does: the channel is a local of the handler and the only call of `Unsubscribe`
is its own deferred one), whatever else the other parties do on the hub, the
loop never observes a closed channel and the deferred `Unsubscribe` does not
panic; once the context is cancelled the loop is left for that reason, and the
handler ends with its channel closed and no longer subscribed. -/
theorem stream_ends_clean (marshalFails : LogEvent → Bool) (h : Hub) (ticks : List Tick)
    (hown : ∀ t ∈ ticks, t ≠ Tick.other (Op.unsubscribe h.Subscribe.2)) :
    (ServeRecentLogsStream marshalFails h true ticks).exit ≠ StreamExit.closed ∧
    (ServeRecentLogsStream marshalFails h true ticks).panicked = false ∧
    (Tick.done ∈ ticks →
      (ServeRecentLogsStream marshalFails h true ticks).exit = StreamExit.cancelled ∧
      h.Subscribe.2 ∉ (ServeRecentLogsStream marshalFails h true ticks).hub.subscribers ∧
      ∃ c, (ServeRecentLogsStream marshalFails h true ticks).hub.chans[h.Subscribe.2]? =
        some c ∧ c.closed = true) ∧
    (Tick.done ∉ ticks →
      (ServeRecentLogsStream marshalFails h true ticks).exit = StreamExit.waiting) := by
  obtain ⟨⟨c, hc, ho⟩, hdone, hwait⟩ := streamLoop_open marshalFails h.Subscribe.2 ticks
    h.Subscribe.1 [Frame.connected] hown (Subscribe_open h)
  unfold ServeRecentLogsStream
  simp only [Bool.not_true, Bool.false_eq_true, if_false]
  rcases hs : streamLoop marshalFails h.Subscribe.2 h.Subscribe.1 [Frame.connected] ticks with
    ⟨h1, frames, exit⟩
  rw [hs] at hc hdone hwait
  simp only at hc hdone hwait
  have hpanic : (h1.Unsubscribe h.Subscribe.2).2 = false := by
    simp [Hub.Unsubscribe, hc, ho]
  by_cases hd : Tick.done ∈ ticks
  · have hexit := hdone hd
    subst hexit
    refine ⟨by simp, hpanic, fun _ => ⟨rfl, ?_, ?_⟩, fun hn => absurd hd hn⟩
    · simp only
      rw [Unsubscribe_subscribers]
      simp
    · simp only
      rw [Unsubscribe_chans, if_pos rfl, hc]
      exact ⟨_, rfl, rfl⟩
  · have hexit := hwait hd
    subst hexit
    exact ⟨by simp, rfl, fun hn => absurd hn hd, fun _ => rfl⟩

/-- C12 amended, at a run in which another subscriber comes and goes and an
event is broadcast and received before the context is cancelled. -/
theorem stream_ends_clean_witness :
    (ServeRecentLogsStream (fun _ => false) NewHub true
      [Tick.other Op.subscribe, Tick.other (Op.broadcast sampleEvent),
        Tick.other (Op.unsubscribe 1), Tick.recv, Tick.done]).exit = StreamExit.cancelled ∧
    (ServeRecentLogsStream (fun _ => false) NewHub true
      [Tick.other Op.subscribe, Tick.other (Op.broadcast sampleEvent),
        Tick.other (Op.unsubscribe 1), Tick.recv, Tick.done]).panicked = false ∧
    (ServeRecentLogsStream (fun _ => false) NewHub true
      [Tick.other Op.subscribe, Tick.other (Op.broadcast sampleEvent),
        Tick.other (Op.unsubscribe 1), Tick.recv, Tick.done]).frames =
      [Frame.connected, Frame.log sampleEvent] :=
  ⟨((stream_ends_clean (fun _ => false) NewHub
      [Tick.other Op.subscribe, Tick.other (Op.broadcast sampleEvent),
        Tick.other (Op.unsubscribe 1), Tick.recv, Tick.done]
      (by
        intro t ht
        simp only [List.mem_cons, List.mem_singleton, List.not_mem_nil, or_false] at ht
        rcases ht with rfl | rfl | rfl | rfl | rfl <;> simp [Hub.Subscribe, NewHub])).2.2.1
      (by simp)).1,
    (stream_ends_clean (fun _ => false) NewHub
      [Tick.other Op.subscribe, Tick.other (Op.broadcast sampleEvent),
        Tick.other (Op.unsubscribe 1), Tick.recv, Tick.done]
      (by
        intro t ht
        simp only [List.mem_cons, List.mem_singleton, List.not_mem_nil, or_false] at ht
        rcases ht with rfl | rfl | rfl | rfl | rfl <;> simp [Hub.Subscribe, NewHub])).2.1,
    rfl⟩

/-! ## The event handed to the hub -/

theorem eventsHanded_append (t1 t2 : List Effect) :
    eventsHanded (t1 ++ t2) = eventsHanded t1 ++ eventsHanded t2 := by
  induction t1 with
  | nil => rfl
  | cons e rest ih => cases e <;> simp [eventsHanded, ih]

theorem eventsHanded_filter (t : List Effect) :
    eventsHanded (t.filter isBroadcast) = eventsHanded t := by
  induction t with
  | nil => rfl
  | cons e rest ih => cases e <;> simp [eventsHanded, isBroadcast, List.filter_cons, ih]

theorem eventsHanded_entryBroadcast (now : Nat) (docs : List Obj) :
    eventsHanded (docs.map (entryBroadcast now)) = docs.map (entryEvent now) := by
  induction docs with
  | nil => rfl
  | cons d rest ih => simp [eventsHanded, entryBroadcast, entryEvent, ih]

theorem hexDigits_length (width n : Nat) : (hexDigits width n).length = width := by
  induction width generalizing n with
  | zero => rfl
  | succ w ih => simp [hexDigits, ih]

theorem Hex_length (id : ObjectID) : (Hex id).length = 24 := by
  simp [Hex, String.length, hexDigits_length]

theorem Hex_ne_empty (id : ObjectID) : Hex id ≠ "" := by
  intro he
  have hl := Hex_length id
  rw [he] at hl
  exact absurd hl (by decide)

/-- C13 as stated fails: the event handed to the hub for an accepted entry has
the empty string as its `ID`, which is the `Hex` of no object id, so it is not
the identifier of the stored entry. -/
theorem event_id_counterexample :
    eventsHanded ((NewHandler 0).SetBroadcaster.SubmitHandler ⟨7, false, 0⟩ ⟨[], []⟩
        (Body.parsed [("game", Value.str "mhs"), ("playerId", Value.str "p1"),
          ("eventType", Value.str "level_start"), ("level", Value.number 5)])).2.trace =
      [{ ID := "", Game := "mhs", PlayerID := "p1", EventType := "level_start",
         ServerTimestamp := 7, Data := [("level", Value.number 5)] }] ∧
    ∀ id : ObjectID, Hex id ≠ "" :=
  ⟨rfl, Hex_ne_empty⟩

/-- C13, amended. With the broadcaster of `bootstrap/routes.go` set, the events
handed to the hub for an accepted submission (`201`) are, in order, one per
document that the request persisted, carrying that document's game, playerId
and eventType read as strings, its `serverTimestamp`, and as data the fields
that `ListLogs` rebuilds for it; the `ID` of every such event is empty. A
submission that is not accepted hands over no event. -/
theorem event_carries_entry_fields (h : Handler) (env : Env) (w : World) (body : Body)
    (hb : h.broadcaster = true) :
    (h.SubmitHandler env w body).2.trace =
      w.trace ++ newCalls w (h.SubmitHandler env w body).2 ∧
    (h.SubmitHandler env w body).2.logdata =
      w.logdata ++ newDocs w (h.SubmitHandler env w body).2 ∧
    ((h.SubmitHandler env w body).1 = Response.created env.now →
      eventsHanded (newCalls w (h.SubmitHandler env w body).2) =
        (newDocs w (h.SubmitHandler env w body).2).map (entryEvent env.now) ∧
      newDocs w (h.SubmitHandler env w body).2 ≠ [] ∧
      ∀ d ∈ newDocs w (h.SubmitHandler env w body).2,
        d.get "serverTimestamp" = some (Value.time env.now) ∧
        (entryEvent env.now d).ID = "" ∧
        (entryEvent env.now d).Game = stringField d "game" ∧
        (entryEvent env.now d).PlayerID = stringField d "playerId" ∧
        (entryEvent env.now d).EventType = stringField d "eventType" ∧
        (entryEvent env.now d).ServerTimestamp = env.now ∧
        ∀ k, (entryEvent env.now d).Data.get k = (Obj.ofNilable (entryData d)).get k) ∧
    ((h.SubmitHandler env w body).1 ≠ Response.created env.now →
      eventsHanded (newCalls w (h.SubmitHandler env w body).2) = []) := by
  obtain ⟨htrace, hlog, hacc, hrej, -⟩ := submit_new h env w body hb
  refine ⟨htrace, hlog, fun hc => ⟨?_, (hacc hc).2.1, fun d hd =>
    ⟨(hacc hc).2.2 d hd, rfl, rfl, rfl, rfl, rfl, ?_⟩⟩, fun hc => ?_⟩
  · rw [← eventsHanded_filter, (hacc hc).1, eventsHanded_entryBroadcast]
  · intro k
    simp only [entryEvent, closureEvent]
    rw [extractData_get, entryData_get]
  · rw [← eventsHanded_filter, hrej hc]
    rfl

/-- C13 amended, at a single submission: one event, with the fields of the
stored document and an empty `ID`. -/
theorem event_carries_entry_fields_witness :
    eventsHanded (newCalls ⟨[], []⟩
      ((NewHandler 0).SetBroadcaster.SubmitHandler ⟨7, false, 0⟩ ⟨[], []⟩
        (Body.parsed [("game", Value.str "mhs"), ("playerId", Value.str "p1")])).2) =
      (newDocs ⟨[], []⟩
        ((NewHandler 0).SetBroadcaster.SubmitHandler ⟨7, false, 0⟩ ⟨[], []⟩
          (Body.parsed [("game", Value.str "mhs"), ("playerId", Value.str "p1")])).2).map
        (entryEvent 7) ∧
    newDocs ⟨[], []⟩
      ((NewHandler 0).SetBroadcaster.SubmitHandler ⟨7, false, 0⟩ ⟨[], []⟩
        (Body.parsed [("game", Value.str "mhs"), ("playerId", Value.str "p1")])).2 ≠ [] ∧
    ∀ d ∈ newDocs ⟨[], []⟩
      ((NewHandler 0).SetBroadcaster.SubmitHandler ⟨7, false, 0⟩ ⟨[], []⟩
        (Body.parsed [("game", Value.str "mhs"), ("playerId", Value.str "p1")])).2,
      d.get "serverTimestamp" = some (Value.time 7) ∧
      (entryEvent 7 d).ID = "" ∧
      (entryEvent 7 d).Game = stringField d "game" ∧
      (entryEvent 7 d).PlayerID = stringField d "playerId" ∧
      (entryEvent 7 d).EventType = stringField d "eventType" ∧
      (entryEvent 7 d).ServerTimestamp = 7 ∧
      ∀ k, (entryEvent 7 d).Data.get k = (Obj.ofNilable (entryData d)).get k :=
  (event_carries_entry_fields (NewHandler 0).SetBroadcaster ⟨7, false, 0⟩ ⟨[], []⟩
    (Body.parsed [("game", Value.str "mhs"), ("playerId", Value.str "p1")]) rfl).2.2.1 rfl

/-! ## Object ids in hexadecimal -/

theorem hexVal_hexDigitChar : ∀ d, d < 16 → hexVal (hexDigitChar d) = some d := by
  decide

theorem decodeHexFrom_append (acc : Nat) (l1 l2 : List Char) :
    decodeHexFrom acc (l1 ++ l2) =
      (decodeHexFrom acc l1).bind (fun a => decodeHexFrom a l2) := by
  induction l1 generalizing acc with
  | nil => rfl
  | cons c cs ih =>
    simp only [List.cons_append, decodeHexFrom]
    cases hexVal c with
    | none => rfl
    | some d => exact ih _

theorem decodeHexFrom_hexDigits (width acc n : Nat) :
    decodeHexFrom acc (hexDigits width n) = some (acc * 16 ^ width + n % 16 ^ width) := by
  induction width generalizing n with
  | zero => simp [hexDigits, decodeHexFrom, Nat.mod_one]
  | succ w ih =>
    rw [hexDigits, decodeHexFrom_append, ih]
    simp only [Option.some_bind, decodeHexFrom,
      hexVal_hexDigitChar (n % 16) (Nat.mod_lt _ (by decide))]
    congr 1
    have hm : n % 16 ^ (w + 1) = n % 16 + 16 * (n / 16 % 16 ^ w) := by
      rw [pow_succ, mul_comm, Nat.mod_mul]
    rw [hm, pow_succ]
    ring

theorem ObjectIDFromHex_Hex (id : ObjectID) : ObjectIDFromHex (Hex id) = some id := by
  have hlen : (Hex id).length = 24 := by simp [Hex, String.length, hexDigits_length]
  have hdec : decodeHexFrom 0 (Hex id).data = some id.val := by
    have := decodeHexFrom_hexDigits 24 0 id.val
    rw [zero_mul, zero_add, Nat.mod_eq_of_lt (lt_of_lt_of_eq id.isLt (by norm_num))] at this
    exact this
  unfold ObjectIDFromHex
  rw [if_pos hlen, hdec]
  simp

/-! ## The sort orders -/

theorem leAsc_eq (a b : Doc) : leAsc a b = leDesc b a := by
  unfold leAsc leDesc
  by_cases h : a.ServerTimestamp = b.ServerTimestamp
  · simp [h, eq_comm]
  · have h' : ¬ b.ServerTimestamp = a.ServerTimestamp := fun e => h e.symm
    simp [h, h']

theorem leDesc_iff (a b : Doc) :
    leDesc a b = true ↔ b.ServerTimestamp < a.ServerTimestamp ∨
      (a.ServerTimestamp = b.ServerTimestamp ∧ b.ID ≤ a.ID) := by
  simp [leDesc]

theorem leDesc_total (a b : Doc) : leDesc a b = true ∨ leDesc b a = true := by
  rw [leDesc_iff, leDesc_iff]
  rcases lt_trichotomy a.ServerTimestamp b.ServerTimestamp with h | h | h
  · exact Or.inr (Or.inl h)
  · rcases le_total a.ID b.ID with hi | hi
    · exact Or.inr (Or.inr ⟨h.symm, hi⟩)
    · exact Or.inl (Or.inr ⟨h, hi⟩)
  · exact Or.inl (Or.inl h)

theorem leDesc_trans (a b c : Doc) (hab : leDesc a b = true) (hbc : leDesc b c = true) :
    leDesc a c = true := by
  rw [leDesc_iff] at *
  rcases hab with h1 | ⟨h1, h1'⟩ <;> rcases hbc with h2 | ⟨h2, h2'⟩
  · exact Or.inl (lt_trans h2 h1)
  · exact Or.inl (h2 ▸ h1)
  · exact Or.inl (h1 ▸ h2)
  · exact Or.inr ⟨h1.trans h2, le_trans h2' h1'⟩

theorem sortedDesc_sorted (l : List Doc) :
    (sortedDesc l).Sorted (fun a b => leDesc a b = true) :=
  @List.sorted_insertionSort Doc (fun a b => leDesc a b = true) _
    ⟨leDesc_total⟩ ⟨leDesc_trans⟩ l

theorem sortedAsc_sorted (l : List Doc) :
    (sortedAsc l).Sorted (fun a b => leAsc a b = true) :=
  @List.sorted_insertionSort Doc (fun a b => leAsc a b = true) _
    ⟨fun a b => by rw [leAsc_eq, leAsc_eq]; exact leDesc_total b a⟩
    ⟨fun a b c hab hbc => by
      rw [leAsc_eq] at *
      exact leDesc_trans c b a hbc hab⟩ l

/-! ## What `ListLogs` computes -/

theorem ObjectIDFromHex_empty : ObjectIDFromHex "" = none := by decide

theorem ne_empty_of_ObjectIDFromHex (s : String) (oid : ObjectID)
    (h : ObjectIDFromHex s = some oid) : s ≠ "" := by
  intro he
  rw [he, ObjectIDFromHex_empty] at h
  exact absurd h (by simp)

theorem trim_eq (rows : List Doc) (limit : Nat) :
    (if decide (((rows.take (limit + 1)).map toEntry).length > limit) = true
      then ((rows.take (limit + 1)).map toEntry).take limit
      else (rows.take (limit + 1)).map toEntry) = (rows.take limit).map toEntry ∧
    decide (((rows.take (limit + 1)).map toEntry).length > limit) = decide (limit < rows.length) := by
  have hlen : ((rows.take (limit + 1)).map toEntry).length = min (limit + 1) rows.length := by
    simp
  by_cases h : limit < rows.length
  · have h1 : min (limit + 1) rows.length > limit := by omega
    refine ⟨?_, by simp [hlen, h, h1]⟩
    rw [if_pos (by simp [hlen]; omega), ← List.map_take, List.take_take]
    congr 2
    omega
  · have h1 : ¬ min (limit + 1) rows.length > limit := by omega
    refine ⟨?_, by simp only [hlen, gt_iff_lt, h]; simp; omega⟩
    rw [if_neg (by simp only [hlen, decide_eq_true_eq]; exact h1)]
    rw [List.take_of_length_le (by omega), List.take_of_length_le (by omega)]

theorem ListLogs_eq (coll : List Doc) (game playerID eventType : String) (limit : Nat)
    (afterID beforeID : String) :
    ListLogs coll game playerID eventType limit afterID beforeID =
      pageOf limit afterID beforeID
        (Find coll (cursorOf (logFilter game playerID eventType) afterID beforeID).1
          (cursorOf (logFilter game playerID eventType) afterID beforeID).2 (limit + 1)) :=
  rfl

theorem logFilter_all (game playerID eventType : String) (d : Doc) :
    (logFilter game playerID eventType).all (fun c => c d) =
      matchesFilter game playerID eventType d := by
  unfold logFilter matchesFilter
  by_cases h1 : playerID = "__empty__" <;> by_cases h2 : playerID = "" <;>
    by_cases h3 : eventType = "" <;> simp [h1, h2, h3, Bool.and_assoc]

theorem Find_pos (coll : List Doc) (filter : List (Doc → Bool)) (sortDir : Int) (limit : Nat) :
    Find coll filter sortDir (limit + 1) =
      ((coll.filter (fun d => filter.all (fun c => c d))).insertionSort
        (fun a b => sortOrder sortDir a b = true)).take (limit + 1) := by
  simp [Find]

theorem filter_congr_all (coll : List Doc) (p q : Doc → Bool) (h : ∀ d, p d = q d) :
    coll.filter p = coll.filter q := by
  have : p = q := funext h
  rw [this]

theorem Find_logFilter_lt (coll : List Doc) (game playerID eventType : String) (limit : Nat)
    (a : ObjectID) :
    Find coll (logFilter game playerID eventType ++ [condIdLt a]) (-1) (limit + 1) =
      (sortedDesc (coll.filter (fun d =>
        matchesFilter game playerID eventType d && decide (d.ID < a)))).take (limit + 1) := by
  rw [Find_pos]
  have hp : coll.filter (fun d =>
      (logFilter game playerID eventType ++ [condIdLt a]).all (fun c => c d)) =
      coll.filter (fun d => matchesFilter game playerID eventType d && decide (d.ID < a)) := by
    apply filter_congr_all
    intro d
    simp [List.all_append, logFilter_all, condIdLt]
  rw [hp]
  rfl

theorem Find_logFilter_gt (coll : List Doc) (game playerID eventType : String) (limit : Nat)
    (b : ObjectID) :
    Find coll (logFilter game playerID eventType ++ [condIdGt b]) 1 (limit + 1) =
      (sortedAsc (coll.filter (fun d =>
        matchesFilter game playerID eventType d && decide (b < d.ID)))).take (limit + 1) := by
  rw [Find_pos]
  have hp : coll.filter (fun d =>
      (logFilter game playerID eventType ++ [condIdGt b]).all (fun c => c d)) =
      coll.filter (fun d => matchesFilter game playerID eventType d && decide (b < d.ID)) := by
    apply filter_congr_all
    intro d
    simp [List.all_append, logFilter_all, condIdGt]
  rw [hp]
  rfl

theorem Find_logFilter (coll : List Doc) (game playerID eventType : String) (limit : Nat) :
    Find coll (logFilter game playerID eventType) (-1) (limit + 1) =
      (sortedDesc (coll.filter (matchesFilter game playerID eventType))).take (limit + 1) := by
  rw [Find_pos]
  have hp : coll.filter (fun d => (logFilter game playerID eventType).all (fun c => c d)) =
      coll.filter (matchesFilter game playerID eventType) := by
    apply filter_congr_all
    intro d
    exact logFilter_all game playerID eventType d
  rw [hp]
  rfl

theorem pageOf_forward (limit : Nat) (afterID : String) (rows : List Doc) :
    pageOf limit afterID "" (rows.take (limit + 1)) =
      ((rows.take limit).map toEntry, decide (afterID ≠ ""), decide (limit < rows.length)) := by
  have htrim := trim_eq rows limit
  unfold pageOf
  simp only [ne_eq, not_true_eq_false, false_and, if_false, decide_False, Bool.or_false]
  rw [htrim.1, htrim.2]

theorem pageOf_backward (limit : Nat) (afterID beforeID : String) (hb : beforeID ≠ "")
    (rows : List Doc) :
    pageOf limit afterID beforeID (rows.take (limit + 1)) =
      (((rows.take limit).reverse).map toEntry, decide (limit < rows.length), true) := by
  have htrim := trim_eq rows limit
  unfold pageOf
  simp only [ne_eq, hb, not_false_eq_true, true_and, if_true]
  rw [htrim.1, htrim.2]
  by_cases hl : (List.map toEntry (List.take limit rows)).length > 0
  · rw [if_pos hl, List.map_reverse]
  · rw [if_neg hl]
    have hnil : List.take limit rows = [] := by
      cases hr : List.take limit rows with
      | nil => rfl
      | cons x xs => simp [hr] at hl
    simp [hnil]

theorem ListLogs_after (coll : List Doc) (game playerID eventType : String) (limit : Nat)
    (afterID : String) (a : ObjectID) (ha : ObjectIDFromHex afterID = some a) :
    ListLogs coll game playerID eventType limit afterID "" =
      (((sortedDesc (coll.filter (fun d =>
          matchesFilter game playerID eventType d && decide (d.ID < a)))).take limit).map toEntry,
        true,
        decide (limit < (sortedDesc (coll.filter (fun d =>
          matchesFilter game playerID eventType d && decide (d.ID < a)))).length)) := by
  have hne := ne_empty_of_ObjectIDFromHex afterID a ha
  have hc : cursorOf (logFilter game playerID eventType) afterID "" =
      (logFilter game playerID eventType ++ [condIdLt a], -1) := by
    simp [cursorOf, hne, ha]
  rw [ListLogs_eq, hc, Find_logFilter_lt, pageOf_forward]
  simp [hne]

theorem ListLogs_first (coll : List Doc) (game playerID eventType : String) (limit : Nat)
    (afterID : String) (ha : ObjectIDFromHex afterID = none) :
    ListLogs coll game playerID eventType limit afterID "" =
      (((listing coll game playerID eventType).take limit).map toEntry,
        decide (afterID ≠ ""),
        decide (limit < (listing coll game playerID eventType).length)) := by
  have hc : cursorOf (logFilter game playerID eventType) afterID "" =
      (logFilter game playerID eventType, -1) := by
    by_cases hne : afterID = "" <;> simp [cursorOf, hne, ha]
  rw [ListLogs_eq, hc, Find_logFilter, pageOf_forward]
  rfl

theorem ListLogs_before (coll : List Doc) (game playerID eventType : String) (limit : Nat)
    (afterID beforeID : String) (b : ObjectID) (hb : ObjectIDFromHex beforeID = some b) :
    ListLogs coll game playerID eventType limit afterID beforeID =
      ((((sortedAsc (coll.filter (fun d =>
          matchesFilter game playerID eventType d && decide (b < d.ID)))).take limit).reverse).map
            toEntry,
        decide (limit < (sortedAsc (coll.filter (fun d =>
          matchesFilter game playerID eventType d && decide (b < d.ID)))).length),
        true) := by
  have hne := ne_empty_of_ObjectIDFromHex beforeID b hb
  have hc : cursorOf (logFilter game playerID eventType) afterID beforeID =
      (logFilter game playerID eventType ++ [condIdGt b], 1) := by
    simp [cursorOf, hne, hb]
  rw [ListLogs_eq, hc, Find_logFilter_gt, pageOf_backward limit afterID beforeID hne]

/-! ## Listings under the primary key -/

theorem leDesc_antisymm_id (a b : Doc) (hab : leDesc a b = true) (hba : leDesc b a = true) :
    a.ID = b.ID := by
  rw [leDesc_iff] at hab hba
  rcases hab with h1 | ⟨h1, h1'⟩ <;> rcases hba with h2 | ⟨h2, h2'⟩
  · exact absurd h1 (not_lt_of_gt h2)
  · rw [h2] at h1
    exact absurd h1 (lt_irrefl _)
  · rw [h1] at h2
    exact absurd h2 (lt_irrefl _)
  · exact le_antisymm h2' h1'

theorem nodup_ids_pairwise (l : List Doc) (h : (l.map Doc.ID).Nodup) :
    l.Pairwise (fun a b => a.ID ≠ b.ID) :=
  List.pairwise_map.1 h

theorem sorted_desc_unique (l1 l2 : List Doc) (hp : l1.Perm l2)
    (hs1 : l1.Sorted (fun a b => leDesc a b = true))
    (hs2 : l2.Sorted (fun a b => leDesc a b = true))
    (hn : (l1.map Doc.ID).Nodup) : l1 = l2 := by
  have hn2 : (l2.map Doc.ID).Nodup := ((hp.map Doc.ID).nodup_iff).1 hn
  have h1 : l1.Sorted (fun a b => leDesc a b = true ∧ a.ID ≠ b.ID) :=
    List.Pairwise.and hs1 (nodup_ids_pairwise l1 hn)
  have h2 : l2.Sorted (fun a b => leDesc a b = true ∧ a.ID ≠ b.ID) :=
    List.Pairwise.and hs2 (nodup_ids_pairwise l2 hn2)
  exact @List.eq_of_perm_of_sorted Doc (fun a b => leDesc a b = true ∧ a.ID ≠ b.ID)
    ⟨fun a b hab hba => absurd (leDesc_antisymm_id a b hab.1 hba.1) hab.2⟩ l1 l2 hp h1 h2

theorem sortedDesc_perm (l : List Doc) : (sortedDesc l).Perm l :=
  List.perm_insertionSort _ l

theorem sortedAsc_perm (l : List Doc) : (sortedAsc l).Perm l :=
  List.perm_insertionSort _ l

theorem sortedDesc_filter (l : List Doc) (q : Doc → Bool) (hu : uniqueIds l) :
    sortedDesc (l.filter q) = (sortedDesc l).filter q := by
  apply sorted_desc_unique
  · exact (sortedDesc_perm _).trans ((sortedDesc_perm l).filter q).symm
  · exact sortedDesc_sorted _
  · exact (sortedDesc_sorted l).filter q
  · have hsub : ((sortedDesc (l.filter q)).map Doc.ID).Perm ((l.filter q).map Doc.ID) :=
      (sortedDesc_perm _).map _
    rw [hsub.nodup_iff]
    exact List.Nodup.sublist ((List.filter_sublist l).map Doc.ID) hu

theorem sortedAsc_eq_reverse (l : List Doc) (hu : uniqueIds l) :
    sortedAsc l = (sortedDesc l).reverse := by
  have hs : (sortedAsc l).reverse.Sorted (fun a b => leDesc a b = true) := by
    unfold List.Sorted
    rw [List.pairwise_reverse]
    exact (sortedAsc_sorted l).imp (fun {x y} hxy => by rw [← leAsc_eq]; exact hxy)
  have hperm : (sortedAsc l).reverse.Perm (sortedDesc l) :=
    (List.reverse_perm _).trans ((sortedAsc_perm l).trans (sortedDesc_perm l).symm)
  have hn : ((sortedAsc l).reverse.map Doc.ID).Nodup := by
    have hp2 : ((sortedAsc l).reverse.map Doc.ID).Perm (l.map Doc.ID) :=
      ((List.reverse_perm _).trans (sortedAsc_perm l)).map _
    rw [hp2.nodup_iff]
    exact hu
  have := sorted_desc_unique _ _ hperm hs (sortedDesc_sorted l) hn
  rw [← this, List.reverse_reverse]

theorem listing_filter (coll : List Doc) (game playerID eventType : String) (q : Doc → Bool)
    (hu : uniqueIds coll) :
    sortedDesc (coll.filter (fun d => matchesFilter game playerID eventType d && q d)) =
      (listing coll game playerID eventType).filter q := by
  have hf : coll.filter (fun d => matchesFilter game playerID eventType d && q d) =
      (coll.filter (matchesFilter game playerID eventType)).filter q := by
    rw [List.filter_filter]
    apply filter_congr_all
    intro d
    exact Bool.and_comm _ _
  rw [hf, listing]
  apply sortedDesc_filter
  exact List.Nodup.sublist ((List.filter_sublist coll).map Doc.ID) hu

theorem listing_mem (coll : List Doc) (game playerID eventType : String) (d : Doc)
    (hd : d ∈ listing coll game playerID eventType) :
    d ∈ coll ∧ matchesFilter game playerID eventType d = true := by
  have := (sortedDesc_perm (coll.filter (matchesFilter game playerID eventType))).subset hd
  exact List.mem_filter.1 this

theorem listing_ids_nodup (coll : List Doc) (game playerID eventType : String)
    (hu : uniqueIds coll) : ((listing coll game playerID eventType).map Doc.ID).Nodup := by
  have hp : ((listing coll game playerID eventType).map Doc.ID).Perm
      ((coll.filter (matchesFilter game playerID eventType)).map Doc.ID) :=
    (sortedDesc_perm _).map _
  rw [hp.nodup_iff]
  exact List.Nodup.sublist ((List.filter_sublist coll).map Doc.ID) hu

/-- Under agreement the listing is strictly descending in the ids. -/
theorem listing_idDesc (coll : List Doc) (game playerID eventType : String)
    (hu : uniqueIds coll) (hagree : idsAgree coll) :
    (listing coll game playerID eventType).Pairwise (fun a b => b.ID < a.ID) := by
  have hs : (listing coll game playerID eventType).Pairwise
      (fun a b => leDesc a b = true ∧ a.ID ≠ b.ID) :=
    List.Pairwise.and (sortedDesc_sorted _)
      (nodup_ids_pairwise _ (listing_ids_nodup coll game playerID eventType hu))
  refine List.Pairwise.imp_of_mem ?_ hs
  intro a b ha hb hab
  have hac := (listing_mem coll game playerID eventType a ha).1
  have hbc := (listing_mem coll game playerID eventType b hb).1
  rcases lt_trichotomy a.ID b.ID with hlt | heq | hgt
  · have hts := hagree a hac b hbc hlt
    rcases (leDesc_iff a b).1 hab.1 with h1 | ⟨-, h2⟩
    · exact absurd hts (not_le_of_gt h1)
    · exact absurd hlt (not_lt_of_ge h2)
  · exact absurd heq hab.2
  · exact hgt

/-! ## Forward and backward requests over the listing -/

theorem afterBound_Hex (x : ObjectID) (d : Doc) : afterBound (Hex x) d = decide (d.ID < x) := by
  simp [afterBound, ObjectIDFromHex_Hex]

theorem ListLogs_forward (coll : List Doc) (game playerID eventType : String) (limit : Nat)
    (afterID : String) (hu : uniqueIds coll) :
    ListLogs coll game playerID eventType limit afterID "" =
      ((((listing coll game playerID eventType).filter (afterBound afterID)).take limit).map
          toEntry,
        decide (afterID ≠ ""),
        decide (limit <
          ((listing coll game playerID eventType).filter (afterBound afterID)).length)) := by
  cases ha : ObjectIDFromHex afterID with
  | none =>
    have hb : afterBound afterID = fun _ => true := by
      funext d
      simp [afterBound, ha]
    rw [ListLogs_first coll game playerID eventType limit afterID ha, hb]
    simp
  | some a =>
    have hb : afterBound afterID = fun d => decide (d.ID < a) := by
      funext d
      simp [afterBound, ha]
    have hne := ne_empty_of_ObjectIDFromHex afterID a ha
    rw [ListLogs_after coll game playerID eventType limit afterID a ha, hb,
      listing_filter coll game playerID eventType _ hu]
    simp [hne]

theorem last_le_of_idDesc (l : List Doc) (x : Doc)
    (hp : l.Pairwise (fun a b => b.ID < a.ID)) (hx : l.getLast? = some x) :
    ∀ d ∈ l, x.ID ≤ d.ID := by
  obtain ⟨ys, rfl⟩ := List.getLast?_eq_some_iff.1 hx
  intro d hd
  rw [List.pairwise_append] at hp
  rcases List.mem_append.1 hd with hd | hd
  · exact le_of_lt (hp.2.2 d hd x (List.mem_singleton.2 rfl))
  · rw [List.mem_singleton.1 hd]

theorem filter_lt_last (P R : List Doc) (x : Doc)
    (hp : (P ++ R).Pairwise (fun a b => b.ID < a.ID)) (hx : P.getLast? = some x) :
    (P ++ R).filter (fun d => decide (d.ID < x.ID)) = R := by
  rw [List.pairwise_append] at hp
  have hxP : x ∈ P := List.mem_of_mem_getLast? hx
  have h1 : P.filter (fun d => decide (d.ID < x.ID)) = [] := by
    rw [List.filter_eq_nil_iff]
    intro d hd
    have := last_le_of_idDesc P x hp.1 hx d hd
    simp only [decide_eq_true_eq, not_lt]
    exact this
  have h2 : R.filter (fun d => decide (d.ID < x.ID)) = R := by
    rw [List.filter_eq_self]
    intro d hd
    simp only [decide_eq_true_eq]
    exact hp.2.2 x hxP d hd
  rw [List.filter_append, h1, h2, List.nil_append]

theorem filter_gt_head (A B : List Doc) (y : Doc)
    (hp : (A ++ y :: B).Pairwise (fun a b => b.ID < a.ID)) :
    (A ++ y :: B).filter (fun d => decide (y.ID < d.ID)) = A := by
  rw [List.pairwise_append] at hp
  have h1 : A.filter (fun d => decide (y.ID < d.ID)) = A := by
    rw [List.filter_eq_self]
    intro d hd
    simp only [decide_eq_true_eq]
    exact hp.2.2 d hd y (List.mem_cons_self _ _)
  have h2 : (y :: B).filter (fun d => decide (y.ID < d.ID)) = [] := by
    rw [List.filter_eq_nil_iff]
    intro d hd
    simp only [decide_eq_true_eq, not_lt]
    rcases List.mem_cons.1 hd with hd | hd
    · rw [hd]
    · exact le_of_lt ((List.pairwise_cons.1 hp.2.1).1 d hd)
  rw [List.filter_append, h1, h2, List.append_nil]

/-- The rows below the last entry of a forward page are the rows that the page
left over. -/
theorem rows_after_page (coll : List Doc) (game playerID eventType : String) (limit : Nat)
    (afterID : String) (x : Doc) (hu : uniqueIds coll) (hagree : idsAgree coll)
    (hx : (((listing coll game playerID eventType).filter (afterBound afterID)).take
      limit).getLast? = some x) :
    (listing coll game playerID eventType).filter (afterBound (Hex x.ID)) =
      ((listing coll game playerID eventType).filter (afterBound afterID)).drop limit := by
  have hS := listing_idDesc coll game playerID eventType hu hagree
  have hT : ((listing coll game playerID eventType).filter (afterBound afterID)).Pairwise
      (fun a b => b.ID < a.ID) := hS.sublist (List.filter_sublist _)
  have hxT : x ∈ (listing coll game playerID eventType).filter (afterBound afterID) :=
    (List.take_sublist _ _).subset (List.mem_of_mem_getLast? hx)
  have hxb : afterBound afterID x = true := (List.mem_filter.1 hxT).2
  have hpred : (listing coll game playerID eventType).filter (afterBound (Hex x.ID)) =
      ((listing coll game playerID eventType).filter (afterBound afterID)).filter
        (fun d => decide (d.ID < x.ID)) := by
    rw [List.filter_filter]
    apply filter_congr_all
    intro d
    rw [afterBound_Hex]
    by_cases hd : d.ID < x.ID
    · have : afterBound afterID d = true := by
        unfold afterBound at hxb ⊢
        cases ha : ObjectIDFromHex afterID with
        | none => rfl
        | some a =>
          rw [ha] at hxb
          simp only [decide_eq_true_eq] at hxb ⊢
          exact lt_trans hd hxb
      simp [hd, this]
    · simp [hd]
  rw [hpred]
  have hsplit := List.take_append_drop limit
    ((listing coll game playerID eventType).filter (afterBound afterID))
  have := filter_lt_last _ _ x (hsplit.symm ▸ hT) hx
  rw [hsplit] at this
  exact this

theorem filter_lt_suffix (a : ObjectID) (l : List Doc)
    (hp : l.Pairwise (fun x y => y.ID < x.ID)) :
    ∃ pre, l = pre ++ l.filter (fun d => decide (d.ID < a)) := by
  induction l with
  | nil => exact ⟨[], rfl⟩
  | cons h t ih =>
    have hp' := List.pairwise_cons.1 hp
    by_cases hh : h.ID < a
    · refine ⟨[], ?_⟩
      have hall : (h :: t).filter (fun d => decide (d.ID < a)) = h :: t := by
        rw [List.filter_eq_self]
        intro d hd
        simp only [decide_eq_true_eq]
        rcases List.mem_cons.1 hd with hd | hd
        · rw [hd]
          exact hh
        · exact lt_trans (hp'.1 d hd) hh
      rw [hall, List.nil_append]
    · obtain ⟨pre, hpre⟩ := ih hp'.2
      refine ⟨h :: pre, ?_⟩
      rw [List.filter_cons_of_neg (by simpa using hh), List.cons_append, ← hpre]

theorem filter_gt_prefix (b : ObjectID) (l : List Doc)
    (hp : l.Pairwise (fun x y => y.ID < x.ID)) :
    ∃ post, l = l.filter (fun d => decide (b < d.ID)) ++ post := by
  induction l with
  | nil => exact ⟨[], rfl⟩
  | cons h t ih =>
    have hp' := List.pairwise_cons.1 hp
    by_cases hh : b < h.ID
    · obtain ⟨post, hpost⟩ := ih hp'.2
      refine ⟨post, ?_⟩
      rw [List.filter_cons_of_pos (by simpa using hh), List.cons_append, ← hpost]
    · refine ⟨h :: t, ?_⟩
      have hnone : (h :: t).filter (fun d => decide (b < d.ID)) = [] := by
        rw [List.filter_eq_nil_iff]
        intro d hd
        simp only [decide_eq_true_eq, not_lt]
        rcases List.mem_cons.1 hd with hd | hd
        · rw [hd]
          exact not_lt.1 hh
        · exact le_trans (le_of_lt (hp'.1 d hd)) (not_lt.1 hh)
      rw [hnone, List.nil_append]

theorem ListLogs_backward (coll : List Doc) (game playerID eventType : String) (limit : Nat)
    (afterID beforeID : String) (b : ObjectID) (hu : uniqueIds coll)
    (hb : ObjectIDFromHex beforeID = some b) :
    (ListLogs coll game playerID eventType limit afterID beforeID).1 =
      (((((listing coll game playerID eventType).filter
        (fun d => decide (b < d.ID))).reverse).take limit).reverse).map toEntry := by
  rw [ListLogs_before coll game playerID eventType limit afterID beforeID b hb]
  have hu' : uniqueIds (coll.filter (fun d =>
      matchesFilter game playerID eventType d && decide (b < d.ID))) :=
    List.Nodup.sublist ((List.filter_sublist coll).map Doc.ID) hu
  rw [sortedAsc_eq_reverse _ hu', listing_filter coll game playerID eventType _ hu]

theorem page_last (coll : List Doc) (game playerID eventType : String) (limit : Nat)
    (afterID : String) (last : LogEntry) (hu : uniqueIds coll)
    (hlast : (ListLogs coll game playerID eventType limit afterID "").1.getLast? = some last) :
    ∃ x, (((listing coll game playerID eventType).filter (afterBound afterID)).take
      limit).getLast? = some x ∧ x.ID = last.ID := by
  rw [ListLogs_forward coll game playerID eventType limit afterID hu] at hlast
  simp only [List.getLast?_map] at hlast
  cases hx : (((listing coll game playerID eventType).filter (afterBound afterID)).take
      limit).getLast? with
  | none => simp [hx] at hlast
  | some x =>
    rw [hx] at hlast
    simp only [Option.map_some', Option.some.injEq] at hlast
    exact ⟨x, rfl, by rw [← hlast]; rfl⟩

theorem afterBound_suffix (afterID : String) (l : List Doc)
    (hp : l.Pairwise (fun x y => y.ID < x.ID)) :
    ∃ pre, l = pre ++ l.filter (afterBound afterID) := by
  cases ha : ObjectIDFromHex afterID with
  | none =>
    have hb : afterBound afterID = fun _ => true := by
      funext d
      simp [afterBound, ha]
    refine ⟨[], ?_⟩
    rw [hb]
    simp
  | some a =>
    have hb : afterBound afterID = fun d => decide (d.ID < a) := by
      funext d
      simp [afterBound, ha]
    rw [hb]
    exact filter_lt_suffix a l hp

theorem symmetry_core (coll : List Doc) (game playerID eventType : String) (limit : Nat)
    (afterID2 : String) (Pre V : List Doc) (x : Doc) (first : LogEntry)
    (hu : uniqueIds coll) (hagree : idsAgree coll)
    (hS : listing coll game playerID eventType = Pre ++ V) (hx : Pre.getLast? = some x)
    (hfirst : (ListLogs coll game playerID eventType limit (Hex x.ID) "").1.head? =
      some first) :
    V ≠ [] ∧ (ListLogs coll game playerID eventType limit afterID2 (Hex first.ID)).1 =
      (((Pre.reverse).take limit).reverse).map toEntry := by
  have hp := listing_idDesc coll game playerID eventType hu hagree
  have hV : (listing coll game playerID eventType).filter (afterBound (Hex x.ID)) = V := by
    have hb : afterBound (Hex x.ID) = fun d => decide (d.ID < x.ID) := by
      funext d
      exact afterBound_Hex x.ID d
    rw [hb, hS]
    exact filter_lt_last Pre V x (hS ▸ hp) hx
  rw [ListLogs_forward coll game playerID eventType limit (Hex x.ID) hu, hV] at hfirst
  cases V with
  | nil => simp at hfirst
  | cons y V2 =>
    refine ⟨List.cons_ne_nil _ _, ?_⟩
    have hy : first.ID = y.ID := by
      cases limit with
      | zero => simp at hfirst
      | succ n =>
        simp only [List.take_succ_cons, List.map_cons, List.head?_cons, Option.some.injEq]
          at hfirst
        rw [← hfirst]
        rfl
    rw [hy, ListLogs_backward coll game playerID eventType limit afterID2 (Hex y.ID) y.ID hu
      (ObjectIDFromHex_Hex y.ID), hS, filter_gt_head Pre V2 y (hS ▸ hp)]

/-- Forward, then back, for the other requests. In a store with unique ids
whose id order agrees with the order of the server timestamps, let `P` be the
page of a request whose `beforeID` is empty or well-formed, `last` its last
entry, and `first` the first entry of the forward page from `last`. Then the
backward page from `first` is `P`. -/
theorem backward_undoes_forward (coll : List Doc) (game playerID eventType : String)
    (limit : Nat) (afterID beforeID afterID2 : String) (last first : LogEntry)
    (hu : uniqueIds coll) (hagree : idsAgree coll)
    (hwf : beforeID = "" ∨ ∃ b, ObjectIDFromHex beforeID = some b)
    (hlast : (ListLogs coll game playerID eventType limit afterID beforeID).1.getLast? =
      some last)
    (hfirst : (ListLogs coll game playerID eventType limit (Hex last.ID) "").1.head? =
      some first) :
    (ListLogs coll game playerID eventType limit afterID2 (Hex first.ID)).1 =
      (ListLogs coll game playerID eventType limit afterID beforeID).1 := by
  have hp := listing_idDesc coll game playerID eventType hu hagree
  rcases hwf with hwf | ⟨b, hb⟩
  · subst hwf
    rw [ListLogs_forward coll game playerID eventType limit afterID hu] at hlast ⊢
    simp only [List.getLast?_map, Option.map_eq_some'] at hlast
    obtain ⟨x, hx, hxl⟩ := hlast
    have hid : last.ID = x.ID := by
      rw [← hxl]
      rfl
    rw [hid] at hfirst
    obtain ⟨pre, hpre⟩ := afterBound_suffix afterID _ hp
    have hne : ((listing coll game playerID eventType).filter (afterBound afterID)).take
        limit ≠ [] := by
      intro h
      rw [h] at hx
      simp at hx
    have hS : listing coll game playerID eventType =
        (pre ++ ((listing coll game playerID eventType).filter (afterBound afterID)).take
          limit) ++
          ((listing coll game playerID eventType).filter (afterBound afterID)).drop limit := by
      rw [List.append_assoc, List.take_append_drop]
      exact hpre
    have hxl2 : (pre ++ ((listing coll game playerID eventType).filter
        (afterBound afterID)).take limit).getLast? = some x := by
      rw [List.getLast?_append_of_ne_nil _ hne]
      exact hx
    obtain ⟨hV, hR⟩ := symmetry_core coll game playerID eventType limit afterID2 _ _ x first
      hu hagree hS hxl2 hfirst
    rw [hR]
    have hlen : (((listing coll game playerID eventType).filter (afterBound afterID)).take
        limit).length = limit := by
      rw [List.length_take]
      apply Nat.min_eq_left
      by_contra hc
      apply hV
      exact List.drop_eq_nil_of_le (by omega)
    have hrl : (((listing coll game playerID eventType).filter (afterBound afterID)).take
        limit).reverse.length = limit := by
      rw [List.length_reverse]
      exact hlen
    rw [List.reverse_append, List.take_left' hrl, List.reverse_reverse]
  · rw [ListLogs_backward coll game playerID eventType limit afterID beforeID b hu hb]
      at hlast ⊢
    simp only [List.getLast?_map, Option.map_eq_some'] at hlast
    obtain ⟨x, hx, hxl⟩ := hlast
    have hid : last.ID = x.ID := by
      rw [← hxl]
      rfl
    rw [hid] at hfirst
    obtain ⟨post, hpost⟩ := filter_gt_prefix b _ hp
    have hxU : ((listing coll game playerID eventType).filter
        (fun d => decide (b < d.ID))).getLast? = some x := by
      rw [List.getLast?_reverse] at hx
      cases limit with
      | zero => simp at hx
      | succ n =>
        rw [← List.head?_reverse]
        cases hr : ((listing coll game playerID eventType).filter
            (fun d => decide (b < d.ID))).reverse with
        | nil =>
          rw [hr] at hx
          simp at hx
        | cons z zs =>
          rw [hr] at hx
          simpa using hx
    obtain ⟨_, hR⟩ := symmetry_core coll game playerID eventType limit afterID2 _ _ x first
      hu hagree hpost hxU hfirst
    rw [hR]

theorem afterBound_empty (d : Doc) : afterBound "" d = true := by
  simp [afterBound, ObjectIDFromHex_empty]

theorem listing_length (coll : List Doc) (game playerID eventType : String) :
    (listing coll game playerID eventType).length =
      (coll.filter (matchesFilter game playerID eventType)).length := by
  simp [listing, sortedDesc, List.length_insertionSort]

theorem followedPage_rows (coll : List Doc) (game playerID eventType : String) (limit : Nat)
    (hu : uniqueIds coll) (hagree : idsAgree coll) (hlimit : 1 ≤ limit) (n : Nat)
    (hn : n * limit ≤ (listing coll game playerID eventType).length) :
    followedPage coll game playerID eventType limit n =
      ((((listing coll game playerID eventType).drop (n * limit)).take limit).map toEntry,
        decide (n ≠ 0),
        decide (limit < ((listing coll game playerID eventType).drop (n * limit)).length)) := by
  induction n with
  | zero =>
    have hall : (listing coll game playerID eventType).filter (afterBound "") =
        listing coll game playerID eventType :=
      List.filter_eq_self.2 (fun d _ => afterBound_empty d)
    simp only [followedPage]
    rw [ListLogs_forward coll game playerID eventType limit "" hu, hall]
    simp
  | succ n ih =>
    have hlt : n * limit < (listing coll game playerID eventType).length := by
      rw [Nat.succ_mul] at hn
      omega
    have ihn := ih (le_of_lt hlt)
    have hS := listing_idDesc coll game playerID eventType hu hagree
    have hne : ((listing coll game playerID eventType).drop (n * limit)).take limit ≠ [] := by
      intro hnil
      have hl := congrArg List.length hnil
      simp only [List.length_take, List.length_drop, List.length_nil] at hl
      omega
    obtain ⟨x, hx⟩ : ∃ x, (((listing coll game playerID eventType).drop (n * limit)).take
        limit).getLast? = some x := by
      cases hg : (((listing coll game playerID eventType).drop (n * limit)).take
        limit).getLast? with
      | none => exact absurd (List.getLast?_eq_none_iff.1 hg) hne
      | some x => exact ⟨x, rfl⟩
    have hcur : nextCursor (followedPage coll game playerID eventType limit n).1 = Hex x.ID := by
      rw [ihn]
      simp only [nextCursor, List.getLast?_map, hx]
      rfl
    have hsplit : listing coll game playerID eventType =
        ((listing coll game playerID eventType).take (n * limit) ++
          ((listing coll game playerID eventType).drop (n * limit)).take limit) ++
        (listing coll game playerID eventType).drop ((n + 1) * limit) := by
      rw [List.append_assoc, Nat.succ_mul, ← List.drop_drop,
        List.take_append_drop, List.take_append_drop]
    have hlastP : ((listing coll game playerID eventType).take (n * limit) ++
        ((listing coll game playerID eventType).drop (n * limit)).take limit).getLast? =
        some x := by
      rw [List.getLast?_append, hx]
      rfl
    have hrows : (listing coll game playerID eventType).filter (afterBound (Hex x.ID)) =
        (listing coll game playerID eventType).drop ((n + 1) * limit) := by
      have hf := filter_lt_last _ _ x (hsplit ▸ hS) hlastP
      rw [← hsplit] at hf
      rw [← hf]
      apply filter_congr_all
      intro d
      exact afterBound_Hex x.ID d
    simp only [followedPage]
    rw [hcur, ListLogs_forward coll game playerID eventType limit (Hex x.ID) hu, hrows]
    simp [Hex_ne_empty]

/-! ## The sample stores -/

theorem sampleColl_unique : uniqueIds sampleColl := by
  unfold uniqueIds
  decide

theorem sampleColl_agree : idsAgree sampleColl := by
  unfold idsAgree
  decide

set_option maxRecDepth 100000 in
theorem scenarioColl_unique : uniqueIds scenarioColl := by
  unfold uniqueIds
  decide

set_option maxRecDepth 100000 in
theorem scenarioColl_count : (scenarioColl.filter (matchesFilter "x" "" "")).length = 150 := by
  decide

set_option maxRecDepth 1000000 in
theorem scenarioColl_agree : idsAgree scenarioColl := by
  unfold idsAgree
  decide

/-! ## Forward paging -/

/-- C14. Forward paging. With a well-formed `afterID` that decodes to `a`, and
no `beforeID`, `ListLogs` returns the first `limit` rows (all of them when there
are fewer) of the filter-matching documents whose id is below `a`, put in the
order `serverTimestamp` descending, then id descending; the page has
`min limit m` entries, `m` the number of those documents. -/
theorem forward_page (coll : List Doc) (game playerID eventType : String) (limit : Nat)
    (afterID : String) (a : ObjectID) (ha : ObjectIDFromHex afterID = some a) :
    ∃ rows : List Doc,
      rows.Perm (coll.filter (fun d =>
        matchesFilter game playerID eventType d && decide (d.ID < a))) ∧
      rows.Sorted (fun x y => leDesc x y = true) ∧
      (ListLogs coll game playerID eventType limit afterID "").1 =
        (rows.take limit).map toEntry ∧
      (ListLogs coll game playerID eventType limit afterID "").1.length =
        min limit (coll.filter (fun d =>
          matchesFilter game playerID eventType d && decide (d.ID < a))).length := by
  refine ⟨sortedDesc (coll.filter (fun d =>
    matchesFilter game playerID eventType d && decide (d.ID < a))),
    List.perm_insertionSort _ _, sortedDesc_sorted _, ?_, ?_⟩
  · rw [ListLogs_after coll game playerID eventType limit afterID a ha]
  · rw [ListLogs_after coll game playerID eventType limit afterID a ha]
    simp [sortedDesc, List.length_insertionSort]

/-- C14 on the sample store: after the cursor 3, with limit 1, the page is the
entry with id 2. -/
theorem forward_page_witness :
    ObjectIDFromHex "000000000000000000000003" = some 3 ∧
    (∃ rows : List Doc,
      rows.Perm (sampleColl.filter (fun d =>
        matchesFilter "mhs" "" "" d && decide (d.ID < 3))) ∧
      rows.Sorted (fun x y => leDesc x y = true) ∧
      (ListLogs sampleColl "mhs" "" "" 1 "000000000000000000000003" "").1 =
        (rows.take 1).map toEntry ∧
      (ListLogs sampleColl "mhs" "" "" 1 "000000000000000000000003" "").1.length =
        min 1 (sampleColl.filter (fun d =>
          matchesFilter "mhs" "" "" d && decide (d.ID < 3))).length) ∧
    (ListLogs sampleColl "mhs" "" "" 1 "000000000000000000000003" "").1.map LogEntry.ID =
      [2] :=
  ⟨by decide,
    forward_page sampleColl "mhs" "" "" 1 "000000000000000000000003" 3 (by decide),
    by decide⟩

/-! ## Backward paging -/

/-- C15. Backward paging. With a well-formed `beforeID` that decodes to `b`,
`ListLogs` takes the first `limit` rows (all of them when there are fewer) of
the filter-matching documents whose id is above `b`, put in the order
`serverTimestamp` ascending, then id ascending, and returns them reversed: the
returned list is in the order `serverTimestamp` descending, then id
descending, and has `min limit m` entries. -/
theorem backward_page (coll : List Doc) (game playerID eventType : String) (limit : Nat)
    (afterID beforeID : String) (b : ObjectID) (hb : ObjectIDFromHex beforeID = some b) :
    ∃ rows : List Doc,
      rows.Perm (coll.filter (fun d =>
        matchesFilter game playerID eventType d && decide (b < d.ID))) ∧
      rows.Sorted (fun x y => leAsc x y = true) ∧
      (ListLogs coll game playerID eventType limit afterID beforeID).1 =
        ((rows.take limit).reverse).map toEntry ∧
      ((rows.take limit).reverse).Sorted (fun x y => leDesc x y = true) ∧
      (ListLogs coll game playerID eventType limit afterID beforeID).1.length =
        min limit (coll.filter (fun d =>
          matchesFilter game playerID eventType d && decide (b < d.ID))).length := by
  refine ⟨sortedAsc (coll.filter (fun d =>
    matchesFilter game playerID eventType d && decide (b < d.ID))),
    List.perm_insertionSort _ _, sortedAsc_sorted _, ?_, ?_, ?_⟩
  · rw [ListLogs_before coll game playerID eventType limit afterID beforeID b hb]
  · have hs := (sortedAsc_sorted (coll.filter (fun d =>
      matchesFilter game playerID eventType d && decide (b < d.ID)))).sublist
      (List.take_sublist limit _)
    unfold List.Sorted
    rw [List.pairwise_reverse]
    exact hs.imp (fun {x y} hxy => by rw [← leAsc_eq]; exact hxy)
  · rw [ListLogs_before coll game playerID eventType limit afterID beforeID b hb]
    simp [sortedAsc, List.length_insertionSort]

/-- C15 on the sample store: before the cursor 1, with limit 1, the page is the
entry with id 2, the nearest one above the cursor. -/
theorem backward_page_witness :
    ObjectIDFromHex "000000000000000000000001" = some 1 ∧
    (∃ rows : List Doc,
      rows.Perm (sampleColl.filter (fun d =>
        matchesFilter "mhs" "" "" d && decide (1 < d.ID))) ∧
      rows.Sorted (fun x y => leAsc x y = true) ∧
      (ListLogs sampleColl "mhs" "" "" 1 "" "000000000000000000000001").1 =
        ((rows.take 1).reverse).map toEntry ∧
      ((rows.take 1).reverse).Sorted (fun x y => leDesc x y = true) ∧
      (ListLogs sampleColl "mhs" "" "" 1 "" "000000000000000000000001").1.length =
        min 1 (sampleColl.filter (fun d =>
          matchesFilter "mhs" "" "" d && decide (1 < d.ID))).length) ∧
    (ListLogs sampleColl "mhs" "" "" 1 "" "000000000000000000000001").1.map LogEntry.ID =
      [2] ∧
    (ListLogs sampleColl "mhs" "" "" 2 "" "000000000000000000000001").1.map LogEntry.ID =
      [3, 2] :=
  ⟨by decide,
    backward_page sampleColl "mhs" "" "" 1 "" "000000000000000000000001" 1 (by decide),
    by decide, by decide⟩

/-! ## The cursor round trip -/

/-! ## Stores with ObjectIDs and stores with string ids -/

theorem toEntryRaw_raw (d : Doc) : toEntryRaw d.raw = toEntry d := rfl

theorem decodeRaw_raw (d : Doc) : logapi.decodeRaw d.raw = logapi.decode d := rfl

theorem sortOrderRaw_raw (sortDir : Int) (a b : Doc) :
    sortOrderRaw sortDir a.raw b.raw = sortOrder sortDir a b := by
  simp [sortOrderRaw, sortOrder, leAscRaw, leAsc, leDescRaw, leDesc, idLe, Doc.raw]

theorem FindRaw_raw (coll : List Doc) (rf : List (RawDoc → Bool)) (f : List (Doc → Bool))
    (sortDir : Int) (limit : Nat)
    (hf : ∀ d : Doc, rf.all (fun c => c d.raw) = f.all (fun c => c d)) :
    FindRaw (coll.map Doc.raw) rf sortDir limit = (Find coll f sortDir limit).map Doc.raw := by
  have hfilter : (coll.map Doc.raw).filter (fun d => rf.all (fun c => c d)) =
      (coll.filter (fun d => f.all (fun c => c d))).map Doc.raw := by
    rw [List.filter_map]
    congr 1
    apply filter_congr_all
    intro d
    exact hf d
  have hsort : ((coll.filter (fun d => f.all (fun c => c d))).map Doc.raw).insertionSort
      (fun a b => sortOrderRaw sortDir a b = true) =
      ((coll.filter (fun d => f.all (fun c => c d))).insertionSort
        (fun a b => sortOrder sortDir a b = true)).map Doc.raw := by
    symm
    apply List.map_insertionSort
    intro a _ b _
    rw [sortOrderRaw_raw]
  unfold FindRaw Find
  simp only [hfilter, hsort]
  by_cases h0 : limit = 0
  · simp [h0]
  · simp [h0, List.map_take]

theorem condEqRaw_raw (k s : String) (d : Doc) : condEqRaw k s d.raw = condEq k s d := by
  simp only [condEqRaw, condEq, Doc.raw]

theorem condNoPlayerRaw_raw (d : Doc) : condNoPlayerRaw d.raw = condNoPlayer d := by
  simp only [condNoPlayerRaw, condNoPlayer, Doc.raw]

theorem logFilterRaw_raw (game playerID eventType : String) (d : Doc) :
    (logFilterRaw game playerID eventType).all (fun c => c d.raw) =
      (logFilter game playerID eventType).all (fun c => c d) := by
  unfold logFilterRaw logFilter
  by_cases h1 : playerID = "__empty__" <;> by_cases h2 : playerID = "" <;>
    by_cases h3 : eventType = "" <;>
    simp [h1, h2, h3, condEqRaw_raw, condNoPlayerRaw_raw]

theorem condIdLtRaw_raw (oid : ObjectID) (d : Doc) : condIdLtRaw oid d.raw = condIdLt oid d :=
  rfl

theorem condIdGtRaw_raw (oid : ObjectID) (d : Doc) : condIdGtRaw oid d.raw = condIdGt oid d :=
  rfl

theorem cursorOfRaw_raw (rf : List (RawDoc → Bool)) (f : List (Doc → Bool))
    (afterID beforeID : String)
    (hf : ∀ d : Doc, rf.all (fun c => c d.raw) = f.all (fun c => c d)) :
    (cursorOfRaw rf afterID beforeID).2 = (cursorOf f afterID beforeID).2 ∧
    ∀ d : Doc, (cursorOfRaw rf afterID beforeID).1.all (fun c => c d.raw) =
      (cursorOf f afterID beforeID).1.all (fun c => c d) := by
  unfold cursorOfRaw cursorOf
  by_cases hb : beforeID = ""
  · by_cases ha : afterID = ""
    · simp [hb, ha, hf]
    · cases ho : ObjectIDFromHex afterID with
      | none => simp [hb, ha, ho, hf]
      | some oid => simp [hb, ha, ho, hf, List.all_append, condIdLtRaw_raw]
  · cases ho : ObjectIDFromHex beforeID with
    | none => simp [hb, ho, hf]
    | some oid => simp [hb, ho, hf, List.all_append, condIdGtRaw_raw]

theorem ListLogsRaw_eq (coll : List RawDoc) (game playerID eventType : String) (limit : Nat)
    (afterID beforeID : String) :
    ListLogsRaw coll game playerID eventType limit afterID beforeID =
      pageOfRaw limit afterID beforeID
        (FindRaw coll (cursorOfRaw (logFilterRaw game playerID eventType) afterID beforeID).1
          (cursorOfRaw (logFilterRaw game playerID eventType) afterID beforeID).2 (limit + 1)) :=
  rfl

theorem pageOfRaw_raw (limit : Nat) (afterID beforeID : String) (rows : List Doc) :
    pageOfRaw limit afterID beforeID (rows.map Doc.raw) = pageOf limit afterID beforeID rows := by
  have hmap : (rows.map Doc.raw).map toEntryRaw = rows.map toEntry := by
    rw [List.map_map]
    rfl
  unfold pageOfRaw pageOf
  simp only [hmap]

theorem ListLogsRaw_raw (coll : List Doc) (game playerID eventType : String) (limit : Nat)
    (afterID beforeID : String) :
    ListLogsRaw (coll.map Doc.raw) game playerID eventType limit afterID beforeID =
      ListLogs coll game playerID eventType limit afterID beforeID := by
  obtain ⟨hdir, hall⟩ := cursorOfRaw_raw (logFilterRaw game playerID eventType)
    (logFilter game playerID eventType) afterID beforeID (logFilterRaw_raw game playerID eventType)
  rw [ListLogsRaw_eq, ListLogs_eq, hdir, FindRaw_raw coll _ _ _ _ hall, pageOfRaw_raw]

theorem followedPageRaw_raw (coll : List Doc) (game playerID eventType : String) (limit : Nat)
    (n : Nat) :
    followedPageRaw (coll.map Doc.raw) game playerID eventType limit n =
      followedPage coll game playerID eventType limit n := by
  induction n with
  | zero => exact ListLogsRaw_raw coll game playerID eventType limit "" ""
  | succ n ih =>
    simp only [followedPageRaw, followedPage]
    rw [ih, ListLogsRaw_raw]

theorem storedRaw_storedDoc (id : ObjectID) (m : Obj) (hm : m.get "_id" = none) :
    storedRaw id m = some (storedDoc id m).raw := by
  simp only [storedRaw, hm]
  rfl

theorem rawStoreFrom_enumFrom (ids : Nat → ObjectID) (logdata : List Obj) (i : Nat)
    (hm : ∀ m ∈ logdata, m.get "_id" = none) :
    rawStoreFrom ids i logdata =
      some (((logdata.enumFrom i).map (fun im => storedDoc (ids im.1) im.2)).map Doc.raw) := by
  induction logdata generalizing i with
  | nil => rfl
  | cons m rest ih =>
    have hrest : ∀ m ∈ rest, m.get "_id" = none := fun x hx => hm x (List.mem_cons_of_mem _ hx)
    simp only [rawStoreFrom, storedRaw_storedDoc (ids i) m (hm m (List.mem_cons_self _ _)),
      ih (i + 1) hrest]
    rfl

theorem rawStoreOf_storeOf (ids : Nat → ObjectID) (logdata : List Obj)
    (hm : ∀ m ∈ logdata, m.get "_id" = none) :
    rawStoreOf ids logdata = some ((storeOf ids logdata).map Doc.raw) :=
  rawStoreFrom_enumFrom ids logdata 0 hm

theorem stringIdColl_stored :
    rawStoreOf countingIds
      ((NewHandler 0).SubmitHandler ⟨30, false, 0⟩
        ((NewHandler 0).SubmitHandler ⟨20, false, 0⟩
          ((NewHandler 0).SubmitHandler ⟨10, false, 0⟩ ⟨[], []⟩
            (Body.parsed (idPayload "a"))).2
          (Body.parsed (idPayload "b"))).2
        (Body.parsed (idPayload "c"))).2.logdata = some stringIdColl := by
  rfl

/-- C16, as stated, fails, in two kinds of store. In a store whose ids do not
follow the server timestamps (ids 1, 5, 3 from newest to oldest) the first page
of two entries is 1, 5, its `nextCursor` is the id 5, and the page requested
with that cursor is 1, 3: the entry 1 of the first page comes back. In a store
whose entries were submitted with string `_id` values of their own (`a`, `b`,
`c`, in the order of their times) every entry is listed with the zero ObjectID
as its id: the first page of two entries is the entries of the times 30 and 20,
the cursor taken from its last entry is the zero id, and the page requested
with it is empty, so the entry of the time 10 is skipped. -/
theorem cursor_round_trip_counterexample :
    uniqueIds disorderedColl ∧
    (listing disorderedColl "mhs" "" "").map Doc.ID = [1, 5, 3] ∧
    (ListLogs disorderedColl "mhs" "" "" 2 "" "").1.map LogEntry.ID = [1, 5] ∧
    nextCursor (ListLogs disorderedColl "mhs" "" "" 2 "" "").1 = "000000000000000000000005" ∧
    (ListLogs disorderedColl "mhs" "" "" 2 "000000000000000000000005" "").1.map LogEntry.ID =
      [1, 3] ∧
    (ListLogsRaw stringIdColl "mhs" "" "" 3 "" "").1.map LogEntry.ServerTimestamp =
      [30, 20, 10] ∧
    (ListLogsRaw stringIdColl "mhs" "" "" 2 "" "").1.map LogEntry.ServerTimestamp = [30, 20] ∧
    (ListLogsRaw stringIdColl "mhs" "" "" 2 "" "").1.map LogEntry.ID = [0, 0] ∧
    nextCursor (ListLogsRaw stringIdColl "mhs" "" "" 2 "" "").1 = "000000000000000000000000" ∧
    (ListLogsRaw stringIdColl "mhs" "" "" 2 "000000000000000000000000" "").1.length = 0 := by
  refine ⟨?_, ?_, ?_, ?_, ?_, ?_, ?_, ?_, ?_, ?_⟩
  · unfold uniqueIds
    decide
  all_goals decide

/-- C16, amended. In a store in which every `_id` is an ObjectID (the store
`coll.map Doc.raw` for a `coll` of such documents), with unique ids whose order
agrees with the order of the server timestamps, let `last` be the last entry of a page that
`ListLogs` returned for no cursor or an `afterID` cursor. Then the listing
splits as `A ++ x :: B` with `x` the document of `last`, every entry of the
page lies in `A ++ [x]`, and the page requested with `afterID` the id of `last`
is the first `limit` rows of `B`: it starts right after `x` (no gap) and shares
no id with the page before (no overlap). -/
theorem cursor_round_trip (coll : List Doc) (game playerID eventType : String) (limit : Nat)
    (afterID : String) (last : LogEntry) (hu : uniqueIds coll) (hagree : idsAgree coll)
    (hlast : (ListLogsRaw (coll.map Doc.raw) game playerID eventType limit afterID "").1.getLast? = some last) :
    ∃ A x B,
      listing coll game playerID eventType = A ++ x :: B ∧ x.ID = last.ID ∧
      (∀ en ∈ (ListLogsRaw (coll.map Doc.raw) game playerID eventType limit afterID "").1,
        en.ID ∈ (A ++ [x]).map Doc.ID) ∧
      (ListLogsRaw (coll.map Doc.raw) game playerID eventType limit (Hex last.ID) "").1 =
        (B.take limit).map toEntry ∧
      (∀ en ∈ (ListLogsRaw (coll.map Doc.raw) game playerID eventType limit afterID "").1,
        ∀ f ∈ (ListLogsRaw (coll.map Doc.raw) game playerID eventType limit (Hex last.ID) "").1,
          en.ID ≠ f.ID) := by
  simp only [ListLogsRaw_raw] at hlast ⊢
  obtain ⟨x, hx, hxid⟩ := page_last coll game playerID eventType limit afterID last hu hlast
  have hS := listing_idDesc coll game playerID eventType hu hagree
  have hPsub : (((listing coll game playerID eventType).filter (afterBound afterID)).take
      limit).Sublist (listing coll game playerID eventType) :=
    (List.take_sublist _ _).trans (List.filter_sublist _)
  have hxS : x ∈ listing coll game playerID eventType :=
    hPsub.subset (List.mem_of_mem_getLast? hx)
  obtain ⟨A, B, hAB⟩ := List.append_of_mem hxS
  have hpw : ((A ++ [x]) ++ B).Pairwise (fun a b => b.ID < a.ID) := by
    rw [List.append_assoc, List.singleton_append, ← hAB]
    exact hS
  have hB : (listing coll game playerID eventType).filter (afterBound (Hex last.ID)) = B := by
    have hf := filter_lt_last (A ++ [x]) B x hpw (by simp)
    rw [List.append_assoc, List.singleton_append, ← hAB] at hf
    rw [← hxid, ← hf]
    apply filter_congr_all
    intro d
    exact afterBound_Hex x.ID d
  have hBlt : ∀ b ∈ B, b.ID < x.ID := fun b hb =>
    (List.pairwise_append.1 hpw).2.2 x (by simp) b hb
  have hQ : (ListLogs coll game playerID eventType limit (Hex last.ID) "").1 =
      (B.take limit).map toEntry := by
    rw [ListLogs_forward coll game playerID eventType limit (Hex last.ID) hu, hB]
  have hPge : ∀ en ∈ (ListLogs coll game playerID eventType limit afterID "").1,
      ∃ d, d ∈ listing coll game playerID eventType ∧ x.ID ≤ d.ID ∧ en.ID = d.ID := by
    intro en hen
    rw [ListLogs_forward coll game playerID eventType limit afterID hu] at hen
    obtain ⟨d, hd, rfl⟩ := List.mem_map.1 hen
    exact ⟨d, hPsub.subset hd, last_le_of_idDesc _ x (hS.sublist hPsub) hx d hd, rfl⟩
  refine ⟨A, x, B, hAB, hxid, ?_, hQ, ?_⟩
  · intro en hen
    obtain ⟨d, hdS, hge, hid⟩ := hPge en hen
    rw [hid]
    apply List.mem_map_of_mem
    rw [hAB] at hdS
    rcases List.mem_append.1 hdS with hdA | hdB
    · exact List.mem_append_left _ hdA
    · rcases List.mem_cons.1 hdB with hdx | hdB
      · rw [hdx]
        simp
      · exact absurd (hBlt d hdB) (not_lt_of_ge hge)
  · intro en hen f hf
    obtain ⟨d, -, hge, hid⟩ := hPge en hen
    rw [hQ] at hf
    obtain ⟨b, hb, rfl⟩ := List.mem_map.1 hf
    have hblt := hBlt b ((List.take_sublist _ _).subset hb)
    rw [hid]
    intro he
    have he' : d.ID = b.ID := he
    rw [he'] at hge
    exact absurd hge (not_le_of_gt hblt)

/-- C16 amended, on the sample store: the first page of two entries ends with
the entry 2, and the page after it is the entry 1. -/
theorem cursor_round_trip_witness :
    uniqueIds sampleColl ∧ idsAgree sampleColl ∧
    (ListLogsRaw (sampleColl.map Doc.raw) "mhs" "" "" 2 "" "").1.getLast? =
      some (toEntry ⟨2, 20, [("game", Value.str "mhs")]⟩) ∧
    (∃ A x B,
      listing sampleColl "mhs" "" "" = A ++ x :: B ∧
      x.ID = (toEntry ⟨2, 20, [("game", Value.str "mhs")]⟩).ID ∧
      (∀ en ∈ (ListLogsRaw (sampleColl.map Doc.raw) "mhs" "" "" 2 "" "").1,
        en.ID ∈ (A ++ [x]).map Doc.ID) ∧
      (ListLogsRaw (sampleColl.map Doc.raw) "mhs" "" "" 2
          (Hex (toEntry ⟨2, 20, [("game", Value.str "mhs")]⟩).ID) "").1 =
        (B.take 2).map toEntry ∧
      (∀ en ∈ (ListLogsRaw (sampleColl.map Doc.raw) "mhs" "" "" 2 "" "").1,
        ∀ f ∈ (ListLogsRaw (sampleColl.map Doc.raw) "mhs" "" "" 2
            (Hex (toEntry ⟨2, 20, [("game", Value.str "mhs")]⟩).ID) "").1,
          en.ID ≠ f.ID)) ∧
    (ListLogsRaw (sampleColl.map Doc.raw) "mhs" "" "" 2 "000000000000000000000002" "").1.map LogEntry.ID =
      [1] :=
  ⟨sampleColl_unique, sampleColl_agree, by rfl,
    cursor_round_trip sampleColl "mhs" "" "" 2 "" _ sampleColl_unique sampleColl_agree
      (by rfl),
    by decide⟩

/-! ## Forward, then back -/

/-- C17, a request on which it fails. The store has unique ids in the order of
the server timestamps. The page `P` returned for the malformed `beforeID`
`zzz` is 2, 3 (the first page, reversed); the forward page from its last entry
3 is 2, 1; and the backward page from the first entry 2 of that page is the
single entry 3, not `P`. -/
theorem symmetry_fails_malformed_before :
    uniqueIds sampleColl ∧ idsAgree sampleColl ∧
    (ListLogs sampleColl "mhs" "" "" 2 "" "zzz").1.map LogEntry.ID = [2, 3] ∧
    nextCursor (ListLogs sampleColl "mhs" "" "" 2 "" "zzz").1 = "000000000000000000000003" ∧
    (ListLogs sampleColl "mhs" "" "" 2 "000000000000000000000003" "").1.map LogEntry.ID =
      [2, 1] ∧
    prevCursor (ListLogs sampleColl "mhs" "" "" 2 "000000000000000000000003" "").1 =
      "000000000000000000000002" ∧
    (ListLogs sampleColl "mhs" "" "" 2 "" "000000000000000000000002").1.map LogEntry.ID =
      [3] := by
  refine ⟨?_, ?_, ?_, ?_, ?_, ?_, ?_⟩
  · unfold uniqueIds
    decide
  · unfold idsAgree
    decide
  all_goals decide

/-! ## The flags -/

/-- C18. Pagination flags, with `hasMore` the fact that more than `limit`
documents match the filter and the bound of the cursor. With no cursor,
`hasPrev = false` and `hasNext = hasMore`; with a well-formed `afterID` only,
`hasPrev = true` and `hasNext = hasMore`; with a well-formed `beforeID`,
`hasNext = true` and `hasPrev = hasMore`. -/
theorem pagination_flags (coll : List Doc) (game playerID eventType : String) (limit : Nat)
    (afterID beforeID : String) :
    (afterID = "" → beforeID = "" →
      (ListLogs coll game playerID eventType limit afterID beforeID).2.1 = false ∧
      (ListLogs coll game playerID eventType limit afterID beforeID).2.2 =
        decide (limit < (coll.filter (matchesFilter game playerID eventType)).length)) ∧
    (∀ a, ObjectIDFromHex afterID = some a → beforeID = "" →
      (ListLogs coll game playerID eventType limit afterID beforeID).2.1 = true ∧
      (ListLogs coll game playerID eventType limit afterID beforeID).2.2 =
        decide (limit < (coll.filter (fun d =>
          matchesFilter game playerID eventType d && decide (d.ID < a))).length)) ∧
    (∀ b, ObjectIDFromHex beforeID = some b →
      (ListLogs coll game playerID eventType limit afterID beforeID).2.2 = true ∧
      (ListLogs coll game playerID eventType limit afterID beforeID).2.1 =
        decide (limit < (coll.filter (fun d =>
          matchesFilter game playerID eventType d && decide (b < d.ID))).length)) := by
  refine ⟨?_, ?_, ?_⟩
  · intro ha hb
    subst ha hb
    rw [ListLogs_first coll game playerID eventType limit "" ObjectIDFromHex_empty]
    simp [listing, sortedDesc, List.length_insertionSort]
  · intro a ha hb
    subst hb
    rw [ListLogs_after coll game playerID eventType limit afterID a ha]
    simp [sortedDesc, List.length_insertionSort]
  · intro b hb
    rw [ListLogs_before coll game playerID eventType limit afterID beforeID b hb]
    simp [sortedAsc, List.length_insertionSort]

/-- C18 on the sample store with limit 2: the flags of the first page, of the
page after the cursor 2, and of the page before the cursor 1. -/
theorem pagination_flags_witness :
    ((ListLogs sampleColl "mhs" "" "" 2 "" "").2.1 = false ∧
      (ListLogs sampleColl "mhs" "" "" 2 "" "").2.2 =
        decide (2 < (sampleColl.filter (matchesFilter "mhs" "" "")).length)) ∧
    ((ListLogs sampleColl "mhs" "" "" 2 "000000000000000000000002" "").2.1 = true ∧
      (ListLogs sampleColl "mhs" "" "" 2 "000000000000000000000002" "").2.2 =
        decide (2 < (sampleColl.filter (fun d =>
          matchesFilter "mhs" "" "" d && decide (d.ID < 2))).length)) ∧
    ((ListLogs sampleColl "mhs" "" "" 2 "" "000000000000000000000001").2.2 = true ∧
      (ListLogs sampleColl "mhs" "" "" 2 "" "000000000000000000000001").2.1 =
        decide (2 < (sampleColl.filter (fun d =>
          matchesFilter "mhs" "" "" d && decide (1 < d.ID))).length)) ∧
    (ListLogs sampleColl "mhs" "" "" 2 "" "").2 = (false, true) ∧
    (ListLogs sampleColl "mhs" "" "" 2 "000000000000000000000002" "").2 = (true, false) ∧
    (ListLogs sampleColl "mhs" "" "" 2 "" "000000000000000000000001").2 = (false, true) :=
  ⟨(pagination_flags sampleColl "mhs" "" "" 2 "" "").1 rfl rfl,
    (pagination_flags sampleColl "mhs" "" "" 2 "000000000000000000000002" "").2.1 2
      (by decide) rfl,
    (pagination_flags sampleColl "mhs" "" "" 2 "" "000000000000000000000001").2.2 1
      (by decide),
    by decide, by decide, by decide⟩

/-! ## The probe of one more row -/

/-- C19, as stated, fails. Three entries of one game are submitted with the
string `_id` values `a`, `b`, `c` of their own, at the times 10, 20, 30, so the
order of the ids agrees with the order of the server timestamps. With limit 2
the first page has two entries and `hasNext` is true, the id of its last entry
is the zero ObjectID, and the request with that id as `afterID` returns an
empty page. -/
theorem limit_probe_string_id_counterexample :
    rawStoreOf countingIds
      ((NewHandler 0).SubmitHandler ⟨30, false, 0⟩
        ((NewHandler 0).SubmitHandler ⟨20, false, 0⟩
          ((NewHandler 0).SubmitHandler ⟨10, false, 0⟩ ⟨[], []⟩
            (Body.parsed (idPayload "a"))).2
          (Body.parsed (idPayload "b"))).2
        (Body.parsed (idPayload "c"))).2.logdata = some stringIdColl ∧
    stringIdColl.Pairwise (fun a b =>
      idLe b.ID a.ID = false ∧ a.ServerTimestamp ≤ b.ServerTimestamp) ∧
    (ListLogsRaw stringIdColl "mhs" "" "" 2 "" "").1.length = 2 ∧
    (ListLogsRaw stringIdColl "mhs" "" "" 2 "" "").2.2 = true ∧
    (ListLogsRaw stringIdColl "mhs" "" "" 2 "" "").1.getLast?.map LogEntry.ID = some 0 ∧
    Hex 0 = "000000000000000000000000" ∧
    (ListLogsRaw stringIdColl "mhs" "" "" 2 (Hex 0) "").1.length = 0 := by
  refine ⟨rfl, ?_, ?_, ?_, ?_, ?_, ?_⟩ <;> decide

/-- C19, amended. In a store in which every `_id` is an ObjectID (the store
`coll.map Doc.raw` for a `coll` of such documents), with unique ids whose order
agrees with the order of the server timestamps, for `limit ≥ 1`, `ListLogs` without `beforeID` returns
at most `limit` entries; for an empty page `hasNext` is false; and for a page
with last entry `last`, `hasNext` is true exactly when the request with
`afterID` the id of `last` returns a non-empty page. -/
theorem limit_probe_exact (coll : List Doc) (game playerID eventType : String) (limit : Nat)
    (afterID : String) (hu : uniqueIds coll) (hagree : idsAgree coll) (hlimit : 1 ≤ limit) :
    (ListLogsRaw (coll.map Doc.raw) game playerID eventType limit afterID "").1.length ≤ limit ∧
    ((ListLogsRaw (coll.map Doc.raw) game playerID eventType limit afterID "").1 = [] →
      (ListLogsRaw (coll.map Doc.raw) game playerID eventType limit afterID "").2.2 = false) ∧
    (∀ last, (ListLogsRaw (coll.map Doc.raw) game playerID eventType limit afterID "").1.getLast? = some last →
      ((ListLogsRaw (coll.map Doc.raw) game playerID eventType limit afterID "").2.2 = true ↔
        (ListLogsRaw (coll.map Doc.raw) game playerID eventType limit (Hex last.ID) "").1 ≠ [])) := by
  simp only [ListLogsRaw_raw]
  refine ⟨?_, ?_, ?_⟩
  · rw [ListLogs_forward coll game playerID eventType limit afterID hu]
    simp only [List.length_map, List.length_take]
    exact Nat.min_le_left _ _
  · rw [ListLogs_forward coll game playerID eventType limit afterID hu]
    intro hnil
    simp only [List.map_eq_nil_iff, List.take_eq_nil_iff] at hnil
    rcases hnil with h0 | hnil
    · omega
    · simp [hnil]
  · intro last hlast
    obtain ⟨x, hx, hxid⟩ := page_last coll game playerID eventType limit afterID last hu hlast
    have hrows := rows_after_page coll game playerID eventType limit afterID x hu hagree hx
    rw [← hxid, ListLogs_forward coll game playerID eventType limit (Hex x.ID) hu, hrows,
      ListLogs_forward coll game playerID eventType limit afterID hu]
    simp only [decide_eq_true_eq, ne_eq, List.map_eq_nil_iff, List.take_eq_nil_iff,
      List.drop_eq_nil_iff, not_or, not_le]
    constructor
    · intro h
      exact ⟨by omega, h⟩
    · intro h
      exact h.2

/-- C19 amended, on the sample store: with limit 2 the first page has two entries and
`hasNext`, and the page after its last entry is not empty; with limit 3
`hasNext` is false and the page after the last entry is empty. -/
theorem limit_probe_exact_witness :
    uniqueIds sampleColl ∧ idsAgree sampleColl ∧ 1 ≤ 2 ∧
    ((ListLogsRaw (sampleColl.map Doc.raw) "mhs" "" "" 2 "" "").1.length ≤ 2 ∧
      ((ListLogsRaw (sampleColl.map Doc.raw) "mhs" "" "" 2 "" "").1 = [] →
        (ListLogsRaw (sampleColl.map Doc.raw) "mhs" "" "" 2 "" "").2.2 = false) ∧
      (∀ last, (ListLogsRaw (sampleColl.map Doc.raw) "mhs" "" "" 2 "" "").1.getLast? = some last →
        ((ListLogsRaw (sampleColl.map Doc.raw) "mhs" "" "" 2 "" "").2.2 = true ↔
          (ListLogsRaw (sampleColl.map Doc.raw) "mhs" "" "" 2 (Hex last.ID) "").1 ≠ []))) ∧
    (ListLogsRaw (sampleColl.map Doc.raw) "mhs" "" "" 2 "" "").2.2 = true ∧
    (ListLogsRaw (sampleColl.map Doc.raw) "mhs" "" "" 2 "000000000000000000000002" "").1.map LogEntry.ID =
      [1] ∧
    (ListLogsRaw (sampleColl.map Doc.raw) "mhs" "" "" 3 "" "").2.2 = false ∧
    (ListLogsRaw (sampleColl.map Doc.raw) "mhs" "" "" 3 "000000000000000000000001" "").1.map LogEntry.ID =
      [] :=
  ⟨sampleColl_unique, sampleColl_agree, by decide,
    limit_probe_exact sampleColl "mhs" "" "" 2 "" sampleColl_unique sampleColl_agree
      (by decide),
    by decide, by decide, by decide, by decide⟩

/-! ## The scenario of 150 entries -/

set_option maxRecDepth 1000000 in
/-- C20, as stated, fails. The 150 entries of the game are submitted with
string `_id` values of their own, increasing with insertion, at increasing
times. With limit 50 the request without a cursor returns 50 entries with
`hasNext = true`; every entry is listed with the zero ObjectID as its id, so
`nextCursor` is the zero id, and the second request returns no entry where the
claim has 50. The third conjunct says that each entry has a larger id and a
later time than the entry inserted before it. -/
theorem scenario_string_id_counterexample :
    stringScenarioColl.length = 150 ∧
    (stringScenarioColl.filter (condEqRaw "game" "x")).length = 150 ∧
    (stringScenarioColl.zip stringScenarioColl.tail).all (fun ab =>
      !idLe ab.2.ID ab.1.ID && decide (ab.1.ServerTimestamp < ab.2.ServerTimestamp)) = true ∧
    (followedPageRaw stringScenarioColl "x" "" "" 50 0).1.length = 50 ∧
    (followedPageRaw stringScenarioColl "x" "" "" 50 0).2.2 = true ∧
    nextCursor (followedPageRaw stringScenarioColl "x" "" "" 50 0).1 =
      "000000000000000000000000" ∧
    (followedPageRaw stringScenarioColl "x" "" "" 50 1).1.length = 0 := by
  refine ⟨?_, ?_, ?_, ?_, ?_, ?_, ?_⟩ <;> decide

/-- C20, amended. In a store in which every `_id` is an ObjectID (the store
`coll.map Doc.raw` for a `coll` of such documents), with unique ids whose order
agrees with the order of the server timestamps, and which holds exactly 150 entries of a game, with
limit 50 and no other filter: the request without a cursor returns 50 entries
with `hasNext = true` and `hasPrev = false`; following `nextCursor`, the second
and the third request return 50 entries each; the three pages one after the
other are the whole listing of the game, a rearrangement of its 150 documents,
with no id twice; and the fourth request returns no entry and
`hasNext = false`. -/
theorem scenario_three_pages (coll : List Doc) (game : String)
    (hu : uniqueIds coll) (hagree : idsAgree coll)
    (h150 : (coll.filter (matchesFilter game "" "")).length = 150) :
    (followedPageRaw (coll.map Doc.raw) game "" "" 50 0).1.length = 50 ∧
    (followedPageRaw (coll.map Doc.raw) game "" "" 50 0).2.2 = true ∧
    (followedPageRaw (coll.map Doc.raw) game "" "" 50 0).2.1 = false ∧
    (followedPageRaw (coll.map Doc.raw) game "" "" 50 1).1.length = 50 ∧
    (followedPageRaw (coll.map Doc.raw) game "" "" 50 2).1.length = 50 ∧
    (followedPageRaw (coll.map Doc.raw) game "" "" 50 0).1 ++ (followedPageRaw (coll.map Doc.raw) game "" "" 50 1).1 ++
        (followedPageRaw (coll.map Doc.raw) game "" "" 50 2).1 = (listing coll game "" "").map toEntry ∧
    (listing coll game "" "").Perm (coll.filter (matchesFilter game "" "")) ∧
    (((followedPageRaw (coll.map Doc.raw) game "" "" 50 0).1 ++ (followedPageRaw (coll.map Doc.raw) game "" "" 50 1).1 ++
        (followedPageRaw (coll.map Doc.raw) game "" "" 50 2).1).map LogEntry.ID).Nodup ∧
    (followedPageRaw (coll.map Doc.raw) game "" "" 50 3).1 = [] ∧
    (followedPageRaw (coll.map Doc.raw) game "" "" 50 3).2.2 = false := by
  simp only [followedPageRaw_raw]
  have hlen : (listing coll game "" "").length = 150 := by
    rw [listing_length, h150]
  have h0 := followedPage_rows coll game "" "" 50 hu hagree (by decide) 0 (by omega)
  have h1 := followedPage_rows coll game "" "" 50 hu hagree (by decide) 1 (by omega)
  have h2 := followedPage_rows coll game "" "" 50 hu hagree (by decide) 2 (by omega)
  have h3 := followedPage_rows coll game "" "" 50 hu hagree (by decide) 3 (by omega)
  have hcover : (followedPage coll game "" "" 50 0).1 ++ (followedPage coll game "" "" 50 1).1 ++
      (followedPage coll game "" "" 50 2).1 = (listing coll game "" "").map toEntry := by
    rw [h0, h1, h2]
    simp only [Nat.zero_mul, List.drop_zero, Nat.one_mul]
    have hlast : ((listing coll game "" "").drop (2 * 50)).take 50 =
        (listing coll game "" "").drop (2 * 50) :=
      List.take_of_length_le (by simp only [List.length_drop]; omega)
    rw [hlast, ← List.map_append, ← List.map_append]
    congr 1
    have e1 : (listing coll game "" "").drop (2 * 50) =
        ((listing coll game "" "").drop 50).drop 50 := by
      rw [List.drop_drop]
    rw [e1, List.append_assoc, List.take_append_drop, List.take_append_drop]
  refine ⟨?_, ?_, ?_, ?_, ?_, hcover, sortedDesc_perm _, ?_, ?_, ?_⟩
  · rw [h0]
    simp only [List.length_map, List.length_take, List.length_drop]
    omega
  · rw [h0]
    simp only [List.length_drop, decide_eq_true_eq]
    omega
  · rw [h0]
    simp
  · rw [h1]
    simp only [List.length_map, List.length_take, List.length_drop]
    omega
  · rw [h2]
    simp only [List.length_map, List.length_take, List.length_drop]
    omega
  · rw [hcover, List.map_map]
    exact listing_ids_nodup coll game "" "" hu
  · rw [h3]
    have : (listing coll game "" "").drop (3 * 50) = [] :=
      List.drop_eq_nil_iff.2 (by omega)
    simp [this]
  · rw [h3]
    simp only [List.length_drop, decide_eq_false_iff_not, not_lt]
    omega

/-- C20 amended, on `scenarioColl`, whose 150 entries share their timestamps in pairs. -/
theorem scenario_three_pages_witness :
    uniqueIds scenarioColl ∧ idsAgree scenarioColl ∧
    (scenarioColl.filter (matchesFilter "x" "" "")).length = 150 ∧
    ((followedPageRaw (scenarioColl.map Doc.raw) "x" "" "" 50 0).1.length = 50 ∧
    (followedPageRaw (scenarioColl.map Doc.raw) "x" "" "" 50 0).2.2 = true ∧
    (followedPageRaw (scenarioColl.map Doc.raw) "x" "" "" 50 0).2.1 = false ∧
    (followedPageRaw (scenarioColl.map Doc.raw) "x" "" "" 50 1).1.length = 50 ∧
    (followedPageRaw (scenarioColl.map Doc.raw) "x" "" "" 50 2).1.length = 50 ∧
    (followedPageRaw (scenarioColl.map Doc.raw) "x" "" "" 50 0).1 ++ (followedPageRaw (scenarioColl.map Doc.raw) "x" "" "" 50 1).1 ++
        (followedPageRaw (scenarioColl.map Doc.raw) "x" "" "" 50 2).1 =
      (listing scenarioColl "x" "" "").map toEntry ∧
    (listing scenarioColl "x" "" "").Perm (scenarioColl.filter (matchesFilter "x" "" "")) ∧
    (((followedPageRaw (scenarioColl.map Doc.raw) "x" "" "" 50 0).1 ++
        (followedPageRaw (scenarioColl.map Doc.raw) "x" "" "" 50 1).1 ++
        (followedPageRaw (scenarioColl.map Doc.raw) "x" "" "" 50 2).1).map LogEntry.ID).Nodup ∧
    (followedPageRaw (scenarioColl.map Doc.raw) "x" "" "" 50 3).1 = [] ∧
    (followedPageRaw (scenarioColl.map Doc.raw) "x" "" "" 50 3).2.2 = false) :=
  ⟨scenarioColl_unique, scenarioColl_agree, scenarioColl_count,
    scenario_three_pages scenarioColl "x" scenarioColl_unique scenarioColl_agree
      scenarioColl_count⟩

/-! ## Malformed cursors -/

theorem ListLogs_malformed_after (coll : List Doc) (game playerID eventType : String)
    (limit : Nat) (afterID : String) (hne : afterID ≠ "")
    (ha : ObjectIDFromHex afterID = none) :
    ListLogs coll game playerID eventType limit afterID "" =
      ((ListLogs coll game playerID eventType limit "" "").1, true,
        (ListLogs coll game playerID eventType limit "" "").2.2) := by
  rw [ListLogs_first coll game playerID eventType limit afterID ha,
    ListLogs_first coll game playerID eventType limit "" ObjectIDFromHex_empty]
  simp [hne]

theorem ListLogs_malformed_before (coll : List Doc) (game playerID eventType : String)
    (limit : Nat) (afterID beforeID : String) (hne : beforeID ≠ "")
    (hb : ObjectIDFromHex beforeID = none) :
    ListLogs coll game playerID eventType limit afterID beforeID =
      ((ListLogs coll game playerID eventType limit "" "").1.reverse,
        (ListLogs coll game playerID eventType limit "" "").2.2, true) := by
  have hc : cursorOf (logFilter game playerID eventType) afterID beforeID =
      (logFilter game playerID eventType, -1) := by
    simp [cursorOf, hne, hb]
  rw [ListLogs_eq, hc, Find_logFilter, pageOf_backward limit afterID beforeID hne,
    ListLogs_first coll game playerID eventType limit "" ObjectIDFromHex_empty,
    List.map_reverse]
  rfl

/-- C21 fails on the code. On the sample store with limit 2 the request without
cursors returns the entries 3, 2 with `hasPrev = false` and `hasNext = true`.
With the malformed `afterID` `zzz` the entries are the same and `hasPrev` is
true; with the malformed `beforeID` `zzz` the entries come back in the
opposite order, 2, 3, and `hasPrev` is true. -/
theorem malformed_cursor_not_absent :
    ObjectIDFromHex "zzz" = none ∧
    (ListLogs sampleColl "mhs" "" "" 2 "" "").1.map LogEntry.ID = [3, 2] ∧
    (ListLogs sampleColl "mhs" "" "" 2 "" "").2 = (false, true) ∧
    (ListLogs sampleColl "mhs" "" "" 2 "zzz" "").1.map LogEntry.ID = [3, 2] ∧
    (ListLogs sampleColl "mhs" "" "" 2 "zzz" "").2 = (true, true) ∧
    (ListLogs sampleColl "mhs" "" "" 2 "" "zzz").1.map LogEntry.ID = [2, 3] ∧
    (ListLogs sampleColl "mhs" "" "" 2 "" "zzz").2 = (true, true) := by
  refine ⟨?_, ?_, ?_, ?_, ?_, ?_, ?_⟩ <;> decide

/-! ## Grouped counts -/

theorem groupCount_keys (key : Doc → GroupKey) (docs : List Doc) :
    (groupCount key docs).map Prod.fst = (docs.map key).dedup := by
  simp [groupCount, List.map_map, Function.comp_def]

theorem count_key_eq (key : Doc → GroupKey) (docs : List Doc) (k : GroupKey) :
    (docs.map key).count k = (docs.filter (fun d => decide (key d = k))).length := by
  induction docs with
  | nil => rfl
  | cons d ds ih =>
    by_cases h : key d = k
    · simp [List.count_cons, h, ih]
    · simp [List.count_cons, h, ih]

theorem mem_groupCount (key : Doc → GroupKey) (docs : List Doc) (k : GroupKey) (n : Nat) :
    (k, n) ∈ groupCount key docs ↔
      (∃ d ∈ docs, key d = k) ∧
        n = (docs.filter (fun d => decide (key d = k))).length := by
  unfold groupCount
  simp only [List.mem_map, List.mem_dedup, Prod.mk.injEq]
  constructor
  · rintro ⟨k', ⟨d, hd, hk⟩, rfl, rfl⟩
    exact ⟨⟨d, hd, hk⟩, count_key_eq key docs k'⟩
  · rintro ⟨⟨d, hd, hk⟩, hn⟩
    exact ⟨k, ⟨d, hd, hk⟩, rfl, by rw [hn, count_key_eq]⟩

theorem keyLe_iff (a b : GroupKey) :
    keyLe a b = true ↔
      keyOrder a < keyOrder b ∨ (keyOrder a = keyOrder b ∧ keyString a ≤ keyString b) := by
  simp [keyLe]

theorem keyLe_str (a b : String) : keyLe (GroupKey.str a) (GroupKey.str b) = true ↔ a ≤ b := by
  simp [keyLe_iff, keyOrder, keyString]

theorem keyLe_total (a b : GroupKey) : keyLe a b = true ∨ keyLe b a = true := by
  rw [keyLe_iff, keyLe_iff]
  rcases lt_trichotomy (keyOrder a) (keyOrder b) with h | h | h
  · exact Or.inl (Or.inl h)
  · rcases le_total (keyString a) (keyString b) with hs | hs
    · exact Or.inl (Or.inr ⟨h, hs⟩)
    · exact Or.inr (Or.inr ⟨h.symm, hs⟩)
  · exact Or.inr (Or.inl h)

theorem keyLe_trans (a b c : GroupKey) (hab : keyLe a b = true) (hbc : keyLe b c = true) :
    keyLe a c = true := by
  rw [keyLe_iff] at *
  rcases hab with h1 | ⟨h1, h1s⟩ <;> rcases hbc with h2 | ⟨h2, h2s⟩
  · exact Or.inl (lt_trans h1 h2)
  · exact Or.inl (h2 ▸ h1)
  · exact Or.inl (h1 ▸ h2)
  · exact Or.inr ⟨h1.trans h2, le_trans h1s h2s⟩

theorem leGroup_iff (a b : GroupKey × Nat) :
    leGroup a b = true ↔ b.2 < a.2 ∨ (a.2 = b.2 ∧ keyLe a.1 b.1 = true) := by
  simp [leGroup]

theorem leGroup_total (a b : GroupKey × Nat) : leGroup a b = true ∨ leGroup b a = true := by
  rw [leGroup_iff, leGroup_iff]
  rcases lt_trichotomy a.2 b.2 with h | h | h
  · exact Or.inr (Or.inl h)
  · rcases keyLe_total a.1 b.1 with hk | hk
    · exact Or.inl (Or.inr ⟨h, hk⟩)
    · exact Or.inr (Or.inr ⟨h.symm, hk⟩)
  · exact Or.inl (Or.inl h)

theorem leGroup_trans (a b c : GroupKey × Nat) (hab : leGroup a b = true)
    (hbc : leGroup b c = true) : leGroup a c = true := by
  rw [leGroup_iff] at *
  rcases hab with h1 | ⟨h1, h1'⟩ <;> rcases hbc with h2 | ⟨h2, h2'⟩
  · exact Or.inl (lt_trans h2 h1)
  · exact Or.inl (h2 ▸ h1)
  · exact Or.inl (h1 ▸ h2)
  · exact Or.inr ⟨h1.trans h2, keyLe_trans _ _ _ h1' h2'⟩

theorem sortGroups_sorted (l : List (GroupKey × Nat)) :
    (l.insertionSort (fun a b => leGroup a b = true)).Sorted (fun a b => leGroup a b = true) :=
  @List.sorted_insertionSort (GroupKey × Nat) (fun a b => leGroup a b = true) _
    ⟨leGroup_total⟩ ⟨leGroup_trans⟩ l

theorem sortGroups_perm (l : List (GroupKey × Nat)) :
    (l.insertionSort (fun a b => leGroup a b = true)).Perm l :=
  List.perm_insertionSort _ l

theorem sortGroups_keys_nodup (key : Doc → GroupKey) (docs : List Doc) :
    (((groupCount key docs).insertionSort (fun a b => leGroup a b = true)).map
      Prod.fst).Nodup := by
  have hp := (sortGroups_perm (groupCount key docs)).map Prod.fst
  rw [hp.nodup_iff, groupCount_keys]
  exact List.nodup_dedup _

theorem mem_sortGroups (key : Doc → GroupKey) (docs : List Doc) (k : GroupKey) (n : Nat) :
    (k, n) ∈ (groupCount key docs).insertionSort (fun a b => leGroup a b = true) ↔
      (∃ d ∈ docs, key d = k) ∧
        n = (docs.filter (fun d => decide (key d = k))).length := by
  rw [(sortGroups_perm (groupCount key docs)).mem_iff, mem_groupCount]

/-- Sorted groups with distinct keys are in strict order. -/
theorem sortGroups_strict (key : Doc → GroupKey) (docs : List Doc) :
    ((groupCount key docs).insertionSort (fun a b => leGroup a b = true)).Pairwise
      (fun a b => leGroup a b = true ∧ a.1 ≠ b.1) :=
  List.Pairwise.and (sortGroups_sorted _)
    (List.pairwise_map.1 (sortGroups_keys_nodup key docs))

theorem filterMap_eq_map_of_forall {α β : Type} (f : α → Option β) (g : α → β) (l : List α)
    (h : ∀ x ∈ l, f x = some (g x)) : l.filterMap f = l.map g := by
  induction l with
  | nil => rfl
  | cons a l ih =>
    rw [List.filterMap_cons, h a (List.mem_cons_self _ _), List.map_cons,
      ih (fun x hx => h x (List.mem_cons_of_mem _ hx))]

theorem playerPipeline_eq (regexMatch : String → String → Bool) (coll : List Doc)
    (game search : String) :
    playerPipeline regexMatch coll game search =
      (groupCount (fun d => ifNullEmpty (fieldKey "playerId" d))
        (coll.filter (playerMatch regexMatch game search))).insertionSort
          (fun a b => leGroup a b = true) := by
  unfold playerPipeline
  have hf : (coll.filter (fun d =>
      (if search ≠ "" then [condEq "game" game] ++ [condRegex "playerId" (regexMatch search)]
        else [condEq "game" game]).all (fun c => c d))) =
      coll.filter (playerMatch regexMatch game search) := by
    apply filter_congr_all
    intro d
    by_cases hs : search = "" <;> simp [playerMatch, hs]
  simp only [hf]

theorem ifNullEmpty_ne_null (k : GroupKey) : ifNullEmpty k ≠ GroupKey.null := by
  cases k <;> simp [ifNullEmpty]

theorem playerKey_empty_iff (d : Doc) :
    ifNullEmpty (fieldKey "playerId" d) = GroupKey.str "" ↔ condNoPlayer d = true := by
  unfold fieldKey condNoPlayer
  cases h : d.fields.get "playerId" with
  | none => simp [ifNullEmpty]
  | some v => cases v <;> simp [ifNullEmpty]

theorem playerKey_typed (d : Doc) (h : stringOrAbsent "playerId" d = true) :
    ifNullEmpty (fieldKey "playerId" d) = GroupKey.str (playerBucket d) := by
  unfold stringOrAbsent at h
  unfold fieldKey
  unfold playerBucket stringField
  cases hg : d.fields.get "playerId" with
  | none => simp [ifNullEmpty, asString]
  | some v =>
    rw [hg] at h
    cases v <;> simp_all [ifNullEmpty, asString]

theorem wrapInt_eq (n : Int) (h0 : 0 ≤ n) (h1 : n < 2 ^ 63) : wrapInt n = n := by
  unfold wrapInt
  rw [Int.emod_eq_of_lt (by omega) (by omega)]
  omega

theorem page_ok (page limit : Int) (hp : 1 ≤ page) (hl : 1 ≤ limit)
    (hov : (page - 1) * limit < 2 ^ 63) :
    ¬ (wrapInt ((page - 1) * limit) < 0 ∨ limit ≤ 0) := by
  have h1 : 0 ≤ (page - 1) * limit := Int.mul_nonneg (by omega) (by omega)
  rw [wrapInt_eq _ h1 hov]
  omega

theorem ListPlayersWithCounts_eq (regexMatch : String → String → Bool) (coll : List Doc)
    (game search : String) (page limit : Int) (hp : 1 ≤ page) (hl : 1 ≤ limit)
    (hov : (page - 1) * limit < 2 ^ 63) :
    ListPlayersWithCounts regexMatch coll game search page limit =
      some ((((playerPipeline regexMatch coll game search).drop
          ((page - 1) * limit).toNat).take limit.toNat).filterMap decodePlayerRow,
        (playerPipeline regexMatch coll game search).length) := by
  have h1 : 0 ≤ (page - 1) * limit := Int.mul_nonneg (by omega) (by omega)
  have h2 := page_ok page limit hp hl hov
  unfold ListPlayersWithCounts
  simp only [if_neg h2]
  rw [wrapInt_eq _ h1 hov]

theorem ListPlayersWithCounts_some (regexMatch : String → String → Bool) (coll : List Doc)
    (game search : String) (page limit : Int) (rows : List UserWithCount) (total : Nat)
    (h : ListPlayersWithCounts regexMatch coll game search page limit = some (rows, total)) :
    ∃ skip : Nat,
      rows = (((playerPipeline regexMatch coll game search).drop skip).take
        limit.toNat).filterMap decodePlayerRow ∧
      total = (playerPipeline regexMatch coll game search).length := by
  unfold ListPlayersWithCounts at h
  simp only at h
  split at h
  · exact absurd h (by simp)
  · simp only [Option.some.injEq, Prod.mk.injEq] at h
    exact ⟨_, h.1.symm, h.2.symm⟩

theorem fieldKey_str_iff (k s : String) (d : Doc) :
    fieldKey k d = GroupKey.str s ↔ condEq k s d = true := by
  unfold fieldKey condEq
  cases h : d.fields.get k with
  | none => simp
  | some v => cases v <;> simp

theorem noPlayer_count (regexMatch : String → String → Bool) (coll : List Doc)
    (game : String) :
    ((coll.filter (playerMatch regexMatch game "")).filter (fun d =>
      decide (ifNullEmpty (fieldKey "playerId" d) = GroupKey.str ""))).length =
    (coll.filter (fun d => condEq "game" game d && condNoPlayer d)).length := by
  rw [List.filter_filter]
  congr 1
  apply filter_congr_all
  intro d
  have h := playerKey_empty_iff d
  by_cases hc : condNoPlayer d = true
  · simp [playerMatch, hc, h.2 hc, Bool.and_comm]
  · have hk : ¬ ifNullEmpty (fieldKey "playerId" d) = GroupKey.str "" := fun hk => hc (h.1 hk)
    simp [playerMatch, hc, hk]

theorem decodePlayerRow_empty (k : GroupKey) (c : Nat) (r : UserWithCount)
    (h : decodePlayerRow (k, c) = some r) (he : r.PlayerID = "") (hn : k ≠ GroupKey.null) :
    k = GroupKey.str "" ∧ r.LogCount = c := by
  unfold decodePlayerRow at h
  cases k with
  | null => exact absurd rfl hn
  | other v => simp [decodeKey] at h
  | str s =>
    simp only [decodeKey, Option.some.injEq] at h
    subst h
    simp only at he
    exact ⟨by rw [he], rfl⟩

theorem ListEventTypes_eq (coll : List Doc) (game : String) :
    ListEventTypes coll game =
      ((groupCount (fieldKey "eventType") (coll.filter (condEq "game" game))).insertionSort
        (fun a b => leGroup a b = true)).filterMap decodeEventRow := by
  unfold ListEventTypes
  have hf : coll.filter (fun d => [condEq "game" game].all (fun c => c d)) =
      coll.filter (condEq "game" game) := by
    apply filter_congr_all
    intro d
    simp
  simp only [hf]

theorem decodeEventRow_some (k : GroupKey) (c : Nat) (it : EventTypeItem) :
    decodeEventRow (k, c) = some it ↔
      k = GroupKey.str it.Name ∧ it.Name ≠ "" ∧ it.Count = c := by
  unfold decodeEventRow
  cases k with
  | null => simp [decodeKey]
  | other v => simp [decodeKey]
  | str s =>
    simp only [decodeKey]
    by_cases hs : s = ""
    · subst hs
      simp only [ne_eq, not_true_eq_false, if_false, GroupKey.str.injEq]
      constructor
      · intro h
        simp at h
      · rintro ⟨h1, h2, -⟩
        exact absurd h1.symm h2
    · simp only [ne_eq, hs, not_false_eq_true, if_true, Option.some.injEq, GroupKey.str.injEq]
      constructor
      · rintro rfl
        exact ⟨rfl, hs, rfl⟩
      · rintro ⟨h1, -, h3⟩
        cases it
        simp only at h1 h3
        subst h1 h3
        rfl

theorem eventCount_eq (coll : List Doc) (game s : String) :
    ((coll.filter (condEq "game" game)).filter (fun d =>
      decide (fieldKey "eventType" d = GroupKey.str s))).length =
    (coll.filter (fun d => condEq "game" game d && condEq "eventType" s d)).length := by
  rw [List.filter_filter]
  congr 1
  apply filter_congr_all
  intro d
  have h := fieldKey_str_iff "eventType" s d
  by_cases hc : condEq "eventType" s d = true
  · simp [hc, h.2 hc, Bool.and_comm]
  · have hk : ¬ fieldKey "eventType" d = GroupKey.str s := fun hk => hc (h.1 hk)
    simp [hc, hk]

theorem facetColl_unique : uniqueIds facetColl := by
  unfold uniqueIds
  decide

/-! ## The bucket without a player -/

/-- C22. In `ListPlayersWithCounts` without a search, an entry of the game has
the group key `""` exactly when its `playerId` is missing, null or the empty
string. The groups have pairwise different keys, and when the game has entries
without a player, the group with the key `""` is among them with their number
as its count, and with no other count. Every call that returns, whatever the
page and the limit, returns rows with pairwise different `PlayerID`, and a row
with `PlayerID` `""` has as `LogCount` the number of the entries of the game
without a player, which is then positive. For every `limit ≥ 1` the call for
the first page returns, and when the limit covers all groups and there is an
entry without a player, the page has that row. -/
theorem players_no_player_bucket (regexMatch : String → String → Bool) (coll : List Doc)
    (game : String) :
    (∀ d ∈ coll, condEq "game" game d = true →
      (ifNullEmpty (fieldKey "playerId" d) = GroupKey.str "" ↔ condNoPlayer d = true)) ∧
    ((playerPipeline regexMatch coll game "").map Prod.fst).Nodup ∧
    (∀ n, (GroupKey.str "", n) ∈ playerPipeline regexMatch coll game "" ↔
      0 < n ∧ n = (coll.filter (fun d => condEq "game" game d && condNoPlayer d)).length) ∧
    (∀ (page limit : Int) (rows : List UserWithCount) (total : Nat),
      ListPlayersWithCounts regexMatch coll game "" page limit = some (rows, total) →
        (rows.map UserWithCount.PlayerID).Nodup ∧
        (∀ r ∈ rows, r.PlayerID = "" →
          r.LogCount = (coll.filter (fun d => condEq "game" game d && condNoPlayer d)).length ∧
          0 < r.LogCount)) ∧
    (∀ limit : Int, 1 ≤ limit →
      ∃ rows total,
        ListPlayersWithCounts regexMatch coll game "" 1 limit = some (rows, total) ∧
        ((total : Int) ≤ limit →
          0 < (coll.filter (fun d => condEq "game" game d && condNoPlayer d)).length →
          ∃ r ∈ rows, r.PlayerID = "" ∧
            r.LogCount =
              (coll.filter (fun d => condEq "game" game d && condNoPlayer d)).length)) := by
  have hP := playerPipeline_eq regexMatch coll game ""
  have hmem : ∀ k n, (k, n) ∈ playerPipeline regexMatch coll game "" ↔
      (∃ d ∈ coll.filter (playerMatch regexMatch game ""),
        ifNullEmpty (fieldKey "playerId" d) = k) ∧
      n = ((coll.filter (playerMatch regexMatch game "")).filter (fun d =>
        decide (ifNullEmpty (fieldKey "playerId" d) = k))).length := by
    intro k n
    rw [hP]
    exact mem_sortGroups _ _ k n
  have hnn : ∀ r ∈ playerPipeline regexMatch coll game "", r.1 ≠ GroupKey.null := by
    rintro ⟨k, n⟩ hr
    obtain ⟨⟨d, -, hk⟩, -⟩ := (hmem k n).1 hr
    rw [← hk]
    exact ifNullEmpty_ne_null _
  have hn : ((playerPipeline regexMatch coll game "").map Prod.fst).Nodup := by
    rw [hP]
    exact sortGroups_keys_nodup _ _
  have hgame : ∀ d, playerMatch regexMatch game "" d = condEq "game" game d := by
    intro d
    simp [playerMatch]
  have hin : 0 < (coll.filter (fun d => condEq "game" game d && condNoPlayer d)).length →
      (GroupKey.str "",
        (coll.filter (fun d => condEq "game" game d && condNoPlayer d)).length) ∈
        playerPipeline regexMatch coll game "" := by
    intro hpos
    obtain ⟨d, hd⟩ := List.exists_mem_of_length_pos hpos
    have hd' := List.mem_filter.1 hd
    simp only [Bool.and_eq_true] at hd'
    have hdm : d ∈ coll.filter (playerMatch regexMatch game "") :=
      List.mem_filter.2 ⟨hd'.1, by rw [hgame]; exact hd'.2.1⟩
    rw [hmem]
    exact ⟨⟨d, hdm, (playerKey_empty_iff d).2 hd'.2.2⟩, (noPlayer_count _ _ _).symm⟩
  refine ⟨fun d _ _ => playerKey_empty_iff d, hn, ?_, ?_, ?_⟩
  · intro n
    constructor
    · intro hr
      obtain ⟨⟨d, hd, hdk⟩, hcount⟩ := (hmem _ _).1 hr
      rw [noPlayer_count] at hcount
      refine ⟨?_, hcount⟩
      rw [hcount]
      apply List.length_pos_of_mem (a := d)
      have hd' := List.mem_filter.1 hd
      rw [hgame] at hd'
      exact List.mem_filter.2 ⟨hd'.1, by simp [hd'.2, (playerKey_empty_iff d).1 hdk]⟩
    · rintro ⟨hpos, hcount⟩
      rw [hcount] at hpos ⊢
      exact hin hpos
  · intro page limit rows total hcall
    obtain ⟨skip, hrows, -⟩ :=
      ListPlayersWithCounts_some regexMatch coll game "" page limit rows total hcall
    have hsub : (((playerPipeline regexMatch coll game "").drop skip).take limit.toNat).Sublist
        (playerPipeline regexMatch coll game "") :=
      (List.take_sublist _ _).trans (List.drop_sublist _ _)
    subst hrows
    constructor
    · rw [List.Nodup, List.pairwise_map]
      have hpw : (playerPipeline regexMatch coll game "").Pairwise
          (fun a b => a.1 ≠ b.1 ∧ a.1 ≠ GroupKey.null ∧ b.1 ≠ GroupKey.null) :=
        List.Pairwise.imp_of_mem (fun {a b} ha hb hab => ⟨hab, hnn a ha, hnn b hb⟩)
          (List.pairwise_map.1 hn)
      refine List.Pairwise.filterMap decodePlayerRow ?_ (hpw.sublist hsub)
      rintro ⟨ka, ca⟩ ⟨kb, cb⟩ ⟨hne, ha, hb⟩ x hx y hy hxy
      simp only at hne ha hb
      unfold decodePlayerRow at hx hy
      cases ka <;> cases kb <;> simp_all [decodeKey]
      · subst hx
        subst hy
        exact hne hxy
    · intro r hr he
      obtain ⟨⟨k, c⟩, hdoc, hdec⟩ := List.mem_filterMap.1 hr
      have hdocP := hsub.subset hdoc
      obtain ⟨hk, hc⟩ := decodePlayerRow_empty k c r hdec he (hnn _ hdocP)
      subst hk
      obtain ⟨⟨d, hd, hdk⟩, hcount⟩ := (hmem _ _).1 hdocP
      rw [noPlayer_count] at hcount
      rw [hc, hcount]
      refine ⟨rfl, ?_⟩
      apply List.length_pos_of_mem (a := d)
      have hd' := List.mem_filter.1 hd
      rw [hgame] at hd'
      exact List.mem_filter.2 ⟨hd'.1, by simp [hd'.2, (playerKey_empty_iff d).1 hdk]⟩
  · intro limit hl
    have hcall := ListPlayersWithCounts_eq regexMatch coll game "" 1 limit (le_refl 1) hl
      (by norm_num)
    refine ⟨_, _, hcall, ?_⟩
    intro htotal hpos
    have hall : ((playerPipeline regexMatch coll game "").drop
        (((1 : Int) - 1) * limit).toNat).take limit.toNat =
        playerPipeline regexMatch coll game "" := by
      simp only [sub_self, zero_mul, Int.toNat_zero, List.drop_zero]
      apply List.take_of_length_le
      omega
    refine ⟨⟨"", (coll.filter (fun d => condEq "game" game d && condNoPlayer d)).length⟩,
      ?_, rfl, rfl⟩
    rw [hall]
    exact List.mem_filterMap.2 ⟨_, hin hpos, rfl⟩

/-- C22 on `facetColl`: the three entries without a player (omitted, null,
empty) are one row `""` with count 3, alone when they are the whole store. -/
theorem players_no_player_bucket_witness :
    (∃ rows total,
      ListPlayersWithCounts (fun _ _ => false) facetColl "mhs" "" 1 20 = some (rows, total) ∧
      ((total : Int) ≤ 20 →
        0 < (facetColl.filter (fun d => condEq "game" "mhs" d && condNoPlayer d)).length →
        ∃ r ∈ rows, r.PlayerID = "" ∧
          r.LogCount =
            (facetColl.filter (fun d => condEq "game" "mhs" d && condNoPlayer d)).length)) ∧
    (facetColl.filter (fun d => condEq "game" "mhs" d && condNoPlayer d)).length = 3 ∧
    (ListPlayersWithCounts (fun _ _ => false) (facetColl.take 3) "mhs" "" 1 20).map
        (fun r => (r.1.map (fun u => (u.PlayerID, u.LogCount)), r.2)) =
      some ([("", 3)], 1) ∧
    (ListPlayersWithCounts (fun _ _ => false) facetColl "mhs" "" 1 20).map
        (fun r => (r.1.map (fun u => (u.PlayerID, u.LogCount)), r.2)) =
      some ([("", 3), ("p1", 2)], 2) :=
  ⟨(players_no_player_bucket (fun _ _ => false) facetColl "mhs").2.2.2.2 20 (by decide),
    by decide, by decide, by decide⟩

/-! ## Pages of player groups -/

/-- C23, as stated, fails, in two ways. A store holds two entries of a game,
one submitted with the number 7 as its `playerId`, one of the player `p1`: the
groups are the bucket 7 and the bucket `p1`, each with count 1, the number
first; the call for page 1 with limit 20 returns the row `p1` alone with
total 2, and with limit 1 it returns no row: the row of the bucket 7 does not
decode and is skipped. And for page `2^62 + 1` with limit 20 the product
`(page - 1) * limit` is `5 * 2^64`, which a Go `int` wraps to 0: the call
returns the first page of `facetColl`, where the positions from `5 * 2^64` on
hold no group. -/
theorem players_page_counterexample :
    playerPipeline (fun _ _ => false) numericPlayerColl "mhs" "" =
      [(GroupKey.other (Value.number 7), 1), (GroupKey.str "p1", 1)] ∧
    (ListPlayersWithCounts (fun _ _ => false) numericPlayerColl "mhs" "" 1 20).map
        (fun r => (r.1.map (fun u => (u.PlayerID, u.LogCount)), r.2)) =
      some ([("p1", 1)], 2) ∧
    (ListPlayersWithCounts (fun _ _ => false) numericPlayerColl "mhs" "" 1 1).map
        (fun r => (r.1.map (fun u => (u.PlayerID, u.LogCount)), r.2)) =
      some ([], 2) ∧
    wrapInt ((2 ^ 62 + 1 - 1) * 20) = 0 ∧
    (ListPlayersWithCounts (fun _ _ => false) facetColl "mhs" "" (2 ^ 62 + 1) 20).map
        (fun r => (r.1.map (fun u => (u.PlayerID, u.LogCount)), r.2)) =
      some ([("", 3), ("p1", 2)], 2) := by
  refine ⟨?_, ?_, ?_, ?_, ?_⟩ <;> decide

/-- C23, amended. Let every `playerId` of the game be a string, null or
missing. Then there is a list of (bucket, count) groups, one per bucket with a
matching entry, each with the number of matching entries of the bucket, in the
order count descending, then bucket ascending, such that for every `page ≥ 1`
and `limit ≥ 1` whose product `(page - 1) * limit` is below `2^63`
`ListPlayersWithCounts` returns the rows at the positions `(page-1)*limit` to
`(page-1)*limit+limit-1` of that list, and as total the number of groups,
whatever `page` and `limit` are. -/
theorem players_grouped_page (regexMatch : String → String → Bool) (coll : List Doc)
    (game search : String)
    (h : ∀ d ∈ coll, condEq "game" game d = true → stringOrAbsent "playerId" d = true) :
    ∃ groups : List (String × Nat),
      (groups.map Prod.fst).Nodup ∧
      (∀ s n, (s, n) ∈ groups ↔
        0 < n ∧ n = (coll.filter (fun d =>
          playerMatch regexMatch game search d && decide (playerBucket d = s))).length) ∧
      groups.Sorted (fun a b => b.2 < a.2 ∨ (a.2 = b.2 ∧ a.1 < b.1)) ∧
      ∀ page limit : Int, 1 ≤ page → 1 ≤ limit → (page - 1) * limit < 2 ^ 63 →
        ListPlayersWithCounts regexMatch coll game search page limit =
          some (((groups.drop ((page - 1) * limit).toNat).take limit.toNat).map
            (fun g => { PlayerID := g.1, LogCount := g.2 }), groups.length) := by
  have htyped : ∀ d ∈ coll, playerMatch regexMatch game search d = true →
      stringOrAbsent "playerId" d = true := by
    intro d hd hm
    apply h d hd
    unfold playerMatch at hm
    exact (Bool.and_eq_true _ _ ▸ hm).1
  have hP := playerPipeline_eq regexMatch coll game search
  have hmem : ∀ k n, (k, n) ∈ playerPipeline regexMatch coll game search ↔
      (∃ d ∈ coll.filter (playerMatch regexMatch game search),
        ifNullEmpty (fieldKey "playerId" d) = k) ∧
      n = ((coll.filter (playerMatch regexMatch game search)).filter (fun d =>
        decide (ifNullEmpty (fieldKey "playerId" d) = k))).length := by
    intro k n
    rw [hP]
    exact mem_sortGroups _ _ k n
  have hkey : ∀ d ∈ coll.filter (playerMatch regexMatch game search),
      ifNullEmpty (fieldKey "playerId" d) = GroupKey.str (playerBucket d) := by
    intro d hd
    have hd' := List.mem_filter.1 hd
    exact playerKey_typed d (htyped d hd'.1 hd'.2)
  have hstr : ∀ r ∈ playerPipeline regexMatch coll game search,
      r.1 = GroupKey.str (keyString r.1) := by
    rintro ⟨k, n⟩ hr
    obtain ⟨⟨d, hd, hk⟩, -⟩ := (hmem k n).1 hr
    rw [← hk, hkey d hd]
    rfl
  have hcount : ∀ s : String,
      ((coll.filter (playerMatch regexMatch game search)).filter (fun d =>
        decide (ifNullEmpty (fieldKey "playerId" d) = GroupKey.str s))).length =
      (coll.filter (fun d =>
        playerMatch regexMatch game search d && decide (playerBucket d = s))).length := by
    intro s
    rw [List.filter_filter]
    congr 1
    apply List.filter_congr
    intro d hd
    by_cases hm : playerMatch regexMatch game search d = true
    · have := hkey d (List.mem_filter.2 ⟨hd, hm⟩)
      simp [hm, this, Bool.and_comm]
    · simp [hm]
  refine ⟨(playerPipeline regexMatch coll game search).map (fun r => (keyString r.1, r.2)),
    ?_, ?_, ?_, ?_⟩
  · rw [List.map_map]
    have hn : ((playerPipeline regexMatch coll game search).map Prod.fst).Nodup := by
      rw [hP]
      exact sortGroups_keys_nodup _ _
    have hn' := List.pairwise_map.1 hn
    rw [List.Nodup, List.pairwise_map]
    refine List.Pairwise.imp_of_mem ?_ hn'
    intro a b ha hb hab heq
    apply hab
    rw [hstr a ha, hstr b hb]
    exact congrArg GroupKey.str heq
  · intro s n
    simp only [List.mem_map, Prod.mk.injEq]
    constructor
    · rintro ⟨⟨k, m⟩, hr, hks, rfl⟩
      have hk : k = GroupKey.str s := by
        have := hstr (k, m) hr
        simp only at this hks
        rw [this, hks]
      subst hk
      obtain ⟨⟨d, hd, hdk⟩, hm⟩ := (hmem _ _).1 hr
      rw [hcount] at hm
      refine ⟨?_, hm⟩
      simp only at hm ⊢
      rw [hm]
      apply List.length_pos_of_mem (a := d)
      have hd' := List.mem_filter.1 hd
      rw [hkey d hd] at hdk
      have hb : playerBucket d = s := by
        injection hdk
      exact List.mem_filter.2 ⟨hd'.1, by simp [hd'.2, hb]⟩
    · rintro ⟨hpos, hn⟩
      rw [hn] at hpos
      obtain ⟨d, hd⟩ := List.exists_mem_of_length_pos hpos
      have hd' := List.mem_filter.1 hd
      simp only [Bool.and_eq_true, decide_eq_true_eq] at hd'
      have hdm : d ∈ coll.filter (playerMatch regexMatch game search) :=
        List.mem_filter.2 ⟨hd'.1, hd'.2.1⟩
      refine ⟨(GroupKey.str s, n), ?_, rfl, rfl⟩
      rw [hmem]
      refine ⟨⟨d, hdm, ?_⟩, ?_⟩
      · rw [hkey d hdm, hd'.2.2]
      · rw [hcount]
        exact hn
  · unfold List.Sorted
    rw [List.pairwise_map]
    have hs : (playerPipeline regexMatch coll game search).Pairwise
        (fun a b => leGroup a b = true ∧ a.1 ≠ b.1) := by
      rw [hP]
      exact sortGroups_strict _ _
    refine List.Pairwise.imp_of_mem ?_ hs
    rintro ⟨ka, na⟩ ⟨kb, nb⟩ ha hb ⟨hle, hne⟩
    have hka := hstr _ ha
    have hkb := hstr _ hb
    simp only at hka hkb hne ⊢
    rw [leGroup_iff] at hle
    rcases hle with h | ⟨h1, h2⟩
    · exact Or.inl h
    · refine Or.inr ⟨h1, ?_⟩
      simp only at h2
      rw [hka, hkb] at h2
      rw [keyLe_str] at h2
      refine lt_of_le_of_ne h2 ?_
      intro he
      apply hne
      rw [hka, hkb, he]
  · intro page limit hp hl hov
    rw [ListPlayersWithCounts_eq regexMatch coll game search page limit hp hl hov]
    congr 1
    rw [List.length_map]
    congr 1
    rw [← List.map_drop, ← List.map_take, List.map_map]
    apply filterMap_eq_map_of_forall
    intro r hr
    have hr' : r ∈ playerPipeline regexMatch coll game search :=
      (List.drop_sublist _ _).subset ((List.take_sublist _ _).subset hr)
    have := hstr r hr'
    simp only [Function.comp]
    unfold decodePlayerRow
    rw [this]
    rfl

/-- C23 amended, on `facetColl` with limit 1: the first page is the bucket `""`
with count 3, the second the bucket `p1` with count 2, the total is 2 on
both. -/
theorem players_grouped_page_witness :
    (∀ d ∈ facetColl, condEq "game" "mhs" d = true → stringOrAbsent "playerId" d = true) ∧
    (∃ groups : List (String × Nat),
      (groups.map Prod.fst).Nodup ∧
      (∀ s n, (s, n) ∈ groups ↔
        0 < n ∧ n = (facetColl.filter (fun d =>
          playerMatch (fun _ _ => false) "mhs" "" d && decide (playerBucket d = s))).length) ∧
      groups.Sorted (fun a b => b.2 < a.2 ∨ (a.2 = b.2 ∧ a.1 < b.1)) ∧
      ∀ page limit : Int, 1 ≤ page → 1 ≤ limit → (page - 1) * limit < 2 ^ 63 →
        ListPlayersWithCounts (fun _ _ => false) facetColl "mhs" "" page limit =
          some (((groups.drop ((page - 1) * limit).toNat).take limit.toNat).map
            (fun g => { PlayerID := g.1, LogCount := g.2 }), groups.length)) ∧
    (ListPlayersWithCounts (fun _ _ => false) facetColl "mhs" "" 1 1).map
        (fun r => (r.1.map (fun u => (u.PlayerID, u.LogCount)), r.2)) =
      some ([("", 3)], 2) ∧
    (ListPlayersWithCounts (fun _ _ => false) facetColl "mhs" "" 2 1).map
        (fun r => (r.1.map (fun u => (u.PlayerID, u.LogCount)), r.2)) =
      some ([("p1", 2)], 2) :=
  ⟨by decide,
    players_grouped_page (fun _ _ => false) facetColl "mhs" "" (by decide),
    by decide, by decide⟩

/-! ## Event types -/

/-- C24, as stated, fails: the game `mhs` of `facetColl` has three entries whose
`eventType` is missing, null or empty; the aggregation puts them in two
groups, null and `""`, and `ListEventTypes` returns neither: its only item is
`start` with count 2. -/
theorem event_types_empty_bucket_counterexample :
    (facetColl.filter (fun d => condEq "game" "mhs" d &&
      decide (fieldKey "eventType" d = GroupKey.null ∨
        fieldKey "eventType" d = GroupKey.str ""))).length = 3 ∧
    (groupCount (fieldKey "eventType")
      (facetColl.filter (condEq "game" "mhs"))).insertionSort
        (fun a b => leGroup a b = true) =
      [(GroupKey.null, 2), (GroupKey.str "start", 2), (GroupKey.str "", 1)] ∧
    (ListEventTypes facetColl "mhs").map (fun it => (it.Name, it.Count)) = [("start", 2)] := by
  refine ⟨?_, ?_, ?_⟩ <;> decide

/-- C24, amended. `ListEventTypes` returns no item with the name `""`. Its
items have pairwise different names; there is an item with name `s` and count
`n` exactly when `s` is not empty, `n` is positive and `n` is the number of
entries of the game whose `eventType` is the string `s`; and the items are in
the order count descending, then name ascending. -/
theorem event_types_nonempty_only (coll : List Doc) (game : String) :
    (∀ it ∈ ListEventTypes coll game, it.Name ≠ "") ∧
    ((ListEventTypes coll game).map EventTypeItem.Name).Nodup ∧
    (∀ s n, (∃ it ∈ ListEventTypes coll game, it.Name = s ∧ it.Count = n) ↔
      s ≠ "" ∧ 0 < n ∧
        n = (coll.filter (fun d => condEq "game" game d && condEq "eventType" s d)).length) ∧
    (ListEventTypes coll game).Pairwise
      (fun a b => b.Count < a.Count ∨ (a.Count = b.Count ∧ a.Name < b.Name)) := by
  rw [ListEventTypes_eq]
  have hmem := mem_sortGroups (fieldKey "eventType") (coll.filter (condEq "game" game))
  refine ⟨?_, ?_, ?_, ?_⟩
  · intro it hit
    obtain ⟨⟨k, c⟩, -, hdec⟩ := List.mem_filterMap.1 hit
    exact ((decodeEventRow_some k c it).1 hdec).2.1
  · rw [List.Nodup, List.pairwise_map]
    refine List.Pairwise.filterMap decodeEventRow ?_
      (List.pairwise_map.1 (sortGroups_keys_nodup (fieldKey "eventType")
        (coll.filter (condEq "game" game))))
    rintro ⟨ka, ca⟩ ⟨kb, cb⟩ hne x hx y hy hxy
    have h1 := ((decodeEventRow_some ka ca x).1 hx).1
    have h2 := ((decodeEventRow_some kb cb y).1 hy).1
    apply hne
    simp only
    rw [h1, h2, hxy]
  · intro s n
    constructor
    · rintro ⟨it, hit, rfl, rfl⟩
      obtain ⟨⟨k, c⟩, hdoc, hdec⟩ := List.mem_filterMap.1 hit
      obtain ⟨hk, hne, hc⟩ := (decodeEventRow_some k c it).1 hdec
      subst hk
      obtain ⟨⟨d, hd, hdk⟩, hcount⟩ := (hmem _ _).1 hdoc
      rw [eventCount_eq] at hcount
      rw [hc, hcount]
      refine ⟨hne, ?_, rfl⟩
      apply List.length_pos_of_mem (a := d)
      have hd' := List.mem_filter.1 hd
      exact List.mem_filter.2
        ⟨hd'.1, by simp [hd'.2, (fieldKey_str_iff "eventType" it.Name d).1 hdk]⟩
    · rintro ⟨hne, hpos, hn⟩
      rw [hn] at hpos
      obtain ⟨d, hd⟩ := List.exists_mem_of_length_pos hpos
      have hd' := List.mem_filter.1 hd
      simp only [Bool.and_eq_true] at hd'
      refine ⟨{ Name := s, Count := n }, ?_, rfl, rfl⟩
      refine List.mem_filterMap.2 ⟨(GroupKey.str s, n), ?_, ?_⟩
      · rw [hmem]
        refine ⟨⟨d, List.mem_filter.2 ⟨hd'.1, hd'.2.1⟩,
          (fieldKey_str_iff "eventType" s d).2 hd'.2.2⟩, ?_⟩
        rw [eventCount_eq]
        exact hn
      · exact (decodeEventRow_some _ _ _).2 ⟨rfl, hne, rfl⟩
  · refine List.Pairwise.filterMap decodeEventRow ?_
      (sortGroups_strict (fieldKey "eventType") (coll.filter (condEq "game" game)))
    rintro ⟨ka, ca⟩ ⟨kb, cb⟩ ⟨hle, hne⟩ x hx y hy
    obtain ⟨h1, -, h1c⟩ := (decodeEventRow_some ka ca x).1 hx
    obtain ⟨h2, -, h2c⟩ := (decodeEventRow_some kb cb y).1 hy
    rw [leGroup_iff] at hle
    simp only at hle hne
    rw [h1c, h2c]
    rcases hle with h | ⟨he, hk⟩
    · exact Or.inl h
    · refine Or.inr ⟨he, ?_⟩
      rw [h1, h2] at hk hne
      rw [keyLe_str] at hk
      exact lt_of_le_of_ne hk (fun h => hne (by rw [h]))

/-! ## Counting and deleting -/

theorem condNoPlayer_iff (d : Doc) :
    condNoPlayer d = true ↔
      d.fields.get "playerId" = none ∨ d.fields.get "playerId" = some Value.null ∨
        d.fields.get "playerId" = some (Value.str "") := by
  unfold condNoPlayer
  cases h : d.fields.get "playerId" with
  | none => simp
  | some v => cases v <;> simp

theorem condEq_iff (k s : String) (d : Doc) :
    condEq k s d = true ↔ d.fields.get k = some (Value.str s) := by
  unfold condEq
  cases h : d.fields.get k with
  | none => simp
  | some v => cases v <;> simp

theorem CountLogs_eq (coll : List Doc) (game playerID eventType : String) :
    CountLogs coll game playerID eventType =
      (coll.filter (matchesFilter game playerID eventType)).length := by
  have h : CountLogs coll game playerID eventType =
      CountDocuments coll (logFilter game playerID eventType) := rfl
  rw [h]
  unfold CountDocuments
  congr 1
  apply filter_congr_all
  intro d
  exact logFilter_all game playerID eventType d

theorem DeleteMany_eq (coll : List Doc) (filter : List (Doc → Bool)) (p : Doc → Bool)
    (h : ∀ d, filter.all (fun c => c d) = p d) :
    DeleteMany coll filter = (coll.filter (fun d => !p d), (coll.filter p).length) := by
  unfold DeleteMany
  have h1 : (fun d => !filter.all (fun c => c d)) = fun d => !p d := by
    funext d
    rw [h]
  have h2 : (fun d => filter.all (fun c => c d)) = p := funext h
  rw [h1, h2]

theorem eraseP_unique (p : Doc → Bool) (l : List Doc)
    (hu : ∀ a ∈ l, ∀ b ∈ l, p a = true → p b = true → a.ID = b.ID)
    (hn : (l.map Doc.ID).Nodup) :
    l.eraseP p = l.filter (fun d => !p d) := by
  induction l with
  | nil => rfl
  | cons a l ih =>
    have hn' : a.ID ∉ l.map Doc.ID ∧ (l.map Doc.ID).Nodup := by
      rw [List.map_cons] at hn
      exact List.nodup_cons.1 hn
    by_cases ha : p a = true
    · rw [List.eraseP_cons_of_pos ha, List.filter_cons_of_neg (by simp [ha])]
      symm
      rw [List.filter_eq_self]
      intro b hb
      cases hpb : p b with
      | false => rfl
      | true =>
        exfalso
        apply hn'.1
        have := hu a (List.mem_cons_self _ _) b (List.mem_cons_of_mem _ hb) ha hpb
        rw [this]
        exact List.mem_map_of_mem _ hb
    · rw [List.eraseP_cons_of_neg ha, List.filter_cons_of_pos (by simp [ha]),
        ih (fun x hx y hy => hu x (List.mem_cons_of_mem _ hx) y (List.mem_cons_of_mem _ hy))
          hn'.2]

theorem DeleteOne_fst (coll : List Doc) (filter : List (Doc → Bool)) :
    (DeleteOne coll filter).1 = coll.eraseP (fun d => filter.all (fun c => c d)) := by
  unfold DeleteOne
  cases h : coll.find? (fun d => filter.all (fun c => c d)) with
  | some x => rfl
  | none =>
    simp only
    symm
    rw [List.eraseP_eq_self_iff]
    intro a ha
    have := List.find?_eq_none.1 h a ha
    exact this

theorem DeleteLog_eq (coll : List Doc) (game : String) (id : ObjectID)
    (hu : uniqueIds coll) :
    DeleteLog coll game id =
      (coll.filter (fun d => !(decide (d.ID = id) && condEq "game" game d)), false) := by
  have h : DeleteLog coll game id =
      ((DeleteOne coll [condIdEq id, condEq "game" game]).1, false) := rfl
  rw [h, DeleteOne_fst]
  congr 1
  rw [eraseP_unique _ coll ?_ hu]
  · apply filter_congr_all
    intro d
    simp [condIdEq]
  · intro a _ b _ ha hb
    simp only [List.all_cons, List.all_nil, Bool.and_true, Bool.and_eq_true, condIdEq,
      decide_eq_true_eq] at ha hb
    rw [ha.1, hb.1]

/-- C25. With the player selector `__empty__` (and no event type) the filter of
`ListLogs` and `CountLogs` holds of a document exactly when its `game` is the
requested one and its `playerId` is missing, null or the empty string.
`ListLogs` without a cursor returns the first `limit` of these documents in
its order, `CountLogs` returns their number, and `DeletePlayerLogs` removes
exactly them and returns their number. -/
theorem empty_player_selector (coll : List Doc) (game : String) :
    (∀ d, matchesFilter game "__empty__" "" d = true ↔
      d.fields.get "game" = some (Value.str game) ∧
        (d.fields.get "playerId" = none ∨ d.fields.get "playerId" = some Value.null ∨
          d.fields.get "playerId" = some (Value.str ""))) ∧
    (∀ limit : Nat,
      (ListLogs coll game "__empty__" "" limit "" "").1 =
        ((sortedDesc (coll.filter (matchesFilter game "__empty__" ""))).take limit).map
          toEntry ∧
      (ListLogs coll game "__empty__" "" limit "" "").2.2 =
        decide (limit < (coll.filter (matchesFilter game "__empty__" "")).length)) ∧
    (sortedDesc (coll.filter (matchesFilter game "__empty__" ""))).Perm
      (coll.filter (matchesFilter game "__empty__" "")) ∧
    CountLogs coll game "__empty__" "" =
      (coll.filter (matchesFilter game "__empty__" "")).length ∧
    DeletePlayerLogs coll game "__empty__" =
      (coll.filter (fun d => !matchesFilter game "__empty__" "" d),
        (coll.filter (matchesFilter game "__empty__" "")).length) := by
  refine ⟨?_, ?_, List.perm_insertionSort _ _, CountLogs_eq coll game "__empty__" "", ?_⟩
  · intro d
    simp [matchesFilter, condNoPlayer_iff, condEq_iff]
  · intro limit
    rw [ListLogs_first coll game "__empty__" "" limit "" ObjectIDFromHex_empty]
    refine ⟨rfl, ?_⟩
    simp [listing, sortedDesc, List.length_insertionSort]
  · have h : DeletePlayerLogs coll game "__empty__" =
        DeleteMany coll ([condEq "game" game] ++ [condNoPlayer]) := rfl
    rw [h]
    apply DeleteMany_eq
    intro d
    simp [matchesFilter]

/-- C26, as stated, fails for `DeleteLog`: it returns an `error` and no count.
On the sample store it removes the entry 2 in one call and nothing in another
(no entry has the id 7), and returns the same value both times. -/
theorem delete_log_count_counterexample :
    (DeleteLog sampleColl "mhs" 2).1.map Doc.ID = [1, 3] ∧
    (DeleteLog sampleColl "mhs" 7).1.map Doc.ID = [1, 2, 3] ∧
    (DeleteLog sampleColl "mhs" 2).2 = (DeleteLog sampleColl "mhs" 7).2 := by
  refine ⟨?_, ?_, ?_⟩ <;> decide

/-- C26, amended. In a store with unique ids, `DeleteLog` leaves the collection
without the entry that has the id and the game, every other entry in place,
and returns no error; `DeletePlayerLogs` and `DeleteGameLogs` leave the
collection without the entries they select, every other entry in place, and
return the number of selected entries that were there before the call. -/
theorem deletes_remove_matching (coll : List Doc) (game playerID : String) (id : ObjectID)
    (hu : uniqueIds coll) :
    DeleteLog coll game id =
      (coll.filter (fun d => !(decide (d.ID = id) && condEq "game" game d)), false) ∧
    DeletePlayerLogs coll game playerID =
      (coll.filter (fun d => !playerSelected game playerID d),
        (coll.filter (playerSelected game playerID)).length) ∧
    DeleteGameLogs coll game =
      (coll.filter (fun d => !condEq "game" game d),
        (coll.filter (condEq "game" game)).length) := by
  refine ⟨DeleteLog_eq coll game id hu, ?_, ?_⟩
  · unfold DeletePlayerLogs
    apply DeleteMany_eq
    intro d
    by_cases hp : playerID = "__empty__" <;> simp [playerSelected, hp]
  · unfold DeleteGameLogs
    apply DeleteMany_eq
    intro d
    simp

/-- C26 amended, on `facetColl`: `DeleteLog` removes the entry 4 of `mhs` and
leaves the entry 6, which is of another game, when called for `mhs`;
`DeletePlayerLogs` removes the two entries of `p1`; `DeleteGameLogs` removes
the five entries of `mhs`. -/
theorem deletes_remove_matching_witness :
    uniqueIds facetColl ∧
    (DeleteLog facetColl "mhs" 4 =
      (facetColl.filter (fun d => !(decide (d.ID = 4) && condEq "game" "mhs" d)), false) ∧
    DeletePlayerLogs facetColl "mhs" "p1" =
      (facetColl.filter (fun d => !playerSelected "mhs" "p1" d),
        (facetColl.filter (playerSelected "mhs" "p1")).length) ∧
    DeleteGameLogs facetColl "mhs" =
      (facetColl.filter (fun d => !condEq "game" "mhs" d),
        (facetColl.filter (condEq "game" "mhs")).length)) ∧
    (DeleteLog facetColl "mhs" 4).1.map Doc.ID = [1, 2, 3, 5, 6] ∧
    (DeleteLog facetColl "mhs" 6).1.map Doc.ID = [1, 2, 3, 4, 5, 6] ∧
    (DeletePlayerLogs facetColl "mhs" "p1").1.map Doc.ID = [1, 2, 3, 6] ∧
    (DeletePlayerLogs facetColl "mhs" "p1").2 = 2 ∧
    (DeleteGameLogs facetColl "mhs").1.map Doc.ID = [6] ∧
    (DeleteGameLogs facetColl "mhs").2 = 5 :=
  ⟨facetColl_unique, deletes_remove_matching facetColl "mhs" "p1" 4 facetColl_unique,
    by decide, by decide, by decide, by decide, by decide, by decide⟩

/-! ## The listing endpoint -/

theorem ListHandler_eq (Atoi : String → Option Int) (Parse : String → Option Nat)
    (coll : List Doc) (query : String → String) (hgame : query "game" ≠ "") :
    ListHandler Atoi Parse coll query =
      match cursorAll (FindSkip coll
        (listFilter (query "game") (query "playerId") (query "eventType")
          (timeParam Parse (query "start_time")) (timeParam Parse (query "end_time")))
        (Int.toNat (offsetParam Atoi (query "offset")))
        (if limitParam Atoi (query "limit") > (0 : Int)
          then some (Int.toNat (limitParam Atoi (query "limit"))) else none)) with
      | none => ListResponse.error "Failed to decode logs" "DECODE_FAILED" 500
      | some entries =>
        ListResponse.ok
          { Entries := entries
            Total := CountDocuments coll
              (listFilter (query "game") (query "playerId") (query "eventType")
                (timeParam Parse (query "start_time")) (timeParam Parse (query "end_time")))
            Limit := limitParam Atoi (query "limit")
            Offset := offsetParam Atoi (query "offset") } := by
  unfold ListHandler
  rw [if_neg hgame]
  rfl

theorem listFilter_all (game playerID eventType : String) (start finish : Option Nat)
    (d : Doc) :
    (listFilter game playerID eventType start finish).all (fun c => c d) =
      listSelected game playerID eventType start finish d := by
  unfold listFilter listSelected
  by_cases h1 : playerID = "" <;> by_cases h2 : eventType = "" <;>
    cases start <;> cases finish <;> simp [h1, h2, condTime, Bool.and_assoc]

theorem tsDesc_sorted (l : List Doc) :
    (l.insertionSort (fun a b => b.ServerTimestamp ≤ a.ServerTimestamp)).Sorted
      (fun a b => b.ServerTimestamp ≤ a.ServerTimestamp) :=
  @List.sorted_insertionSort Doc (fun a b => b.ServerTimestamp ≤ a.ServerTimestamp) _
    ⟨fun a b => le_total b.ServerTimestamp a.ServerTimestamp⟩
    ⟨fun _ _ _ hab hbc => le_trans hbc hab⟩ l

theorem cursorAll_some (rows : List Doc) (h : ∀ d ∈ rows, (logapi.decode d).isSome = true) :
    ∃ entries, cursorAll rows = some entries ∧ entries.map some = rows.map logapi.decode := by
  induction rows with
  | nil => exact ⟨[], rfl, rfl⟩
  | cons d rest ih =>
    obtain ⟨es, hes, hmap⟩ := ih (fun x hx => h x (List.mem_cons_of_mem _ hx))
    have hd := h d (List.mem_cons_self _ _)
    cases hdec : logapi.decode d with
    | none => simp [hdec] at hd
    | some e =>
      refine ⟨e :: es, ?_, ?_⟩
      · simp [cursorAll, hdec, hes]
      · simp [hdec, hmap]

theorem decode_timestamp (d : Doc) (e : logapi.LogEntry) (h : logapi.decode d = some e) :
    e.ServerTimestamp = d.ServerTimestamp := by
  unfold logapi.decode at h
  cases h1 : decodeStringField (d.fields.get "game") <;>
    cases h2 : decodeStringField (d.fields.get "playerId") <;>
    cases h3 : decodeStringField (d.fields.get "eventType") <;>
    cases h4 : decodeTimeField (d.fields.get "timestamp") <;>
    cases h5 : decodeMapField (d.fields.get "data") <;>
    simp [h1, h2, h3, h4, h5] at h
  subst h
  rfl

theorem decoded_sorted (rows : List Doc) (entries : List logapi.LogEntry)
    (hmap : entries.map some = rows.map logapi.decode)
    (hs : rows.Sorted (fun a b => b.ServerTimestamp ≤ a.ServerTimestamp)) :
    entries.Sorted (fun a b => b.ServerTimestamp ≤ a.ServerTimestamp) := by
  induction rows generalizing entries with
  | nil =>
    cases entries with
    | nil => exact List.sorted_nil
    | cons e es => simp at hmap
  | cons d rest ih =>
    cases entries with
    | nil => simp at hmap
    | cons e es =>
      simp only [List.map_cons, List.cons.injEq] at hmap
      have hs' := List.sorted_cons.1 hs
      refine List.sorted_cons.2 ⟨?_, ih es hmap.2 hs'.2⟩
      intro b hb
      have hb' : some b ∈ rest.map logapi.decode := by
        rw [← hmap.2]
        exact List.mem_map_of_mem _ hb
      obtain ⟨x, hx, hxb⟩ := List.mem_map.1 hb'
      rw [decode_timestamp x b hxb, decode_timestamp d e hmap.1.symm]
      exact hs'.1 x hx

/-- C27, as stated, fails. The valid submission `{"game": "mhs", "timestamp":
"b"}` is stored with its `timestamp` as a string, which the field `Timestamp
*time.Time` of `LogEntry` does not take: the request `game=mhs` has this entry
as its matching set, and the answer is `DECODE_FAILED`/500 with no total and
no entries. An entry stored under a string `_id` does not decode either. -/
theorem listing_decode_failed_counterexample :
    storeOf countingIds
      ((NewHandler 0).SubmitHandler ⟨10, false, 0⟩ ⟨[], []⟩
        (Body.parsed [("game", Value.str "mhs"), ("timestamp", Value.str "b")])).2.logdata =
      stringTimestampColl ∧
    (stringTimestampColl.filter (listSelected "mhs" "" "" none none)).length = 1 ∧
    ListHandler sampleAtoi sampleParse stringTimestampColl (gameQuery "mhs") =
      ListResponse.error "Failed to decode logs" "DECODE_FAILED" 500 ∧
    (logapi.decodeRaw
      { ID := DocID.str "a", ServerTimestamp := 10,
        fields := [("game", Value.str "mhs")] }).isSome = false :=
  ⟨rfl, rfl, rfl, rfl⟩

/-- C27, amended. For a request with a non-empty `game`, on a collection whose selected
documents decode into `LogEntry`: the response is a success; its `total` is
the size of the matching set `listSelected`, whatever limit and offset are;
its entries are, decoded, the rows from position `offset` on of the matching
set in an order of non-increasing `serverTimestamp`, cut to `limit` rows when
`limit > 0` and all of them when `limit = 0`; and it echoes limit and offset.
The limit is 100 when the parameter is absent, does not parse or is negative,
and the parsed number otherwise. -/
theorem listing_semantics (Atoi : String → Option Int) (Parse : String → Option Nat)
    (coll : List Doc) (query : String → String) (hgame : query "game" ≠ "")
    (hdec : ∀ d ∈ coll,
      listSelected (query "game") (query "playerId") (query "eventType")
        (timeParam Parse (query "start_time")) (timeParam Parse (query "end_time")) d = true →
      (logapi.decode d).isSome = true) :
    ∃ (rows : List Doc) (entries : List logapi.LogEntry),
      rows.Perm (coll.filter (listSelected (query "game") (query "playerId")
        (query "eventType") (timeParam Parse (query "start_time"))
        (timeParam Parse (query "end_time")))) ∧
      rows.Sorted (fun a b => b.ServerTimestamp ≤ a.ServerTimestamp) ∧
      ListHandler Atoi Parse coll query =
        ListResponse.ok
          { Entries := entries
            Total := (coll.filter (listSelected (query "game") (query "playerId")
              (query "eventType") (timeParam Parse (query "start_time"))
              (timeParam Parse (query "end_time")))).length
            Limit := limitParam Atoi (query "limit")
            Offset := offsetParam Atoi (query "offset") } ∧
      entries.map some =
        (if limitParam Atoi (query "limit") = 0
          then rows.drop (Int.toNat (offsetParam Atoi (query "offset")))
          else (rows.drop (Int.toNat (offsetParam Atoi (query "offset")))).take
            (Int.toNat (limitParam Atoi (query "limit")))).map logapi.decode ∧
      entries.Sorted (fun a b => b.ServerTimestamp ≤ a.ServerTimestamp) ∧
      0 ≤ limitParam Atoi (query "limit") ∧ 0 ≤ offsetParam Atoi (query "offset") ∧
      ((query "limit" = "" ∨ Atoi (query "limit") = none ∨
          ∃ n, Atoi (query "limit") = some n ∧ n < 0) →
        limitParam Atoi (query "limit") = 100) ∧
      (∀ n, query "limit" ≠ "" → Atoi (query "limit") = some n → 0 ≤ n →
        limitParam Atoi (query "limit") = n) := by
  have hfilter : coll.filter (fun d =>
      (listFilter (query "game") (query "playerId") (query "eventType")
        (timeParam Parse (query "start_time"))
        (timeParam Parse (query "end_time"))).all (fun c => c d)) =
      coll.filter (listSelected (query "game") (query "playerId") (query "eventType")
        (timeParam Parse (query "start_time")) (timeParam Parse (query "end_time"))) := by
    apply filter_congr_all
    intro d
    exact listFilter_all _ _ _ _ _ d
  have hL0 : 0 ≤ limitParam Atoi (query "limit") := by
    unfold limitParam
    split_ifs with h1
    · cases Atoi (query "limit") with
      | none => simp
      | some n =>
        simp only
        split_ifs with h2
        · exact h2
        · simp
    · simp
  have hO0 : 0 ≤ offsetParam Atoi (query "offset") := by
    unfold offsetParam
    split_ifs with h1
    · cases Atoi (query "offset") with
      | none => simp
      | some n =>
        simp only
        split_ifs with h2
        · exact h2
        · simp
    · simp
  have hwin : FindSkip coll
      (listFilter (query "game") (query "playerId") (query "eventType")
        (timeParam Parse (query "start_time")) (timeParam Parse (query "end_time")))
      (Int.toNat (offsetParam Atoi (query "offset")))
      (if limitParam Atoi (query "limit") > (0 : Int)
        then some (Int.toNat (limitParam Atoi (query "limit"))) else none) =
      (if limitParam Atoi (query "limit") = 0
        then ((coll.filter (listSelected (query "game") (query "playerId")
          (query "eventType") (timeParam Parse (query "start_time"))
          (timeParam Parse (query "end_time")))).insertionSort
            (fun a b => b.ServerTimestamp ≤ a.ServerTimestamp)).drop
              (Int.toNat (offsetParam Atoi (query "offset")))
        else (((coll.filter (listSelected (query "game") (query "playerId")
          (query "eventType") (timeParam Parse (query "start_time"))
          (timeParam Parse (query "end_time")))).insertionSort
            (fun a b => b.ServerTimestamp ≤ a.ServerTimestamp)).drop
              (Int.toNat (offsetParam Atoi (query "offset")))).take
                (Int.toNat (limitParam Atoi (query "limit")))) := by
    unfold FindSkip
    rw [hfilter]
    by_cases hz : limitParam Atoi (query "limit") = 0
    · simp [hz]
    · have hpos : limitParam Atoi (query "limit") > 0 := by omega
      simp [hz, hpos]
  have hsel : ∀ d ∈ (if limitParam Atoi (query "limit") = 0
        then ((coll.filter (listSelected (query "game") (query "playerId")
          (query "eventType") (timeParam Parse (query "start_time"))
          (timeParam Parse (query "end_time")))).insertionSort
            (fun a b => b.ServerTimestamp ≤ a.ServerTimestamp)).drop
              (Int.toNat (offsetParam Atoi (query "offset")))
        else (((coll.filter (listSelected (query "game") (query "playerId")
          (query "eventType") (timeParam Parse (query "start_time"))
          (timeParam Parse (query "end_time")))).insertionSort
            (fun a b => b.ServerTimestamp ≤ a.ServerTimestamp)).drop
              (Int.toNat (offsetParam Atoi (query "offset")))).take
                (Int.toNat (limitParam Atoi (query "limit")))),
      (logapi.decode d).isSome = true := by
    intro d hd
    have hd1 : d ∈ (coll.filter (listSelected (query "game") (query "playerId")
        (query "eventType") (timeParam Parse (query "start_time"))
        (timeParam Parse (query "end_time")))).insertionSort
          (fun a b => b.ServerTimestamp ≤ a.ServerTimestamp) := by
      split_ifs at hd
      · exact (List.drop_sublist _ _).subset hd
      · exact (List.drop_sublist _ _).subset ((List.take_sublist _ _).subset hd)
    have hd2 := (List.perm_insertionSort _ _).subset hd1
    have hd3 := List.mem_filter.1 hd2
    exact hdec d hd3.1 hd3.2
  obtain ⟨entries, hall, hmap⟩ := cursorAll_some _ hsel
  have hsorted := tsDesc_sorted (coll.filter (listSelected (query "game") (query "playerId")
    (query "eventType") (timeParam Parse (query "start_time"))
    (timeParam Parse (query "end_time"))))
  refine ⟨_, entries, List.perm_insertionSort _ _, hsorted, ?_, hmap, ?_, hL0, hO0, ?_, ?_⟩
  · rw [ListHandler_eq Atoi Parse coll query hgame, hwin, hall]
    simp only [CountDocuments, hfilter]
  · refine decoded_sorted _ entries hmap ?_
    split_ifs
    · exact hsorted.sublist (List.drop_sublist _ _)
    · exact hsorted.sublist ((List.take_sublist _ _).trans (List.drop_sublist _ _))
  · intro h
    unfold limitParam
    rcases h with h | h | ⟨n, h, hn⟩
    · simp [h]
    · simp [h]
    · have hn' : ¬ n ≥ 0 := by omega
      simp [h, hn']
  · intro n h1 h2 h3
    unfold limitParam
    simp [h1, h2, h3]

/-- C27 amended, on the sample store with `limit=1` and `offset=1`: of the entries 3,
2, 1 the response holds the entry 2, with total 3. -/
theorem listing_semantics_witness :
    pageQuery "mhs" "1" "1" "game" ≠ "" ∧
    (∀ d ∈ sampleColl,
      listSelected (pageQuery "mhs" "1" "1" "game") (pageQuery "mhs" "1" "1" "playerId")
        (pageQuery "mhs" "1" "1" "eventType")
        (timeParam sampleParse (pageQuery "mhs" "1" "1" "start_time"))
        (timeParam sampleParse (pageQuery "mhs" "1" "1" "end_time")) d = true →
      (logapi.decode d).isSome = true) ∧
    ListHandler sampleAtoi sampleParse sampleColl (pageQuery "mhs" "1" "1") =
      ListResponse.ok
        { Entries := [{ ID := 2, Game := "mhs", PlayerID := "", EventType := "",
                        Timestamp := none, ServerTimestamp := 20, Data := none }],
          Total := 3, Limit := 1, Offset := 1 } ∧
    limitParam sampleAtoi "-1" = 100 ∧ limitParam sampleAtoi "x" = 100 ∧
    limitParam sampleAtoi "" = 100 ∧ limitParam sampleAtoi "0" = 0 ∧
    ∃ (rows : List Doc) (entries : List logapi.LogEntry),
      rows.Perm (sampleColl.filter (listSelected (pageQuery "mhs" "1" "1" "game")
        (pageQuery "mhs" "1" "1" "playerId") (pageQuery "mhs" "1" "1" "eventType")
        (timeParam sampleParse (pageQuery "mhs" "1" "1" "start_time"))
        (timeParam sampleParse (pageQuery "mhs" "1" "1" "end_time")))) ∧
      rows.Sorted (fun a b => b.ServerTimestamp ≤ a.ServerTimestamp) ∧
      ListHandler sampleAtoi sampleParse sampleColl (pageQuery "mhs" "1" "1") =
        ListResponse.ok
          { Entries := entries
            Total := (sampleColl.filter (listSelected (pageQuery "mhs" "1" "1" "game")
              (pageQuery "mhs" "1" "1" "playerId") (pageQuery "mhs" "1" "1" "eventType")
              (timeParam sampleParse (pageQuery "mhs" "1" "1" "start_time"))
              (timeParam sampleParse (pageQuery "mhs" "1" "1" "end_time")))).length
            Limit := limitParam sampleAtoi (pageQuery "mhs" "1" "1" "limit")
            Offset := offsetParam sampleAtoi (pageQuery "mhs" "1" "1" "offset") } ∧
      entries.map some =
        (if limitParam sampleAtoi (pageQuery "mhs" "1" "1" "limit") = 0
          then rows.drop (Int.toNat (offsetParam sampleAtoi (pageQuery "mhs" "1" "1" "offset")))
          else (rows.drop
            (Int.toNat (offsetParam sampleAtoi (pageQuery "mhs" "1" "1" "offset")))).take
            (Int.toNat (limitParam sampleAtoi (pageQuery "mhs" "1" "1" "limit")))).map
              logapi.decode ∧
      entries.Sorted (fun a b => b.ServerTimestamp ≤ a.ServerTimestamp) ∧
      0 ≤ limitParam sampleAtoi (pageQuery "mhs" "1" "1" "limit") ∧
      0 ≤ offsetParam sampleAtoi (pageQuery "mhs" "1" "1" "offset") ∧
      ((pageQuery "mhs" "1" "1" "limit" = "" ∨
          sampleAtoi (pageQuery "mhs" "1" "1" "limit") = none ∨
          ∃ n, sampleAtoi (pageQuery "mhs" "1" "1" "limit") = some n ∧ n < 0) →
        limitParam sampleAtoi (pageQuery "mhs" "1" "1" "limit") = 100) ∧
      (∀ n, pageQuery "mhs" "1" "1" "limit" ≠ "" →
        sampleAtoi (pageQuery "mhs" "1" "1" "limit") = some n → 0 ≤ n →
        limitParam sampleAtoi (pageQuery "mhs" "1" "1" "limit") = n) :=
  ⟨by decide, by decide, by with_unfolding_all rfl, by decide, by decide, by decide,
    by decide,
    listing_semantics sampleAtoi sampleParse sampleColl (pageQuery "mhs" "1" "1")
      (by decide) (by decide)⟩

/-! ## The full entry -/

theorem rangeSet_get (m entry : Obj) (k : String) :
    (rangeSet m entry).get k =
      match m.get k with
      | some v => some v
      | none => entry.get k := by
  induction m with
  | nil => rfl
  | cons kv rest ih =>
    obtain ⟨k', v⟩ := kv
    have h : rangeSet ((k', v) :: rest) entry = Obj.set (rangeSet rest entry) k' v := rfl
    rw [h, Obj.get_set]
    by_cases hk : k = k'
    · subst hk
      simp [Obj.get]
    · have hk2 : ¬ k' = k := fun e => hk e.symm
      simp only [hk, if_false, Obj.get, hk2]
      exact ih

theorem fullEntry_base_get (l : LogEntry) (k : String) :
    Obj.get (if l.EventType ≠ "" then
        Obj.set (if l.PlayerID ≠ "" then
            Obj.set (Obj.set (Obj.set [] "_id" (Value.str (Hex l.ID))) "game"
              (Value.str l.Game)) "playerId" (Value.str l.PlayerID)
          else Obj.set (Obj.set [] "_id" (Value.str (Hex l.ID))) "game" (Value.str l.Game))
          "eventType" (Value.str l.EventType)
      else (if l.PlayerID ≠ "" then
          Obj.set (Obj.set (Obj.set [] "_id" (Value.str (Hex l.ID))) "game"
            (Value.str l.Game)) "playerId" (Value.str l.PlayerID)
        else Obj.set (Obj.set [] "_id" (Value.str (Hex l.ID))) "game" (Value.str l.Game))) k =
      if k = "eventType" then
        (if l.EventType ≠ "" then some (Value.str l.EventType) else none)
      else if k = "playerId" then
        (if l.PlayerID ≠ "" then some (Value.str l.PlayerID) else none)
      else if k = "game" then some (Value.str l.Game)
      else if k = "_id" then some (Value.str (Hex l.ID))
      else none := by
  by_cases h3 : k = "eventType"
  · subst h3
    by_cases he : l.EventType = "" <;> by_cases hp : l.PlayerID = "" <;>
      simp [he, hp, Obj.get_set, Obj.get]
  by_cases h4 : k = "playerId"
  · subst h4
    by_cases he : l.EventType = "" <;> by_cases hp : l.PlayerID = "" <;>
      simp [he, hp, Obj.get_set, Obj.get]
  by_cases h5 : k = "game"
  · subst h5
    by_cases he : l.EventType = "" <;> by_cases hp : l.PlayerID = "" <;>
      simp [he, hp, Obj.get_set, Obj.get]
  by_cases h6 : k = "_id"
  · subst h6
    by_cases he : l.EventType = "" <;> by_cases hp : l.PlayerID = "" <;>
      simp [he, hp, Obj.get_set, Obj.get]
  have h4' : ¬ "playerId" = k := fun e => h4 e.symm
  have h5' : ¬ "game" = k := fun e => h5 e.symm
  have h6' : ¬ "_id" = k := fun e => h6 e.symm
  by_cases he : l.EventType = "" <;> by_cases hp : l.PlayerID = "" <;>
    simp [he, hp, h3, h4, h5, h6, h4', h5', h6', Obj.get_set, Obj.get]

theorem buildFullLogEntry_get (l : LogEntry) (k : String) :
    (buildFullLogEntry l).get k =
      match (Obj.ofNilable l.Data).get k with
      | some v => some v
      | none =>
        if k = "serverTimestamp" then some (Value.time l.ServerTimestamp)
        else if k = "timestamp" then l.Timestamp.map Value.time
        else if k = "eventType" then
          (if l.EventType ≠ "" then some (Value.str l.EventType) else none)
        else if k = "playerId" then
          (if l.PlayerID ≠ "" then some (Value.str l.PlayerID) else none)
        else if k = "game" then some (Value.str l.Game)
        else if k = "_id" then some (Value.str (Hex l.ID))
        else none := by
  unfold buildFullLogEntry
  simp only [rangeSet_get]
  cases hd : (Obj.ofNilable l.Data).get k with
  | some v => rfl
  | none =>
    simp only [Obj.get_set]
    by_cases h1 : k = "serverTimestamp"
    · simp [h1]
    · simp only [h1, if_false]
      cases ht : l.Timestamp with
      | some t =>
        simp only [Obj.get_set, Option.map_some']
        by_cases h2 : k = "timestamp"
        · simp [h2]
        · simp only [h2, if_false]
          exact fullEntry_base_get l k
      | none =>
        simp only [Option.map_none']
        rw [fullEntry_base_get l k]
        by_cases h2 : k = "timestamp"
        · simp [h2]
        · simp only [h2, if_false]

theorem not_known_ne (k : String) (hk : k ∉ codeKnownFields) :
    k ≠ "_id" ∧ k ≠ "game" ∧ k ≠ "playerId" ∧ k ≠ "eventType" ∧ k ≠ "timestamp" ∧
      k ≠ "serverTimestamp" := by
  simp only [codeKnownFields, knownFields, List.map_cons, List.map_nil, List.mem_cons,
    List.mem_singleton, List.mem_nil_iff, or_false, not_or] at hk
  exact hk

theorem toEntry_data_get (d : Doc) (k : String) :
    (Obj.ofNilable (toEntry d).Data).get k =
      if k ∈ codeKnownFields then none else d.fields.get k :=
  entryData_get d.fields k

theorem stringField_ne_empty (m : Obj) (k : String) (h : stringField m k ≠ "") :
    m.get k = some (Value.str (stringField m k)) := by
  unfold stringField at h ⊢
  cases hg : m.get k with
  | none => simp [hg, asString] at h
  | some v =>
    cases v <;> simp_all [asString]

theorem logapi_decode_data (d : Doc) (e : logapi.LogEntry) (h : logapi.decode d = some e) :
    e.PlayerID = stringField d.fields "playerId" ∧
    e.EventType = stringField d.fields "eventType" ∧
    e.ServerTimestamp = d.ServerTimestamp ∧
    e.Data =
      (match d.fields.get "data" with
        | some (Value.object kvs) => some kvs
        | _ => none) := by
  unfold logapi.decode at h
  cases h1 : decodeStringField (d.fields.get "game") <;>
    cases h2 : decodeStringField (d.fields.get "playerId") <;>
    cases h3 : decodeStringField (d.fields.get "eventType") <;>
    cases h4 : decodeTimeField (d.fields.get "timestamp") <;>
    cases h5 : decodeMapField (d.fields.get "data") <;>
    simp [h1, h2, h3, h4, h5] at h
  subst h
  refine ⟨?_, ?_, rfl, ?_⟩
  · unfold stringField
    cases hg : d.fields.get "playerId" with
    | none => simp_all [decodeStringField, asString]
    | some v => cases v <;> simp_all [decodeStringField, asString]
  · unfold stringField
    cases hg : d.fields.get "eventType" with
    | none => simp_all [decodeStringField, asString]
    | some v => cases v <;> simp_all [decodeStringField, asString]
  · simp only
    cases hg : d.fields.get "data" with
    | none => simp_all [decodeMapField]
    | some v => cases v <;> simp_all [decodeMapField]

/-- C28. For a stored document whose `game` is a string: the `Data` that
`ListLogs` rebuilds holds exactly the keys of the document outside the
known-field set, each with its stored value; the map that `buildFullLogEntry`
makes of the entry has the same value as the document under every key outside
the known-field set, the `Hex` of the id under `_id`, the stored `game`, the
stored `serverTimestamp`, the stored `playerId` and `eventType` when they are
non-empty strings and no such key otherwise, and the stored `timestamp` when
it is a date. -/
theorem read_side_round_trip (d : Doc) (g : String)
    (hgame : d.fields.get "game" = some (Value.str g)) :
    (∀ k, (Obj.ofNilable (toEntry d).Data).get k =
      if k ∈ codeKnownFields then none else d.fields.get k) ∧
    (∀ k, k ∉ codeKnownFields → (buildFullLogEntry (toEntry d)).get k = d.fields.get k) ∧
    (buildFullLogEntry (toEntry d)).get "_id" = some (Value.str (Hex d.ID)) ∧
    (buildFullLogEntry (toEntry d)).get "game" = d.fields.get "game" ∧
    (buildFullLogEntry (toEntry d)).get "serverTimestamp" =
      some (Value.time d.ServerTimestamp) ∧
    (buildFullLogEntry (toEntry d)).get "playerId" =
      (if stringField d.fields "playerId" ≠ "" then d.fields.get "playerId" else none) ∧
    (buildFullLogEntry (toEntry d)).get "eventType" =
      (if stringField d.fields "eventType" ≠ "" then d.fields.get "eventType" else none) ∧
    (buildFullLogEntry (toEntry d)).get "timestamp" =
      (match d.fields.get "timestamp" with
        | some (Value.time t) => some (Value.time t)
        | _ => none) := by
  have hknown : ∀ k, k ∈ codeKnownFields → (Obj.ofNilable (toEntry d).Data).get k = none := by
    intro k hk
    rw [toEntry_data_get, if_pos hk]
  refine ⟨toEntry_data_get d, ?_, ?_, ?_, ?_, ?_, ?_, ?_⟩
  · intro k hk
    rw [buildFullLogEntry_get, toEntry_data_get, if_neg hk]
    cases hg : d.fields.get k with
    | some v => rfl
    | none =>
      obtain ⟨h1, h2, h3, h4, h5, h6⟩ := not_known_ne k hk
      simp [h1, h2, h3, h4, h5, h6]
  · rw [buildFullLogEntry_get, hknown "_id" (by decide)]
    simp [toEntry]
  · rw [buildFullLogEntry_get, hknown "game" (by decide)]
    simp [toEntry, stringField, hgame, asString]
  · rw [buildFullLogEntry_get, hknown "serverTimestamp" (by decide)]
    simp [toEntry]
  · rw [buildFullLogEntry_get, hknown "playerId" (by decide)]
    by_cases hp : stringField d.fields "playerId" = ""
    · simp [toEntry, hp]
    · simp [toEntry, hp, stringField_ne_empty d.fields "playerId" hp]
  · rw [buildFullLogEntry_get, hknown "eventType" (by decide)]
    by_cases hp : stringField d.fields "eventType" = ""
    · simp [toEntry, hp]
    · simp [toEntry, hp, stringField_ne_empty d.fields "eventType" hp]
  · rw [buildFullLogEntry_get, hknown "timestamp" (by decide)]
    simp only [toEntry]
    cases hg : d.fields.get "timestamp" with
    | none => simp
    | some v => cases v <;> simp

/-- C28 on the document of `levelPayload`: the full entry has `level` with its
value 5 and the player `p1`. -/
theorem read_side_round_trip_witness :
    (⟨1, 7, levelPayload⟩ : Doc).fields.get "game" = some (Value.str "mhs") ∧
    ((∀ k, (Obj.ofNilable (toEntry ⟨1, 7, levelPayload⟩).Data).get k =
      if k ∈ codeKnownFields then none else (⟨1, 7, levelPayload⟩ : Doc).fields.get k) ∧
    (∀ k, k ∉ codeKnownFields →
      (buildFullLogEntry (toEntry ⟨1, 7, levelPayload⟩)).get k =
        (⟨1, 7, levelPayload⟩ : Doc).fields.get k) ∧
    (buildFullLogEntry (toEntry ⟨1, 7, levelPayload⟩)).get "_id" =
      some (Value.str (Hex (⟨1, 7, levelPayload⟩ : Doc).ID)) ∧
    (buildFullLogEntry (toEntry ⟨1, 7, levelPayload⟩)).get "game" =
      (⟨1, 7, levelPayload⟩ : Doc).fields.get "game" ∧
    (buildFullLogEntry (toEntry ⟨1, 7, levelPayload⟩)).get "serverTimestamp" =
      some (Value.time (⟨1, 7, levelPayload⟩ : Doc).ServerTimestamp) ∧
    (buildFullLogEntry (toEntry ⟨1, 7, levelPayload⟩)).get "playerId" =
      (if stringField (⟨1, 7, levelPayload⟩ : Doc).fields "playerId" ≠ ""
        then (⟨1, 7, levelPayload⟩ : Doc).fields.get "playerId" else none) ∧
    (buildFullLogEntry (toEntry ⟨1, 7, levelPayload⟩)).get "eventType" =
      (if stringField (⟨1, 7, levelPayload⟩ : Doc).fields "eventType" ≠ ""
        then (⟨1, 7, levelPayload⟩ : Doc).fields.get "eventType" else none) ∧
    (buildFullLogEntry (toEntry ⟨1, 7, levelPayload⟩)).get "timestamp" =
      (match (⟨1, 7, levelPayload⟩ : Doc).fields.get "timestamp" with
        | some (Value.time t) => some (Value.time t)
        | _ => none)) ∧
    (buildFullLogEntry (toEntry ⟨1, 7, levelPayload⟩)).get "level" =
      some (Value.number 5) ∧
    (buildFullLogEntry (toEntry ⟨1, 7, levelPayload⟩)).get "playerId" =
      some (Value.str "p1") :=
  ⟨rfl, read_side_round_trip ⟨1, 7, levelPayload⟩ "mhs" rfl, rfl, rfl⟩

/-! ## Client attributes in the listing -/

/-- C29 fails on the code. The valid submission `levelPayload` carries the
attribute `level` with value 5. It is accepted and stored with `level` at the
top of the document. The listing for the game then returns the entry with its
`playerId` and `eventType` and with a nil `data`: `ListHandler` decodes only
the key `data` of a document. `ListLogs` of the log browser, on the same
store, rebuilds `level` in `Data`. -/
theorem listing_drops_client_attribute :
    ((NewHandler 0).SubmitHandler ⟨7, false, 0⟩ ⟨[], []⟩ (Body.parsed levelPayload)).1.code = "" ∧
    ((NewHandler 0).SubmitHandler ⟨7, false, 0⟩ ⟨[], []⟩ (Body.parsed levelPayload)).2.logdata =
      [Obj.set levelPayload "serverTimestamp" (Value.time 7)] ∧
    ListHandler sampleAtoi sampleParse
        (storeOf countingIds ((NewHandler 0).SubmitHandler ⟨7, false, 0⟩ ⟨[], []⟩
          (Body.parsed levelPayload)).2.logdata) (gameQuery "mhs") =
      ListResponse.ok
        { Entries := [{ ID := 1, Game := "mhs", PlayerID := "p1", EventType := "level_start",
                        Timestamp := none, ServerTimestamp := 7, Data := none }],
          Total := 1, Limit := 100, Offset := 0 } ∧
    (ListLogs (storeOf countingIds ((NewHandler 0).SubmitHandler ⟨7, false, 0⟩ ⟨[], []⟩
        (Body.parsed levelPayload)).2.logdata) "mhs" "" "" 10 "" "").1.map
          (fun e => (Obj.ofNilable e.Data).get "level") = [some (Value.number 5)] := by
  refine ⟨?_, ?_, ?_, ?_⟩
  · decide
  · rfl
  · with_unfolding_all rfl
  · rfl

/-! ## Both cursors -/

/-- C30. With a well-formed `beforeID` that decodes to `b`, `ListLogs` returns
for every `afterID` what it returns for the empty `afterID`: the entries,
`hasPrev` and `hasNext` are computed from the documents above `b` alone. -/
theorem backward_cursor_wins (coll : List Doc) (game playerID eventType : String)
    (limit : Nat) (afterID beforeID : String) (b : ObjectID)
    (hb : ObjectIDFromHex beforeID = some b) :
    ListLogs coll game playerID eventType limit afterID beforeID =
      ListLogs coll game playerID eventType limit "" beforeID ∧
    ListLogs coll game playerID eventType limit afterID beforeID =
      ((((sortedAsc (coll.filter (fun d =>
          matchesFilter game playerID eventType d && decide (b < d.ID)))).take limit).reverse).map
            toEntry,
        decide (limit < (coll.filter (fun d =>
          matchesFilter game playerID eventType d && decide (b < d.ID))).length),
        true) := by
  rw [ListLogs_before coll game playerID eventType limit afterID beforeID b hb,
    ListLogs_before coll game playerID eventType limit "" beforeID b hb]
  refine ⟨rfl, ?_⟩
  simp [sortedAsc, List.length_insertionSort]

/-- C30 on the sample store: with `beforeID` 1 and limit 1 the page is the
entry 2 for the `afterID` 3 as for none, and also for the `afterID` 2, whose
bound would leave nothing above 1. -/
theorem backward_cursor_wins_witness :
    ObjectIDFromHex "000000000000000000000001" = some 1 ∧
    (ListLogs sampleColl "mhs" "" "" 1 "000000000000000000000003"
        "000000000000000000000001" =
      ListLogs sampleColl "mhs" "" "" 1 "" "000000000000000000000001" ∧
    ListLogs sampleColl "mhs" "" "" 1 "000000000000000000000003"
        "000000000000000000000001" =
      ((((sortedAsc (sampleColl.filter (fun d =>
          matchesFilter "mhs" "" "" d && decide (1 < d.ID)))).take 1).reverse).map toEntry,
        decide (1 < (sampleColl.filter (fun d =>
          matchesFilter "mhs" "" "" d && decide (1 < d.ID))).length),
        true)) ∧
    (ListLogs sampleColl "mhs" "" "" 1 "000000000000000000000003"
        "000000000000000000000001").1.map LogEntry.ID = [2] ∧
    (ListLogs sampleColl "mhs" "" "" 1 "000000000000000000000003" "").1.map LogEntry.ID =
      [2] ∧
    (ListLogs sampleColl "mhs" "" "" 1 "000000000000000000000002"
        "000000000000000000000001").1.map LogEntry.ID = [2] :=
  ⟨by decide,
    backward_cursor_wins sampleColl "mhs" "" "" 1 "000000000000000000000003"
      "000000000000000000000001" 1 (by decide),
    by decide, by decide, by decide⟩

end Stratalog
